import Mathlib

/-!
# go-filesys: the adapter routing layer

A shallow embedding of `store.go`, `init.go`, `store_default.go` and of the
adapters: the `Delete` method of all eight, and the `GetSignURL`, `Upload`,
`Download`, `IsExist`, `GetInfo` and `Lists` methods that the theorems are
about.

Conventions of the embedding:

* a Go `error` is `Option String`: `none` is `nil`, `some m` is a non-nil error
  whose `Error()` text is `m`;
* a Go pointer or interface value that may be `nil` is an `Option`;
* everything outside the package (a backend SDK client, the filesystem, an
  adapter implementation handed to a `Store`) acts on an abstract world `σ`
  and is a total state transformer `σ → result × σ`;
* a call that dereferences `nil` ends in `Outcome.nilDeref` (the Go runtime
  panic "invalid memory address or nil pointer dereference");
* the `context.Context` argument is passed through unchanged by every
  function of the package and is left out.
-/

namespace Filesys

/-! ## Data model (`adapter.go`) -/

/-- Go `error`: `none` is `nil`, `some m` carries the message `m`. -/
abbrev Err := Option String

/-- Byte content of a reader or of a stored object. -/
abbrev Bytes := List UInt8

/-- Go `map[string]string`, as an association list. -/
abbrev HeaderMap := List (String × String)

/-- Descriptor of a stored object, `type File struct`. -/
structure File where
  ModTime : Int
  Name : String
  Size : Int
  IsDir : Bool
  Header : HeaderMap
  deriving DecidableEq

/-- Result of running a function of the package: it returns a value, or the
Go runtime panics on a nil dereference. -/
inductive Outcome (α : Type) where
  | nilDeref : Outcome α
  | ok : α → Outcome α
  deriving DecidableEq

/-- The `Adapter` interface: one field per method. The variadic parameters
`objects ...string`, `expire ...int64` and `headers ...map[string]string` are
lists; the `reader` is the byte content it yields. -/
structure Adapter (σ : Type) where
  Delete : List String → σ → Err × σ
  GetSignURL : String → List Int → σ → (String × Err) × σ
  IsExist : String → σ → Err × σ
  Lists : String → σ → (List File × Err) × σ
  Upload : String → Bytes → Int → List HeaderMap → σ → Err × σ
  Download : String → σ → (Option Bytes × Err) × σ
  GetInfo : String → σ → (Option File × Err) × σ

/-! ## The Store facade (`store.go`) -/

/-- The struct `Store`: it embeds one `Adapter` interface value, which may be nil. -/
structure Store (σ : Type) where
  localAdapter : Option (Adapter σ)

/-- Go `NewWithAdapter`: the returned pointer is never nil. -/
def NewWithAdapter {σ : Type} (adapter : Option (Adapter σ)) : Store σ :=
  { localAdapter := adapter }

/-- Go `(*Store).SetAdapter`; a nil receiver cannot be written through. -/
def Store.SetAdapter {σ : Type} (c : Option (Store σ)) (adapter : Option (Adapter σ)) :
    Outcome (Store σ) :=
  match c with
  | none => Outcome.nilDeref
  | some _ => Outcome.ok { localAdapter := adapter }

/-- Go `(*Store).GetAdapter`: reads `c.localAdapter` through the receiver. -/
def Store.GetAdapter {σ : Type} (c : Option (Store σ)) : Outcome (Option (Adapter σ)) :=
  match c with
  | none => Outcome.nilDeref
  | some s => Outcome.ok s.localAdapter

/-- The receiver expression `c.localAdapter` of a method call
`c.localAdapter.M(...)`: it panics when the `*Store` is nil (field read
through a nil pointer) and when the interface value is nil (method call on a
nil interface). -/
def Store.held {σ : Type} (c : Option (Store σ)) : Outcome (Adapter σ) :=
  match c with
  | none => Outcome.nilDeref
  | some s =>
    match s.localAdapter with
    | none => Outcome.nilDeref
    | some a => Outcome.ok a

/-- Go `(*Store).Delete`. -/
def Store.Delete {σ : Type} (c : Option (Store σ)) (object : String) (w : σ) :
    Outcome (Err × σ) :=
  match Store.held c with
  | Outcome.nilDeref => Outcome.nilDeref
  | Outcome.ok a => Outcome.ok (a.Delete [object] w)

/-- Go `(*Store).Deletes`. -/
def Store.Deletes {σ : Type} (c : Option (Store σ)) (objects : List String) (w : σ) :
    Outcome (Err × σ) :=
  match Store.held c with
  | Outcome.nilDeref => Outcome.nilDeref
  | Outcome.ok a => Outcome.ok (a.Delete objects w)

/-- Go `(*Store).GetSignURL`: with a non-empty `expire` the adapter is called
with it and the result is dropped (the statement has no `return`); the value
returned is always that of the call without `expire`. -/
def Store.GetSignURL {σ : Type} (c : Option (Store σ)) (object : String) (expire : List Int)
    (w : σ) : Outcome ((String × Err) × σ) :=
  match Store.held c with
  | Outcome.nilDeref => Outcome.nilDeref
  | Outcome.ok a =>
    if expire.length > 0 then
      let w1 := (a.GetSignURL object expire w).2
      Outcome.ok (a.GetSignURL object [] w1)
    else
      Outcome.ok (a.GetSignURL object [] w)

/-- Go `(*Store).IsExist`. -/
def Store.IsExist {σ : Type} (c : Option (Store σ)) (object : String) (w : σ) :
    Outcome (Err × σ) :=
  match Store.held c with
  | Outcome.nilDeref => Outcome.nilDeref
  | Outcome.ok a => Outcome.ok (a.IsExist object w)

/-- Go `(*Store).Lists`. -/
def Store.Lists {σ : Type} (c : Option (Store σ)) (pfx : String) (w : σ) :
    Outcome ((List File × Err) × σ) :=
  match Store.held c with
  | Outcome.nilDeref => Outcome.nilDeref
  | Outcome.ok a => Outcome.ok (a.Lists pfx w)

/-- Go `(*Store).Upload`: both branches return the adapter call. -/
def Store.Upload {σ : Type} (c : Option (Store σ)) (path : String) (reader : Bytes)
    (size : Int) (headers : List HeaderMap) (w : σ) : Outcome (Err × σ) :=
  match Store.held c with
  | Outcome.nilDeref => Outcome.nilDeref
  | Outcome.ok a =>
    if headers.length > 0 then
      Outcome.ok (a.Upload path reader size headers w)
    else
      Outcome.ok (a.Upload path reader size [] w)

/-- Go `(*Store).Download`. -/
def Store.Download {σ : Type} (c : Option (Store σ)) (object : String) (w : σ) :
    Outcome ((Option Bytes × Err) × σ) :=
  match Store.held c with
  | Outcome.nilDeref => Outcome.nilDeref
  | Outcome.ok a => Outcome.ok (a.Download object w)

/-- Go `(*Store).GetInfo`. -/
def Store.GetInfo {σ : Type} (c : Option (Store σ)) (object : String) (w : σ) :
    Outcome ((Option File × Err) × σ) :=
  match Store.held c with
  | Outcome.nilDeref => Outcome.nilDeref
  | Outcome.ok a => Outcome.ok (a.GetInfo object w)

/-- The probe object name of `PingTest`, `saveFile := "test-file.txt"`. -/
def saveFile : String := "test-file.txt"

/-- The probe content of `PingTest`, `text := "test-file"`. -/
def text : String := "test-file"

/-- Go `[]byte(s)`: the UTF-8 bytes of a string. -/
def bytesOf (s : String) : Bytes := s.toUTF8.data.toList

/-- Go `(*Store).PingTest`: upload, existence check, delete; each `err != nil`
returns at once. -/
def Store.PingTest {σ : Type} (c : Option (Store σ)) (w : σ) : Outcome (Err × σ) :=
  match Store.Upload c saveFile (bytesOf text) (Int.ofNat text.utf8ByteSize) [] w with
  | Outcome.nilDeref => Outcome.nilDeref
  | Outcome.ok (some e, w1) => Outcome.ok (some e, w1)
  | Outcome.ok (none, w1) =>
    match Store.IsExist c saveFile w1 with
    | Outcome.nilDeref => Outcome.nilDeref
    | Outcome.ok (some e, w2) => Outcome.ok (some e, w2)
    | Outcome.ok (none, w2) =>
      match Store.Delete c saveFile w2 with
      | Outcome.nilDeref => Outcome.nilDeref
      | Outcome.ok (some e, w3) => Outcome.ok (some e, w3)
      | Outcome.ok (none, w3) => Outcome.ok (none, w3)

/-! ## Registry and default store (`init.go`, `store_default.go`) -/

/-- Go `type NewAdapter func(i interface{}) (Adapter, error)`; `κ` is the
type of the opaque configuration. A constructor may touch the world (the
local one creates a directory). -/
abbrev NewAdapter (κ σ : Type) := κ → σ → (Option (Adapter σ) × Err) × σ

/-- The eight built-in constructors. Their bodies decode the configuration
with the gf library and create a vendor SDK client; here they are given. -/
structure Builtins (κ σ : Type) where
  NewAdapterBos : NewAdapter κ σ
  NewAdapterCos : NewAdapter κ σ
  NewAdapterLocal : NewAdapter κ σ
  NewAdapterMinio : NewAdapter κ σ
  NewAdapterObs : NewAdapter κ σ
  NewAdapterOss : NewAdapter κ σ
  NewAdapterQiniu : NewAdapter κ σ
  NewAdapterUpYun : NewAdapter κ σ

def TypeBos : String := "bos"
def TypeCos : String := "cos"
def TypeLocal : String := "local"
def TypeMinio : String := "minio"
def TypeObs : String := "obs"
def TypeOss : String := "oss"
def TypeQiniu : String := "qiniu"
def TypeUpyun : String := "upyun"

/-- Go `map[string]NewAdapter`: `none` is an absent key, `some none` a key
bound to a nil function value. -/
abbrev Registry (κ σ : Type) := String → Option (Option (NewAdapter κ σ))

/-- The package-level variables `defaultStore` and `adapters`. -/
structure Globals (κ σ : Type) where
  defaultStore : Option (Store σ)
  adapters : Registry κ σ

/-- The map literal that initialises `adapters`. -/
def initialAdapters {κ σ : Type} (b : Builtins κ σ) : Registry κ σ :=
  fun t => List.lookup t
    [ (TypeBos, some b.NewAdapterBos),
      (TypeCos, some b.NewAdapterCos),
      (TypeLocal, some b.NewAdapterLocal),
      (TypeMinio, some b.NewAdapterMinio),
      (TypeObs, some b.NewAdapterObs),
      (TypeOss, some b.NewAdapterOss),
      (TypeQiniu, some b.NewAdapterQiniu),
      (TypeUpyun, some b.NewAdapterUpYun) ]

/-- The package state before any call: `defaultStore` is nil. -/
def Globals.initial {κ σ : Type} (b : Builtins κ σ) : Globals κ σ :=
  { defaultStore := none, adapters := initialAdapters b }

/-- Go `RegistAdapter`: `adapters[adapterType] = adapter`. -/
def RegistAdapter {κ σ : Type} (g : Globals κ σ) (adapterType : String)
    (adapter : Option (NewAdapter κ σ)) : Globals κ σ :=
  { g with adapters := fun t => if t = adapterType then some adapter else g.adapters t }

/-- Text of `gerror.Newf("不存在[%s]类型的适配器", adapterType)`. -/
def unknownTypeMsg (adapterType : String) : String :=
  "不存在[" ++ adapterType ++ "]类型的适配器"

/-- Text of `gerror.Newf("适配器[%s]不存在", adapterType)`. -/
def notExistMsg (adapterType : String) : String :=
  "适配器[" ++ adapterType ++ "]不存在"

/-- Go `NewStore`. Calling a nil function value panics. -/
def NewStore {κ σ : Type} (g : Globals κ σ) (adapterType : String) (cfg : κ) (w : σ) :
    Outcome ((Option (Store σ) × Err) × σ) :=
  match g.adapters adapterType with
  | none => Outcome.ok ((none, some (unknownTypeMsg adapterType)), w)
  | some none => Outcome.nilDeref
  | some (some adapterFun) =>
    match adapterFun cfg w with
    | ((_, some err), w1) => Outcome.ok ((none, some err), w1)
    | ((adapter, none), w1) => Outcome.ok ((some (NewWithAdapter adapter), none), w1)

/-- Go `Init`: the guard returns before `defaultStore` is touched; past the
guard `defaultStore, err = NewStore(adapterType, cfg)` assigns both results. -/
def Init {κ σ : Type} (g : Globals κ σ) (adapterType : String) (cfg : κ) (w : σ) :
    Outcome (Err × Globals κ σ × σ) :=
  match g.adapters adapterType with
  | none => Outcome.ok (some (notExistMsg adapterType), g, w)
  | some none => Outcome.ok (some (notExistMsg adapterType), g, w)
  | some (some _) =>
    match NewStore g adapterType cfg w with
    | Outcome.nilDeref => Outcome.nilDeref
    | Outcome.ok ((store, err), w1) => Outcome.ok (err, { g with defaultStore := store }, w1)

/-- Go free function `Delete`. -/
def Delete {κ σ : Type} (g : Globals κ σ) (object : String) (w : σ) : Outcome (Err × σ) :=
  Store.Delete g.defaultStore object w

/-- Go free function `Deletes`. -/
def Deletes {κ σ : Type} (g : Globals κ σ) (objects : List String) (w : σ) :
    Outcome (Err × σ) :=
  Store.Deletes g.defaultStore objects w

/-- Go free function `GetSignURL`: like the method, the call with `expire`
is made and its result dropped. -/
def GetSignURL {κ σ : Type} (g : Globals κ σ) (object : String) (expire : List Int) (w : σ) :
    Outcome ((String × Err) × σ) :=
  if expire.length > 0 then
    match Store.GetSignURL g.defaultStore object expire w with
    | Outcome.nilDeref => Outcome.nilDeref
    | Outcome.ok (_, w1) => Store.GetSignURL g.defaultStore object [] w1
  else
    Store.GetSignURL g.defaultStore object [] w

/-- Go free function `IsExist`. -/
def IsExist {κ σ : Type} (g : Globals κ σ) (object : String) (w : σ) : Outcome (Err × σ) :=
  Store.IsExist g.defaultStore object w

/-- Go free function `Lists`. -/
def Lists {κ σ : Type} (g : Globals κ σ) (pfx : String) (w : σ) :
    Outcome ((List File × Err) × σ) :=
  Store.Lists g.defaultStore pfx w

/-- Go free function `Upload`. -/
def Upload {κ σ : Type} (g : Globals κ σ) (path : String) (reader : Bytes) (size : Int)
    (headers : List HeaderMap) (w : σ) : Outcome (Err × σ) :=
  if headers.length > 0 then
    Store.Upload g.defaultStore path reader size headers w
  else
    Store.Upload g.defaultStore path reader size [] w

/-- Go free function `Download`. -/
def Download {κ σ : Type} (g : Globals κ σ) (object : String) (w : σ) :
    Outcome ((Option Bytes × Err) × σ) :=
  Store.Download g.defaultStore object w

/-- Go free function `GetInfo`. -/
def GetInfo {κ σ : Type} (g : Globals κ σ) (object : String) (w : σ) :
    Outcome ((Option File × Err) × σ) :=
  Store.GetInfo g.defaultStore object w

/-- Go free function `PingTest`. -/
def PingTest {κ σ : Type} (g : Globals κ σ) (w : σ) : Outcome (Err × σ) :=
  Store.PingTest g.defaultStore w

/-! ## The `Delete` method of the eight adapters

The path helpers `objectRel` and `objectAbs` are used by the adapters but their
source file is not among the sources; the adapters take them as given. Each
vendor SDK client is given by the calls `Delete` makes on it. -/

/-- The package helpers `objectRel` and `objectAbs`. -/
structure PathHelpers where
  objectRel : String → String
  objectAbs : String → String

/-- Go `strings.Join(errs, "; ")`. -/
def joinErrs (errs : List String) : String := String.intercalate "; " errs

/-- The loop of `LocalAdapter.Delete`, `CosAdapter.Delete` and
`UpYunAdapter.Delete`, which differ only in the removal call:
`for _, object := range objects { err = remove(object); if err != nil { errs = append(errs, err.Error()) } }`.
The named result `err` is overwritten by every iteration. -/
def deleteLoop {σ : Type} (remove : String → σ → Err × σ) :
    List String → Err → List String → σ → Err × List String × σ
  | [], err, errs, w => (err, errs, w)
  | object :: rest, _, errs, w =>
    match remove object w with
    | (some e, w1) => deleteLoop remove rest (some e) (errs ++ [e]) w1
    | (none, w1) => deleteLoop remove rest none errs w1

/-- The loop followed by `if len(errs) > 0 { err = errors.New(strings.Join(errs, "; ")) }; return`. -/
def deleteEach {σ : Type} (remove : String → σ → Err × σ) (objects : List String) (w : σ) :
    Err × σ :=
  match deleteLoop remove objects none [] w with
  | (err, errs, w1) =>
    if errs.length > 0 then (some (joinErrs errs), w1) else (err, w1)

/-- `type ConfigLocal struct`. -/
structure ConfigLocal where
  Path : String
  IsDev : String
  Domain : String

/-- The functions of the gf `gfile` package that `LocalAdapter.Delete` calls. -/
structure Gfile (σ : Type) where
  Join : String → String → String
  Remove : String → σ → Err × σ

/-- `type LocalAdapter struct`. -/
structure LocalAdapter where
  config : ConfigLocal

/-- Go `(*LocalAdapter).Delete`. -/
def LocalAdapter.Delete {σ : Type} (gfile : Gfile σ) (c : LocalAdapter) (objects : List String)
    (w : σ) : Err × σ :=
  deleteEach (fun object => gfile.Remove (gfile.Join c.config.Path object)) objects w

/-- `type ConfigCos struct`. -/
structure ConfigCos where
  AccessKey : String
  SecretKey : String
  Region : String
  AppId : String
  Bucket : String
  Domain : String
  Expire : Int

/-- The call `client.Object.Delete(ctx, name)` of the COS SDK; its response
value is dropped by the adapter. -/
structure CosClient (σ : Type) where
  ObjectDelete : String → σ → Err × σ

/-- `type CosAdapter struct`. -/
structure CosAdapter (σ : Type) where
  config : ConfigCos
  client : CosClient σ

/-- Go `(*CosAdapter).Delete`. -/
def CosAdapter.Delete {σ : Type} (h : PathHelpers) (c : CosAdapter σ) (objects : List String)
    (w : σ) : Err × σ :=
  deleteEach (fun object => c.client.ObjectDelete (h.objectRel object)) objects w

/-- `type ConfigUpYun struct`. -/
structure ConfigUpYun where
  Bucket : String
  Operator : String
  Password : String
  Secret : String
  Domain : String
  Expire : Int

/-- The call `client.Delete(&upyun.DeleteObjectConfig{Path: p})` of the UpYun SDK. -/
structure UpYunClient (σ : Type) where
  Delete : String → σ → Err × σ

/-- `type UpYunAdapter struct`. -/
structure UpYunAdapter (σ : Type) where
  config : ConfigUpYun
  client : UpYunClient σ

/-- Go `(*UpYunAdapter).Delete`. -/
def UpYunAdapter.Delete {σ : Type} (h : PathHelpers) (u : UpYunAdapter σ)
    (objects : List String) (w : σ) : Err × σ :=
  deleteEach (fun object => u.client.Delete (h.objectAbs object)) objects w

/-- `type ConfigOss struct`. -/
structure ConfigOss where
  AccessKey : String
  SecretKey : String
  Endpoint : String
  Bucket : String
  Domain : String
  Expire : Int

/-- `type ConfigMinio struct`. -/
structure ConfigMinio where
  AccessKey : String
  SecretKey : String
  Endpoint : String
  Bucket : String
  Domain : String
  Expire : Int

/-- `type ConfigBos struct`. -/
structure ConfigBos where
  AccessKey : String
  SecretKey : String
  Endpoint : String
  Bucket : String
  Domain : String
  Expire : Int

/-- `type ConfigObs struct`. -/
structure ConfigObs where
  AccessKey : String
  SecretKey : String
  Endpoint : String
  Bucket : String
  Domain : String
  Expire : Int

/-- `type ConfigQiniu struct`. -/
structure ConfigQiniu where
  AccessKey : String
  SecretKey : String
  Endpoint : String
  Bucket : String
  Domain : String
  Expire : Int

/-- The call `client.DeleteObjects(keys)` on an `*oss.Bucket`; the result
value is dropped by the adapter. -/
structure OssClient (σ : Type) where
  DeleteObjects : List String → σ → Err × σ

/-- `type OssAdapter struct`. -/
structure OssAdapter (σ : Type) where
  config : ConfigOss
  client : OssClient σ

/-- Go `(*OssAdapter).Delete`: `_, err = o.client.DeleteObjects(objects); return`. -/
def OssAdapter.Delete {σ : Type} (o : OssAdapter σ) (objects : List String) (w : σ) :
    Err × σ :=
  o.client.DeleteObjects objects w

/-- One element of the channel returned by minio `RemoveObjects`. -/
structure RemoveObjectError where
  ObjectName : String
  Err : Err

/-- The call `client.RemoveObjects(bucket, objectsChan)`: the keys sent on the
channel, in order, and the errors received from the result channel. -/
structure MinioClient (σ : Type) where
  RemoveObjects : String → List String → σ → List RemoveObjectError × σ

/-- `type MinIoAdapter struct`. -/
structure MinIoAdapter (σ : Type) where
  config : ConfigMinio
  client : MinioClient σ

/-- Go `(*MinIoAdapter).Delete`. -/
def MinIoAdapter.Delete {σ : Type} (h : PathHelpers) (m : MinIoAdapter σ)
    (objects : List String) (w : σ) : Err × σ :=
  if objects.length = 0 then (none, w)
  else
    match m.client.RemoveObjects m.config.Bucket (objects.map h.objectRel) w with
    | (res, w1) =>
      let errs := res.filterMap (fun errRm => errRm.Err)
      if errs.length > 0 then (some (joinErrs errs), w1) else (none, w1)

/-- One entry of `DeleteMultipleObjectsResult.Errors`. -/
structure DeleteObjectResult where
  Key : String
  Code : String
  Message : String

/-- The BOS `api.DeleteMultipleObjectsResult`. -/
structure DeleteMultipleObjectsResult where
  Errors : List DeleteObjectResult

/-- The call `client.DeleteMultipleObjectsFromKeyList(bucket, keys)`, which
returns a result pointer and an error, and the `%+v` rendering of the result. -/
structure BosClient (σ : Type) where
  DeleteMultipleObjectsFromKeyList :
    String → List String → σ → (Option DeleteMultipleObjectsResult × Err) × σ
  fmtResult : DeleteMultipleObjectsResult → String

/-- `type BosAdapter struct`. -/
structure BosAdapter (σ : Type) where
  config : ConfigBos
  client : BosClient σ

/-- Go `(*BosAdapter).Delete`: the error returned by the client is assigned
to `_`. (The in-place rewrite of the caller's slice is not modelled.) -/
def BosAdapter.Delete {σ : Type} (h : PathHelpers) (b : BosAdapter σ) (objects : List String)
    (w : σ) : Err × σ :=
  if objects.length = 0 then (none, w)
  else
    match b.client.DeleteMultipleObjectsFromKeyList b.config.Bucket
        (objects.map h.objectRel) w with
    | ((some res, _), w1) =>
      if res.Errors.length > 0 then (some (b.client.fmtResult res), w1) else (none, w1)
    | ((none, _), w1) => (none, w1)

/-- The call `client.DeleteObjects(&obs.DeleteObjectsInput{Bucket, Objects})`;
the output value is dropped by the adapter. -/
structure ObsClient (σ : Type) where
  DeleteObjects : String → List String → σ → Err × σ

/-- `type ObsAdapter struct`. -/
structure ObsAdapter (σ : Type) where
  config : ConfigObs
  client : ObsClient σ

/-- Go `(*ObsAdapter).Delete`. -/
def ObsAdapter.Delete {σ : Type} (h : PathHelpers) (o : ObsAdapter σ) (objects : List String)
    (w : σ) : Err × σ :=
  if objects.length ≤ 0 then (none, w)
  else o.client.DeleteObjects o.config.Bucket (objects.map h.objectRel) w

/-- Qiniu `storage.BatchOpRet`: the status code and the `%+v` rendering of `Data`. -/
structure BatchOpRet where
  Code : Int
  Data : String

/-- The Qiniu SDK calls of `Delete`: `storage.URIDelete(bucket, key)` and
`storage.NewBucketManager(mac, cfg).Batch(ops)`. -/
structure QiniuClient (σ : Type) where
  URIDelete : String → String → String
  Batch : List String → σ → (List BatchOpRet × Err) × σ

/-- `type QiniuAdapter struct`; `client` stands for the fields `zone`, `mac`
and `bucketManager`, from which `Delete` builds its bucket manager. -/
structure QiniuAdapter (σ : Type) where
  config : ConfigQiniu
  client : QiniuClient σ

/-- The deferred function of `QiniuAdapter.Delete`:
`if err != nil && err.Error() == "" { err = nil }`. -/
def QiniuAdapter.deferred (err : Err) : Err :=
  match err with
  | some m => if m = "" then none else some m
  | none => none

/-- Go `(*QiniuAdapter).Delete`; `http.StatusOK` is 200 and the message of a
failed item is `fmt.Errorf("%+v: %v", item.Data, item.Code)`. -/
def QiniuAdapter.Delete {σ : Type} (h : PathHelpers) (q : QiniuAdapter σ)
    (objects : List String) (w : σ) : Err × σ :=
  if objects.length = 0 then (none, w)
  else
    let deleteOps := objects.map (fun object => q.client.URIDelete q.config.Bucket (h.objectRel object))
    match q.client.Batch deleteOps w with
    | ((_, some err), w1) => (QiniuAdapter.deferred (some err), w1)
    | ((res, none), w1) =>
      let errs := (res.filter (fun item => item.Code ≠ 200)).map
        (fun item => item.Data ++ ": " ++ toString item.Code)
      if errs.length > 0 then (QiniuAdapter.deferred (some (joinErrs errs)), w1)
      else (QiniuAdapter.deferred none, w1)

/-! ## Instrumentation and a fake backend

Used to state which calls a function makes, and as concrete inputs. -/

/-- One call on an `Adapter`, with its arguments. -/
inductive Call where
  | Delete (objects : List String)
  | GetSignURL (object : String) (expire : List Int)
  | IsExist (object : String)
  | Lists (pfx : String)
  | Upload (path : String) (reader : Bytes) (size : Int) (headers : List HeaderMap)
  | Download (object : String)
  | GetInfo (object : String)
  deriving DecidableEq

/-- The adapter `a` with a log: every call appends itself to the log and
then behaves as `a`. -/
def recording {σ : Type} (a : Adapter σ) : Adapter (σ × List Call) where
  Delete objects s :=
    ((a.Delete objects s.1).1, ((a.Delete objects s.1).2, s.2 ++ [Call.Delete objects]))
  GetSignURL object expire s :=
    ((a.GetSignURL object expire s.1).1,
      ((a.GetSignURL object expire s.1).2, s.2 ++ [Call.GetSignURL object expire]))
  IsExist object s :=
    ((a.IsExist object s.1).1, ((a.IsExist object s.1).2, s.2 ++ [Call.IsExist object]))
  Lists pfx s :=
    ((a.Lists pfx s.1).1, ((a.Lists pfx s.1).2, s.2 ++ [Call.Lists pfx]))
  Upload path reader size headers s :=
    ((a.Upload path reader size headers s.1).1,
      ((a.Upload path reader size headers s.1).2,
        s.2 ++ [Call.Upload path reader size headers]))
  Download object s :=
    ((a.Download object s.1).1, ((a.Download object s.1).2, s.2 ++ [Call.Download object]))
  GetInfo object s :=
    ((a.GetInfo object s.1).1, ((a.GetInfo object s.1).2, s.2 ++ [Call.GetInfo object]))

/-- A call `f` on one string argument with a log of its arguments. -/
def logged {σ ρ : Type} (f : String → σ → ρ × σ) (arg : String) (s : σ × List String) :
    ρ × (σ × List String) :=
  ((f arg s.1).1, ((f arg s.1).2, s.2 ++ [arg]))

/-- The store that `NewWithAdapter(a)` returns for a non-nil adapter `a`. -/
def Store.holding {σ : Type} (a : Adapter σ) : Option (Store σ) :=
  some (NewWithAdapter (some a))

/-- State of the fake backend: the stored objects, newest first. -/
abbrev Mem := List (String × Bytes)

/-- Content stored under a key in the fake backend. -/
def Mem.content (m : Mem) (key : String) : Option Bytes := List.lookup key m

/-- Descriptor the fake backend reports for a stored object. -/
def Mem.fileOf (kv : String × Bytes) : File :=
  { ModTime := 0, Name := kv.1, Size := Int.ofNat kv.2.length, IsDir := false, Header := [] }

/-- An in-memory key-value backend: upload stores, delete removes, the read
operations fail with a not-found error on an absent key; the link it signs
shows the expiry it was given. -/
def memAdapter : Adapter Mem where
  Delete objects m := (none, m.filter (fun kv => !(objects.contains kv.1)))
  GetSignURL object expire m :=
    match expire with
    | [] => (("mem://" ++ object, none), m)
    | e :: _ => (("mem://" ++ object ++ "?expire=" ++ toString e, none), m)
  IsExist object m :=
    match Mem.content m object with
    | some _ => (none, m)
    | none => (some "not exist file", m)
  Lists pfx m := (((m.filter (fun kv => pfx.isPrefixOf kv.1)).map Mem.fileOf, none), m)
  Upload path reader _ _ m := (none, (path, reader) :: m.filter (fun kv => !(kv.1 == path)))
  Download object m :=
    match Mem.content m object with
    | some b => ((some b, none), m)
    | none => ((none, some "not exist file"), m)
  GetInfo object m :=
    match Mem.content m object with
    | some b => ((some (Mem.fileOf (object, b)), none), m)
    | none => ((none, some "not exist file"), m)

/-- A backend on which the existence check always fails, uploads being
stored as usual. -/
def blindAdapter : Adapter Mem :=
  { memAdapter with IsExist := fun _ m => (some "not exist file", m) }

/-- An OSS bucket client that records the key list of every `DeleteObjects`
request and rejects a request without keys. -/
def probeOssClient : OssClient (List (List String)) :=
  { DeleteObjects := fun keys s => (if keys = [] then some "MalformedXML" else none, s ++ [keys]) }

/-- An OSS adapter over the recording client. -/
def probeOssAdapter : OssAdapter (List (List String)) :=
  { config := { AccessKey := "ak", SecretKey := "sk", Endpoint := "oss.example.com",
                Bucket := "bucket", Domain := "https://bucket.oss.example.com", Expire := 1800 },
    client := probeOssClient }

/-- A constructor over the fake backend: it accepts the configuration `true`
and rejects `false`. -/
def memNewAdapter : NewAdapter Bool Mem :=
  fun cfg m => if cfg then ((some memAdapter, none), m) else ((none, some "bad config"), m)

/-- A second constructor, told apart from `memNewAdapter` by its error text. -/
def strictNewAdapter : NewAdapter Bool Mem :=
  fun _ m => ((none, some "always rejects"), m)

/-- Built-in constructors for the fake world: every type name builds the fake backend. -/
def memBuiltins : Builtins Bool Mem :=
  { NewAdapterBos := memNewAdapter, NewAdapterCos := memNewAdapter,
    NewAdapterLocal := memNewAdapter, NewAdapterMinio := memNewAdapter,
    NewAdapterObs := memNewAdapter, NewAdapterOss := memNewAdapter,
    NewAdapterQiniu := memNewAdapter, NewAdapterUpYun := memNewAdapter }

/-- What the claim "a correct in-memory key-value backend" asks of an adapter,
with `content w K` the content stored under `K` in world `w`: upload succeeds
and stores the bytes, the existence check returns nil exactly on stored keys,
delete of one key succeeds and removes it. -/
structure WorkingBackend {σ : Type} (a : Adapter σ) (content : σ → String → Option Bytes) :
    Prop where
  upload_ok : ∀ K B size headers w,
    (a.Upload K B size headers w).1 = none ∧ content (a.Upload K B size headers w).2 K = some B
  isExist_iff : ∀ K w, (a.IsExist K w).1 = none ↔ (content w K).isSome = true
  delete_ok : ∀ K w,
    (a.Delete [K] w).1 = none ∧ content (a.Delete [K] w).2 K = none

/-- Sequential run of one removal per object, in input order, whatever the
earlier removals returned: the result of each, and the final world. -/
def attempts {σ : Type} (remove : String → σ → Err × σ) : List String → σ → List Err × σ
  | [], w => ([], w)
  | object :: rest, w =>
    ((remove object w).1 :: (attempts remove rest (remove object w).2).1,
      (attempts remove rest (remove object w).2).2)

/-- Messages of the failed removals, in order. -/
def failures (results : List Err) : List String := results.filterMap id

/-- What the claim "best-effort bulk delete with aggregated error" asks of a
bulk delete `del` that removes an object by the backend call `call` on
`key object`, and of `delLogged`, the same delete over the logging call: one
removal per object is attempted, in input order and whatever the earlier ones
returned; the result is nil exactly when no removal failed; otherwise it is
the error whose message joins the messages of the failed removals, in input
order, with "; "; and the backend calls made are those of `objects`, once
each, in order. -/
def BestEffortDelete {σ : Type} (call : String → σ → Err × σ) (key : String → String)
    (del : List String → σ → Err × σ)
    (delLogged : List String → σ × List String → Err × (σ × List String)) : Prop :=
  ∀ (objects : List String) (w : σ) (log : List String),
    (attempts (fun object => call (key object)) objects w).1.length = objects.length ∧
    (del objects w).2 = (attempts (fun object => call (key object)) objects w).2 ∧
    ((del objects w).1 = none ↔
      ∀ r ∈ (attempts (fun object => call (key object)) objects w).1, r = none) ∧
    ((del objects w).1 ≠ none →
      (del objects w).1 = some (String.intercalate "; "
        (failures (attempts (fun object => call (key object)) objects w).1))) ∧
    delLogged objects (w, log) =
      ((del objects w).1, ((del objects w).2, log ++ objects.map key))

/-- A filesystem for the fake world of file names: `Join` puts a slash
between directory and name, `Remove` deletes a file and fails, with a
message naming the path, when there is none. -/
def listGfile : Gfile (List String) :=
  { Join := fun dir name => dir ++ "/" ++ name,
    Remove := fun path files =>
      if files.contains path then (none, files.filter (fun f => !(f == path)))
      else (some ("remove " ++ path ++ ": no such file"), files) }

/-- A local adapter rooted at `/data`. -/
def dataLocalAdapter : LocalAdapter :=
  { config := { Path := "/data", IsDev := "false", Domain := "http://localhost" } }

/-! ## Key normalisation

Go strings are taken as sequences of characters; the cutsets below are ASCII,
for which trimming by bytes and by characters agree. -/

/-- Go `strings.TrimLeft(s, cutset)`: `s` without its leading characters that
are in `cutset`. -/
def trimLeft (s cutset : String) : String :=
  String.mk (s.toList.dropWhile (fun c => cutset.toList.contains c))

/-- Go `strings.TrimRight(s, cutset)`: `s` without its trailing characters
that are in `cutset`. -/
def trimRight (s cutset : String) : String :=
  String.mk ((s.toList.reverse.dropWhile (fun c => cutset.toList.contains c)).reverse)

/-- The backslash character. -/
def backslash : Char := Char.ofNat 92

/-- Every backslash of `s` replaced by a forward slash. -/
def toSlash (s : String) : String :=
  String.mk (s.toList.map (fun c => if c = backslash then '/' else c))

/-- Modelled from the spec: the package helper `objectRel`, whose source file
is not among the sources. The spec asks of the relative form "no leading
separator, forward slashes only", with "Backslashes ... converted to forward
slashes before separator trimming", the empty key giving the empty string and
`./a/b` giving `a/b`; the trimming is that of the one copy of it in the
sources, `strings.TrimLeft(path, "./")` in `OssAdapter.Upload`. -/
def objectRel (object : String) : String := trimLeft (toSlash object) "./"

/-- Modelled from the spec: the package helper `objectAbs`, whose source file
is not among the sources. The spec asks of the absolute form "exactly one
leading `/`, forward slashes only", the empty key giving `/` and `a/b` giving
`/a/b`. -/
def objectAbs (object : String) : String := "/" ++ objectRel object

/-- The spec-modelled helpers, as the parameter the adapters take. -/
def specHelpers : PathHelpers := { objectRel := objectRel, objectAbs := objectAbs }

/-! ## Standard-library values and functions the adapters use -/

/-- Go `strings.HasPrefix(s, pre)`. -/
def hasPrefix (s pre : String) : Bool := pre.toList.isPrefixOf s.toList

/-- Go `*url.URL`, by the two methods the adapters call on it, `u.String()`
and `u.RequestURI()`. -/
structure URL where
  asString : String
  RequestURI : String
  deriving DecidableEq

/-- Go `http.Header`, `map[string][]string`. -/
abbrev HttpHeader := List (String × List String)

/-- Functions of the Go standard library whose result the adapters use as it
comes: `strings.ToLower`, `url.Parse` (`none` when it returns an error),
`http.Header.Get`, the value of `strconv.ParseInt(s, 10, 64)` and of
`time.Parse(http.TimeFormat, s)` (the adapters drop the error of both). -/
structure GoLib where
  ToLower : String → String
  Parse : String → Option URL
  HeaderGet : HttpHeader → String → String
  ParseInt : String → Int
  ParseTime : String → Int

/-- The first lines of every `GetSignURL`:
`exp := config.Expire; if len(expire) > 0 { exp = expire[0] }`. -/
def expOf (configured : Int) (expire : List Int) : Int :=
  match expire with
  | e :: _ => e
  | [] => configured

/-- The domain substitution of the Bos, Obs, Oss and Qiniu adapters:
`if !strings.HasPrefix(link, domain) { if u, errU := url.Parse(link); errU == nil { link = domain + u.RequestURI() } }`. -/
def rehost (lib : GoLib) (domain link : String) : String :=
  if hasPrefix link domain then link
  else
    match lib.Parse link with
    | some u => domain ++ u.RequestURI
    | none => link

/-- The domain substitution of the Cos and MinIO adapters, on the URL value
the signer returned:
`link = u.String(); if !strings.HasPrefix(link, domain) { link = domain + u.RequestURI() }`. -/
def rehostURL (domain : String) (u : URL) : String :=
  if hasPrefix u.asString domain then u.asString else domain ++ u.RequestURI

/-- Go `int64` wrap-around of an integer result. -/
def wrap64 (x : Int) : Int := (x + 2 ^ 63) % 2 ^ 64 - 2 ^ 63

/-- Go `time.Duration(exp) * time.Second`, in nanoseconds. -/
def seconds (exp : Int) : Int := wrap64 (exp * 1000000000)

/-! ## The OSS adapter (`adapter_oss.go`)

The calls on the `*oss.Bucket` client made by the operations other than
`Delete` are given by `OssSdk`. -/

/-- The `oss.Option` values that `Upload` builds. -/
inductive OssOption where
  | ContentType (v : String)
  | ContentEncoding (v : String)
  | ContentDisposition (v : String)
  deriving DecidableEq

/-- One entry of `oss.ListObjectsResult.Objects`, by the fields `Lists` reads. -/
structure OssObject where
  Key : String
  Size : Int
  LastModified : Int
  deriving DecidableEq

/-- The calls `IsObjectExist`, `PutObject`, `SignURL`, `GetObject`,
`GetObjectMeta` and `ListObjects(oss.Prefix(p))` on the bucket client. -/
structure OssSdk (σ : Type) where
  IsObjectExist : String → σ → (Bool × Err) × σ
  PutObject : String → Bytes → List OssOption → σ → Err × σ
  SignURL : String → String → Int → σ → (String × Err) × σ
  GetObject : String → σ → (Option Bytes × Err) × σ
  GetObjectMeta : String → σ → (HttpHeader × Err) × σ
  ListObjects : String → σ → (List OssObject × Err) × σ

/-- The configuration that `NewAdapterOss` keeps in the adapter, from the
decoded and validated one: a non-positive `Expire` becomes 1800, an empty
`Domain` becomes `https://<Bucket>.<Endpoint>`, and `Domain` loses its
trailing slashes and blanks. -/
def NewAdapterOss.config (cfg : ConfigOss) : ConfigOss :=
  let cfg1 := if cfg.Expire ≤ 0 then { cfg with Expire := 1800 } else cfg
  let cfg2 :=
    if cfg1.Domain = "" then
      { cfg1 with Domain := "https://" ++ cfg1.Bucket ++ "." ++ cfg1.Endpoint }
    else cfg1
  { cfg2 with Domain := trimRight cfg2.Domain "/ " }

/-- Go `(*OssAdapter).IsExist`. -/
def OssAdapter.IsExist {σ : Type} (h : PathHelpers) (sdk : OssSdk σ) (object : String)
    (w : σ) : Err × σ :=
  match sdk.IsObjectExist (h.objectRel object) w with
  | ((_, some err), w1) => (some err, w1)
  | ((b, none), w1) => if !b then (some "file is not exist", w1) else (none, w1)

/-- The body of the header loop of `OssAdapter.Upload`, for one entry. -/
def OssAdapter.header (lib : GoLib) (opts : List OssOption) (kv : String × String) :
    List OssOption :=
  if lib.ToLower kv.1 = "content-type" then opts ++ [OssOption.ContentType kv.2]
  else if lib.ToLower kv.1 = "content-encoding" then opts ++ [OssOption.ContentEncoding kv.2]
  else if lib.ToLower kv.1 = "content-disposition" then
    opts ++ [OssOption.ContentDisposition kv.2]
  else opts

/-- Go `(*OssAdapter).Upload`: the object key is `strings.TrimLeft(path, "./")`. -/
def OssAdapter.Upload {σ : Type} (lib : GoLib) (sdk : OssSdk σ) (path : String)
    (reader : Bytes) (_size : Int) (headers : List HeaderMap) (w : σ) : Err × σ :=
  sdk.PutObject (trimLeft path "./") reader
    (headers.foldl (fun opts header => header.foldl (OssAdapter.header lib) opts) []) w

/-- Go `(*OssAdapter).GetSignURL`; `http.MethodGet` is "GET". -/
def OssAdapter.GetSignURL {σ : Type} (h : PathHelpers) (lib : GoLib) (sdk : OssSdk σ)
    (o : OssAdapter σ) (object : String) (expire : List Int) (w : σ) : (String × Err) × σ :=
  if expOf o.config.Expire expire ≤ 0 then
    ((o.config.Domain ++ "/" ++ h.objectRel object, none), w)
  else
    match sdk.SignURL (h.objectRel object) "GET" (expOf o.config.Expire expire) w with
    | ((link, some err), w1) => ((link, some err), w1)
    | ((link, none), w1) => ((rehost lib o.config.Domain link, none), w1)

/-- Go `(*OssAdapter).Download`. -/
def OssAdapter.Download {σ : Type} (h : PathHelpers) (sdk : OssSdk σ) (object : String)
    (w : σ) : (Option Bytes × Err) × σ :=
  sdk.GetObject (h.objectRel object) w

/-- Go `(*OssAdapter).GetInfo`. -/
def OssAdapter.GetInfo {σ : Type} (h : PathHelpers) (lib : GoLib) (sdk : OssSdk σ)
    (object : String) (w : σ) : (Option File × Err) × σ :=
  match sdk.GetObjectMeta (h.objectRel object) w with
  | ((_, some err), w1) => ((none, some err), w1)
  | ((header, none), w1) =>
    ((some { ModTime := lib.ParseTime (lib.HeaderGet header "Last-Modified"),
             Name := h.objectRel object,
             Size := lib.ParseInt (lib.HeaderGet header "Content-Length"),
             IsDir := false,
             Header := header.map (fun kv => (kv.1, lib.HeaderGet header kv.1)) }, none), w1)

/-- Go `(*OssAdapter).Lists`: the name of a file is the key as the backend
reports it. -/
def OssAdapter.Lists {σ : Type} (h : PathHelpers) (sdk : OssSdk σ) (pfx : String) (w : σ) :
    (List File × Err) × σ :=
  match sdk.ListObjects (h.objectRel pfx) w with
  | ((_, some err), w1) => (([], some err), w1)
  | ((objects, none), w1) =>
    ((objects.map (fun (object : OssObject) =>
        ({ ModTime := object.LastModified, Name := object.Key, Size := object.Size,
           IsDir := decide (object.Size = 0), Header := [] } : File)), none), w1)

/-- An OSS bucket over the in-memory object store: `DeleteObjects` removes
the keys it is given. -/
def memOssClient : OssClient Mem :=
  { DeleteObjects := fun keys m => (none, m.filter (fun kv => !(keys.contains kv.1))) }

/-- The other bucket calls over the in-memory object store. -/
def memOssSdk : OssSdk Mem :=
  { IsObjectExist := fun key m => (((Mem.content m key).isSome, none), m),
    PutObject := fun key reader _ m => (none, (key, reader) :: m.filter (fun kv => !(kv.1 == key))),
    SignURL := fun key _ exp m => (("https://signed/" ++ key ++ "?Expires=" ++ toString exp, none), m),
    GetObject := fun key m =>
      match Mem.content m key with
      | some b => ((some b, none), m)
      | none => ((none, some "NoSuchKey"), m),
    GetObjectMeta := fun key m =>
      match Mem.content m key with
      | some b => (([("Content-Length", [toString b.length])], none), m)
      | none => (([], some "NoSuchKey"), m),
    ListObjects := fun p m =>
      (((m.filter (fun kv => hasPrefix kv.1 p)).map
        (fun kv => { Key := kv.1, Size := Int.ofNat kv.2.length, LastModified := 0 }), none), m) }

/-- An OSS adapter over the in-memory object store, configured as
`NewAdapterOss` leaves it. -/
def memOssAdapter : OssAdapter Mem :=
  { config := NewAdapterOss.config
      { AccessKey := "ak", SecretKey := "sk", Endpoint := "oss.example.com",
        Bucket := "bucket", Domain := "", Expire := 0 },
    client := memOssClient }

/-- The request URI of a link of the form `scheme://host/path?query`: what
follows the host. -/
def requestURIOf : List Char → List Char
  | ':' :: '/' :: '/' :: rest =>
    match rest.dropWhile (fun c => c != '/') with
    | [] => ['/']
    | uri => uri
  | _ :: rest => requestURIOf rest
  | [] => ['/']

/-- A stand-in for the standard library on plain ASCII input: letters are
lowered one by one, a link is parsed as `scheme://host/path?query`, a header
value is the first one under the key, and numbers and times that do not
parse are zero. -/
def asciiLib : GoLib :=
  { ToLower := fun s => String.mk (s.toList.map Char.toLower),
    Parse := fun link =>
      some { asString := link, RequestURI := String.mk (requestURIOf link.toList) },
    HeaderGet := fun header key => ((List.lookup key header).bind List.head?).getD "",
    ParseInt := fun s => s.toInt?.getD 0,
    ParseTime := fun _ => 0 }

/-! ## The other operations of the MinIO, BOS, OBS, COS, UpYun and Qiniu adapters

As for OSS, the calls on each SDK client made by the operations other than
`Delete` are given by a structure of their own. A signer that returns a URL
pointer and an error is taken to return one or the other. -/

/-- The fields of `minio.PutObjectOptions` that `Upload` sets. -/
structure PutObjectOptions where
  UserMetadata : HeaderMap
  ContentType : String
  ContentEncoding : String
  ContentDisposition : String
  deriving DecidableEq

/-- One `minio.ObjectInfo` of a listing, by the fields `Lists` reads. -/
structure MinioObjectInfo where
  Key : String
  Size : Int
  LastModified : Int
  deriving DecidableEq

/-- The calls `PresignedGetObject(bucket, key, validity, nil)`,
`PutObject(bucket, key, reader, size, opts)` and
`ListObjectsV2(bucket, prefix, recursive, doneCh)` on the MinIO client; the
listing is the sequence received from the channel. -/
structure MinioSdk (σ : Type) where
  PresignedGetObject : String → String → Int → σ → Except String URL × σ
  PutObject : String → String → Bytes → Int → PutObjectOptions → σ → Err × σ
  ListObjectsV2 : String → String → Bool → σ → List MinioObjectInfo × σ

/-- Go `(*MinIoAdapter).GetSignURL`. The constant `sevenDays` is declared in
a file that is not among the sources and is given. The capped `exp` is not
read again: the validity passed to the client is `m.config.Expire`. -/
def MinIoAdapter.GetSignURL {σ : Type} (h : PathHelpers) (sevenDays : Int) (sdk : MinioSdk σ)
    (m : MinIoAdapter σ) (object : String) (expire : List Int) (w : σ) :
    (String × Err) × σ :=
  if expOf m.config.Expire expire ≤ 0 then
    ((m.config.Domain ++ h.objectAbs object, none), w)
  else
    let _exp := if expOf m.config.Expire expire > sevenDays then sevenDays
      else expOf m.config.Expire expire
    match sdk.PresignedGetObject m.config.Bucket (h.objectRel object)
        (seconds m.config.Expire) w with
    | (Except.error err, w1) => (("", some err), w1)
    | (Except.ok u, w1) => ((rehostURL m.config.Domain u, none), w1)

/-- The fields of the BOS `api.PutObjectArgs` that `Upload` sets. -/
structure PutObjectArgs where
  UserMeta : HeaderMap
  ContentDisposition : String
  ContentType : String
  deriving DecidableEq

/-- One entry of the BOS `ListObjectsResult.Contents`, by the fields `Lists` reads. -/
structure BosObject where
  Key : String
  Size : Int
  LastModified : String
  deriving DecidableEq

/-- The calls `BasicGeneratePresignedUrl(bucket, key, seconds)`,
`PutObjectFromStream(bucket, key, reader, args)` and
`ListObjects(bucket, &api.ListObjectsArgs{Prefix, MaxKeys})` on the BOS client. -/
structure BosSdk (σ : Type) where
  BasicGeneratePresignedUrl : String → String → Int → σ → String × σ
  PutObjectFromStream : String → String → Bytes → PutObjectArgs → σ → Err × σ
  ListObjects : String → String → Int → σ → (List BosObject × Err) × σ

/-- Go `(*BosAdapter).GetSignURL`; `int(exp)` is `exp` on a 64-bit platform. -/
def BosAdapter.GetSignURL {σ : Type} (h : PathHelpers) (lib : GoLib) (sdk : BosSdk σ)
    (b : BosAdapter σ) (object : String) (expire : List Int) (w : σ) : (String × Err) × σ :=
  if expOf b.config.Expire expire ≤ 0 then
    ((b.config.Domain ++ h.objectAbs object, none), w)
  else
    match sdk.BasicGeneratePresignedUrl b.config.Bucket (h.objectRel object)
        (expOf b.config.Expire expire) w with
    | (link, w1) => ((rehost lib b.config.Domain link, none), w1)

/-- The OBS `PutObjectInput`, by the fields `Upload` sets. -/
structure PutObjectInput where
  Bucket : String
  Key : String
  Metadata : HeaderMap
  Body : Bytes
  ContentType : String
  deriving DecidableEq

/-- One entry of the OBS `ListObjectsOutput.Contents`, by the fields `Lists` reads. -/
structure ObsContent where
  Key : String
  Size : Int
  LastModified : Int
  deriving DecidableEq

/-- The calls `CreateSignedUrl(&obs.CreateSignedUrlInput{Method, Bucket, Key, Expires})`
(the `SignedUrl` of the output, or the error), `PutObject(input)` and
`ListObjects(&obs.ListObjectsInput{Bucket, Prefix})` on the OBS client. -/
structure ObsSdk (σ : Type) where
  CreateSignedUrl : String → String → String → Int → σ → Except String String × σ
  PutObject : PutObjectInput → σ → Err × σ
  ListObjects : String → String → σ → (List ObsContent × Err) × σ

/-- Go `(*ObsAdapter).GetSignURL`; `int(exp)` is `exp` on a 64-bit platform. -/
def ObsAdapter.GetSignURL {σ : Type} (h : PathHelpers) (lib : GoLib) (sdk : ObsSdk σ)
    (o : ObsAdapter σ) (object : String) (expire : List Int) (w : σ) : (String × Err) × σ :=
  if expOf o.config.Expire expire ≤ 0 then
    ((o.config.Domain ++ h.objectAbs object, none), w)
  else
    match sdk.CreateSignedUrl "GET" o.config.Bucket (h.objectRel object)
        (expOf o.config.Expire expire) w with
    | (Except.error err, w1) => (("", some err), w1)
    | (Except.ok signedUrl, w1) => ((rehost lib o.config.Domain signedUrl, none), w1)

/-- The fields of `cos.ObjectPutHeaderOptions` that `Upload` sets. -/
structure ObjectPutHeaderOptions where
  ContentEncoding : String
  ContentType : String
  ContentDisposition : String
  deriving DecidableEq

/-- The calls
`client.Object.GetPresignedURL(ctx, method, name, ak, sk, validity, nil)` and
`client.Object.Put(ctx, name, reader, opt)` on the COS client; the response
value of `Put` is dropped by the adapter. -/
structure CosSdk (σ : Type) where
  GetPresignedURL : String → String → String → String → Int → σ → Except String URL × σ
  Put : String → Bytes → ObjectPutHeaderOptions → σ → Err × σ

/-- Go `(*CosAdapter).GetSignURL`. -/
def CosAdapter.GetSignURL {σ : Type} (h : PathHelpers) (sdk : CosSdk σ) (c : CosAdapter σ)
    (object : String) (expire : List Int) (w : σ) : (String × Err) × σ :=
  if expOf c.config.Expire expire ≤ 0 then
    ((c.config.Domain ++ h.objectAbs object, none), w)
  else
    match sdk.GetPresignedURL "GET" (h.objectRel object) c.config.AccessKey c.config.SecretKey
        (seconds (expOf c.config.Expire expire)) w with
    | (Except.error err, w1) => (("", some err), w1)
    | (Except.ok u, w1) => ((rehostURL c.config.Domain u, none), w1)

/-- Go `(*CosAdapter).Lists`: the body is a TODO comment and `return`. -/
def CosAdapter.Lists {σ : Type} (_c : CosAdapter σ) (_pfx : String) (w : σ) :
    (List File × Err) × σ :=
  (([], none), w)

/-- What `UpYunAdapter.GetSignURL` uses from outside the adapter: the clock
`time.Now().Unix()` and the package helper `MD5Crypt`, whose source file is
not among the sources (it returns the 32 hexadecimal digits of a digest, so
that the slice `[12:20]` of its characters is in range). -/
structure UpYunSign (σ : Type) where
  Now : σ → Int × σ
  MD5Crypt : String → String

/-- Go `(*UpYunAdapter).GetSignURL`. -/
def UpYunAdapter.GetSignURL {σ : Type} (h : PathHelpers) (sign : UpYunSign σ)
    (u : UpYunAdapter σ) (object : String) (expire : List Int) (w : σ) : (String × Err) × σ :=
  if expOf u.config.Expire expire ≤ 0 then
    ((u.config.Domain ++ h.objectAbs object, none), w)
  else
    match sign.Now w with
    | (unix, w1) =>
      let endTime := wrap64 (unix + expOf u.config.Expire expire)
      let digest := sign.MD5Crypt
        (u.config.Secret ++ "&" ++ toString endTime ++ "&" ++ h.objectAbs object)
      ((u.config.Domain ++ h.objectAbs object ++ "?_upt=" ++
          (String.mk ((digest.toList.drop 12).take 8) ++ toString endTime), none), w1)

/-- One `storage.ListItem` of a Qiniu listing, by the fields `Lists` reads. -/
structure QiniuListItem where
  Key : String
  Fsize : Int
  PutTime : Int
  deriving DecidableEq

/-- The calls of `QiniuAdapter.Lists`:
`storage.NewBucketManager(mac, cfg).ListFiles(bucket, prefix, "", "", limit)`
(its items and its error) and `storage.ParsePutTime`; and those of
`QiniuAdapter.Upload`: `storage.PutPolicy{Scope: bucket}.UploadToken(mac)`
and `storage.NewFormUploader(cfg).Put(ctx, ret, token, key, reader, size, extra)`,
by the token, the key, the content, the size and `extra.Params`. -/
structure QiniuSdk (σ : Type) where
  ListFiles : String → String → Int → σ → (List QiniuListItem × Err) × σ
  ParsePutTime : Int → Int
  UploadToken : String → String
  Put : String → String → Bytes → Int → HeaderMap → σ → Err × σ

/-- A MinIO client over the in-memory object store; the link it signs shows
the bucket, the key and the validity in seconds. -/
def memMinioSdk : MinioSdk Mem :=
  { PresignedGetObject := fun bucket key validity m =>
      (Except.ok
        { asString := "http://minio.local/" ++ bucket ++ "/" ++ key ++ "?X-Amz-Expires=" ++
            toString (validity / 1000000000),
          RequestURI := "/" ++ bucket ++ "/" ++ key ++ "?X-Amz-Expires=" ++
            toString (validity / 1000000000) }, m),
    PutObject := fun _ key reader _ _ m =>
      (none, (key, reader) :: m.filter (fun kv => !(kv.1 == key))),
    ListObjectsV2 := fun _ p _ m =>
      ((m.filter (fun kv => hasPrefix kv.1 p)).map
        (fun kv => { Key := kv.1, Size := Int.ofNat kv.2.length, LastModified := 0 }), m) }

/-- A MinIO adapter with the given default expiry; its `Delete` client
removes nothing and reports no error. -/
def memMinioAdapter (expire : Int) : MinIoAdapter Mem :=
  { config := { AccessKey := "ak", SecretKey := "sk", Endpoint := "minio.local",
                Bucket := "bucket", Domain := "http://minio.local", Expire := expire },
    client := { RemoveObjects := fun _ _ m => ([], m) } }

/-! ## Upload of the MinIO, BOS and OBS adapters -/

/-- Go `m[k] = v` on a `map[string]string`. -/
def mapSet (m : HeaderMap) (k v : String) : HeaderMap :=
  match m with
  | [] => [(k, v)]
  | (k1, v1) :: rest => if k1 = k then (k, v) :: rest else (k1, v1) :: mapSet rest k v

/-- The body of the header loop of `MinIoAdapter.Upload`, for one entry. -/
def MinIoAdapter.header (lib : GoLib) (opts : PutObjectOptions) (kv : String × String) :
    PutObjectOptions :=
  if lib.ToLower kv.1 = "content-disposition" then { opts with ContentDisposition := kv.2 }
  else if lib.ToLower kv.1 = "content-encoding" then { opts with ContentEncoding := kv.2 }
  else if lib.ToLower kv.1 = "content-type" then { opts with ContentType := kv.2 }
  else { opts with UserMetadata := mapSet opts.UserMetadata kv.1 kv.2 }

/-- The options `MinIoAdapter.Upload` builds: an empty user-metadata map,
then the two nested loops over `headers`. -/
def MinIoAdapter.options (lib : GoLib) (headers : List HeaderMap) : PutObjectOptions :=
  headers.foldl (fun opts header => header.foldl (MinIoAdapter.header lib) opts)
    { UserMetadata := [], ContentType := "", ContentEncoding := "", ContentDisposition := "" }

/-- Go `(*MinIoAdapter).Upload`. -/
def MinIoAdapter.Upload {σ : Type} (h : PathHelpers) (lib : GoLib) (sdk : MinioSdk σ)
    (m : MinIoAdapter σ) (path : String) (reader : Bytes) (size : Int)
    (headers : List HeaderMap) (w : σ) : Err × σ :=
  sdk.PutObject m.config.Bucket (h.objectRel path) reader size
    (MinIoAdapter.options lib headers) w

/-- The body of the header loop of `BosAdapter.Upload`, for one entry; the
case `content-encoding` is commented out in the source. -/
def BosAdapter.header (lib : GoLib) (args : PutObjectArgs) (kv : String × String) :
    PutObjectArgs :=
  if lib.ToLower kv.1 = "content-disposition" then { args with ContentDisposition := kv.2 }
  else if lib.ToLower kv.1 = "content-type" then { args with ContentType := kv.2 }
  else { args with UserMeta := mapSet args.UserMeta kv.1 kv.2 }

/-- The arguments `BosAdapter.Upload` builds. -/
def BosAdapter.args (lib : GoLib) (headers : List HeaderMap) : PutObjectArgs :=
  headers.foldl (fun args header => header.foldl (BosAdapter.header lib) args)
    { UserMeta := [], ContentDisposition := "", ContentType := "" }

/-- Go `(*BosAdapter).Upload`. -/
def BosAdapter.Upload {σ : Type} (h : PathHelpers) (lib : GoLib) (sdk : BosSdk σ)
    (b : BosAdapter σ) (path : String) (reader : Bytes) (_size : Int)
    (headers : List HeaderMap) (w : σ) : Err × σ :=
  sdk.PutObjectFromStream b.config.Bucket (h.objectRel path) reader
    (BosAdapter.args lib headers) w

/-- The body of the header loop of `ObsAdapter.Upload`, for one entry. -/
def ObsAdapter.header (lib : GoLib) (input : PutObjectInput) (kv : String × String) :
    PutObjectInput :=
  if lib.ToLower kv.1 = "content-type" then { input with ContentType := kv.2 }
  else { input with Metadata := mapSet input.Metadata kv.1 kv.2 }

/-- The input `ObsAdapter.Upload` builds. -/
def ObsAdapter.input {σ : Type} (h : PathHelpers) (lib : GoLib) (o : ObsAdapter σ)
    (path : String) (reader : Bytes) (headers : List HeaderMap) : PutObjectInput :=
  headers.foldl (fun input header => header.foldl (ObsAdapter.header lib) input)
    { Bucket := o.config.Bucket, Key := h.objectRel path, Metadata := [], Body := reader,
      ContentType := "" }

/-- Go `(*ObsAdapter).Upload`. -/
def ObsAdapter.Upload {σ : Type} (h : PathHelpers) (lib : GoLib) (sdk : ObsSdk σ)
    (o : ObsAdapter σ) (path : String) (reader : Bytes) (_size : Int)
    (headers : List HeaderMap) (w : σ) : Err × σ :=
  sdk.PutObject (ObsAdapter.input h lib o path reader headers) w

/-- What the claim on the header mapping asks, for the entries of all the
header maps, the recognised names paired with the value the put options
hold for each, and the user-metadata map of the options: an entry whose
lower-cased key is a recognised name gives that option its value, and the
user-metadata map binds `k` to `v` exactly for the entries `(k, v)` whose
lower-cased key is no recognised name. -/
def HeaderMapping (lib : GoLib) (entries : List (String × String))
    (recognised : List (String × String)) (userMeta : HeaderMap) : Prop :=
  (∀ name value, (name, value) ∈ recognised →
    ∀ k v, (k, v) ∈ entries → lib.ToLower k = name → value = v) ∧
  (∀ k v, List.lookup k userMeta = some v ↔
    ((k, v) ∈ entries ∧ ∀ name value, (name, value) ∈ recognised → lib.ToLower k ≠ name))

/-- Header maps used as a concrete input: a content type and one custom entry. -/
def sampleHeaders : List HeaderMap := [[("Content-Type", "text/plain"), ("X-Owner", "kim")]]

/-! ## The local adapter (`adapter_local.go`) -/

/-- What `LocalAdapter.Upload` and `LocalAdapter.Download` call on the
filesystem: `gfile.Join`, `gfile.Create` (an open file, or an error),
`gfile.Chmod`, on the `bufio.Writer` around the created file
`ReadFrom(reader)` and `Flush()`, `file.Close()`, and `gfile.Open` (the
content that the returned stream yields, or an error). `φ` is the type of
open files. -/
structure LocalFs (σ φ : Type) where
  Join : String → String → String
  Create : String → σ → Except String φ × σ
  Chmod : String → Nat → σ → Err × σ
  ReadFrom : φ → Bytes → σ → (Int × Err) × σ
  Flush : φ → σ → Err × σ
  Close : φ → σ → Err × σ
  Open : String → σ → Except String Bytes × σ

/-- Go `(*LocalAdapter).Upload`: after `gfile.Create` has succeeded the
results of `Chmod`, `ReadFrom`, `Flush` and `Close` are not assigned, and the
bare `return` returns the nil `err` of `Create`. -/
def LocalAdapter.Upload {σ φ : Type} (fs : LocalFs σ φ) (c : LocalAdapter) (path : String)
    (reader : Bytes) (_size : Int) (_headers : List HeaderMap) (w : σ) : Err × σ :=
  match fs.Create (fs.Join c.config.Path path) w with
  | (Except.error err, w1) => (some err, w1)
  | (Except.ok file, w1) =>
    let w2 := (fs.Chmod (fs.Join c.config.Path path) 0o666 w1).2
    let w3 := (fs.ReadFrom file reader w2).2
    let w4 := (fs.Flush file w3).2
    let w5 := (fs.Close file w4).2
    (none, w5)

/-- The `io.ReadCloser` that `LocalAdapter.Download` returns. It is the
`*os.File` result of `gfile.Open` stored in the interface, so it is never the
nil interface: it holds an open file, given by the content it yields, or,
when `gfile.Open` failed, the nil `*os.File`. -/
inductive FileBody where
  | file (content : Bytes)
  | nilFile
  deriving DecidableEq

/-- Go `(*LocalAdapter).Download`: `body, err = gfile.Open(filePath)`. -/
def LocalAdapter.Download {σ φ : Type} (fs : LocalFs σ φ) (c : LocalAdapter)
    (object : String) (w : σ) : (FileBody × Err) × σ :=
  match fs.Open (fs.Join c.config.Path object) w with
  | (Except.ok content, w1) => ((FileBody.file content, none), w1)
  | (Except.error err, w1) => ((FileBody.nilFile, some err), w1)

/-- Go `(*LocalAdapter).Lists`: the body is `return`. -/
def LocalAdapter.Lists {σ : Type} (_c : LocalAdapter) (_pfx : String) (w : σ) :
    (List File × Err) × σ :=
  (([], none), w)

/-- The modelled filesystem: files by path, an open file being its path.
`Join` is `join`; `Create` fails on the paths that `refuses` holds of and
otherwise truncates or creates the file; `ReadFrom` appends the whole content
of the reader to the file; `Chmod`, `Flush` and `Close` succeed; `Open`
yields the content of the file and fails when there is none. -/
def memFsWith (join : String → String → String) (refuses : String → Bool) :
    LocalFs Mem String :=
  { Join := join,
    Create := fun path m =>
      if refuses path = true then
        (Except.error ("open " ++ path ++ ": is a directory"), m)
      else (Except.ok path, (path, []) :: m.filter (fun kv => !(kv.1 == path))),
    Chmod := fun _ _ m => (none, m),
    ReadFrom := fun file reader m =>
      ((Int.ofNat reader.length, none),
        m.map (fun kv => if kv.1 = file then (kv.1, kv.2 ++ reader) else kv)),
    Flush := fun _ m => (none, m),
    Close := fun _ m => (none, m),
    Open := fun path m =>
      match Mem.content m path with
      | some b => (Except.ok b, m)
      | none => (Except.error ("open " ++ path ++ ": no such file or directory"), m) }

/-- The modelled filesystem with a slash between directory and name, on
which a path that ends in a slash cannot be created. -/
def memFs : LocalFs Mem String :=
  memFsWith (fun dir name => dir ++ "/" ++ name)
    (fun path => decide (path.toList.getLast? = some '/'))

/-- The modelled filesystem on a full disk: files are created, every write
fails and stores nothing. -/
def fullDiskFs : LocalFs Mem String :=
  { memFs with
    ReadFrom := fun _ _ m => ((0, some "write: no space left on device"), m),
    Flush := fun _ m => (some "write: no space left on device", m) }

/-- A BOS client whose bulk delete fails before reaching the service. -/
def unreachableBosClient : BosClient Mem :=
  { DeleteMultipleObjectsFromKeyList := fun _ _ m => ((none, some "dial tcp: connection refused"), m),
    fmtResult := fun _ => "" }

/-- A BOS adapter over the unreachable client. -/
def unreachableBosAdapter : BosAdapter Mem :=
  { config := { AccessKey := "ak", SecretKey := "sk", Endpoint := "bos.example.com",
                Bucket := "bucket", Domain := "https://bucket.bos.example.com", Expire := 0 },
    client := unreachableBosClient }

/-! ## Listing -/

/-- Go `(*MinIoAdapter).Lists`: one file per object received from the
listing channel; the header map built in the loop is not stored. -/
def MinIoAdapter.Lists {σ : Type} (h : PathHelpers) (sdk : MinioSdk σ) (m : MinIoAdapter σ)
    (pfx : String) (w : σ) : (List File × Err) × σ :=
  match sdk.ListObjectsV2 m.config.Bucket (h.objectRel pfx) true w with
  | (objects, w1) =>
    ((objects.map (fun (object : MinioObjectInfo) =>
        ({ ModTime := object.LastModified, Name := h.objectRel object.Key,
           Size := object.Size, IsDir := decide (object.Size = 0), Header := [] } : File)),
      none), w1)

/-- Go `(*BosAdapter).Lists`; `MaxKeys` is 1000. -/
def BosAdapter.Lists {σ : Type} (h : PathHelpers) (lib : GoLib) (sdk : BosSdk σ)
    (b : BosAdapter σ) (pfx : String) (w : σ) : (List File × Err) × σ :=
  match sdk.ListObjects b.config.Bucket (h.objectRel pfx) 1000 w with
  | ((_, some err), w1) => (([], some err), w1)
  | ((contents, none), w1) =>
    ((contents.map (fun (object : BosObject) =>
        ({ ModTime := lib.ParseTime object.LastModified, Name := h.objectRel object.Key,
           Size := object.Size, IsDir := decide (object.Size = 0), Header := [] } : File)),
      none), w1)

/-- Go `(*ObsAdapter).Lists`. -/
def ObsAdapter.Lists {σ : Type} (h : PathHelpers) (sdk : ObsSdk σ) (o : ObsAdapter σ)
    (pfx : String) (w : σ) : (List File × Err) × σ :=
  match sdk.ListObjects o.config.Bucket (h.objectRel pfx) w with
  | ((_, some err), w1) => (([], some err), w1)
  | ((contents, none), w1) =>
    ((contents.map (fun (item : ObsContent) =>
        ({ ModTime := item.LastModified, Name := h.objectRel item.Key,
           Size := item.Size, IsDir := decide (item.Size = 0), Header := [] } : File)),
      none), w1)

/-- Go `(*QiniuAdapter).Lists`; `limit` is 1000. -/
def QiniuAdapter.Lists {σ : Type} (h : PathHelpers) (sdk : QiniuSdk σ) (q : QiniuAdapter σ)
    (pfx : String) (w : σ) : (List File × Err) × σ :=
  match sdk.ListFiles q.config.Bucket (h.objectRel pfx) 1000 w with
  | ((_, some err), w1) => (([], some err), w1)
  | ((items, none), w1) =>
    ((items.map (fun (item : QiniuListItem) =>
        ({ ModTime := sdk.ParsePutTime item.PutTime, Name := h.objectRel item.Key,
           Size := item.Fsize, IsDir := decide (item.Fsize = 0), Header := [] } : File)),
      none), w1)

/-- A MinIO client that records every `PresignedGetObject` request as bucket,
key and validity in nanoseconds, and signs a link under `http://minio.local`. -/
def probeMinioSdk : MinioSdk (List (String × String × Int)) :=
  { PresignedGetObject := fun bucket key validity log =>
      (Except.ok
        { asString := "http://minio.local/" ++ bucket ++ "/" ++ key ++ "?X-Amz-Signature=s",
          RequestURI := "/" ++ bucket ++ "/" ++ key ++ "?X-Amz-Signature=s" },
        log ++ [(bucket, key, validity)]),
    PutObject := fun _ _ _ _ _ log => (none, log),
    ListObjectsV2 := fun _ _ _ log => ([], log) }

/-- A MinIO adapter over the recording client, with the given default expiry. -/
def probeMinioAdapter (expire : Int) : MinIoAdapter (List (String × String × Int)) :=
  { config := { AccessKey := "ak", SecretKey := "sk", Endpoint := "minio.local",
                Bucket := "bucket", Domain := "http://minio.local", Expire := expire },
    client := { RemoveObjects := fun _ _ log => ([], log) } }

/-! ## Upload of the COS, UpYun and Qiniu adapters, and the UpYun listing -/

/-- The body of the header loop of `CosAdapter.Upload`, for one entry. -/
def CosAdapter.header (lib : GoLib) (objHeader : ObjectPutHeaderOptions)
    (kv : String × String) : ObjectPutHeaderOptions :=
  if lib.ToLower kv.1 = "content-encoding" then { objHeader with ContentEncoding := kv.2 }
  else if lib.ToLower kv.1 = "content-type" then { objHeader with ContentType := kv.2 }
  else if lib.ToLower kv.1 = "content-disposition" then
    { objHeader with ContentDisposition := kv.2 }
  else objHeader

/-- Go `(*CosAdapter).Upload`. -/
def CosAdapter.Upload {σ : Type} (h : PathHelpers) (lib : GoLib) (sdk : CosSdk σ)
    (_c : CosAdapter σ) (path : String) (reader : Bytes) (_size : Int)
    (headers : List HeaderMap) (w : σ) : Err × σ :=
  sdk.Put (h.objectRel path) reader
    (headers.foldl (fun objHeader header => header.foldl (CosAdapter.header lib) objHeader)
      { ContentEncoding := "", ContentType := "", ContentDisposition := "" }) w

/-- One `upyun.FileInfo` received from the listing channel, by the fields
`Lists` reads. -/
structure UpYunFileInfo where
  Name : String
  Size : Int
  IsDir : Bool
  Time : Int
  Meta : HeaderMap
  deriving DecidableEq

/-- The calls `client.Put(&upyun.PutObjectConfig{Path, Reader, Headers})` and
`client.List(&upyun.GetObjectsConfig{Path, ObjectsChan})` of the UpYun SDK.
`List` is given by the entries it has to send on `ObjectsChan`, in order, and
the error it returns. -/
structure UpYunSdk (σ : Type) where
  Put : String → Bytes → HeaderMap → σ → Err × σ
  List : String → σ → (List UpYunFileInfo × Err) × σ

/-- Go `(*UpYunAdapter).Upload`: the header maps are merged into one. -/
def UpYunAdapter.Upload {σ : Type} (h : PathHelpers) (sdk : UpYunSdk σ) (_u : UpYunAdapter σ)
    (path : String) (reader : Bytes) (_size : Int) (headers : List HeaderMap) (w : σ) :
    Err × σ :=
  sdk.Put (h.objectAbs path) reader
    (headers.foldl (fun hm header => header.foldl (fun hm kv => mapSet hm kv.1 kv.2) hm) []) w

/-- Go `(*UpYunAdapter).Lists`; `join` is `filepath.Join`. `client.List` is
called in the goroutine of `Lists`, on a channel that holds 1000 entries and
is read only after the call has returned: with more than 1000 entries to
send the call blocks for ever and `Lists` does not return, which is `none`.
The error that `client.List` returns is not assigned. -/
def UpYunAdapter.Lists {σ : Type} (h : PathHelpers) (join : String → String → String)
    (sdk : UpYunSdk σ) (_u : UpYunAdapter σ) (pfx : String) (w : σ) :
    Option ((List File × Err) × σ) :=
  match sdk.List (h.objectRel pfx) w with
  | ((objs, _), w1) =>
    if objs.length ≤ 1000 then
      some ((objs.map (fun (obj : UpYunFileInfo) =>
          ({ ModTime := obj.Time, Size := obj.Size, IsDir := obj.IsDir, Header := obj.Meta,
             Name := join (h.objectRel pfx) (h.objectRel obj.Name) } : File)), none), w1)
    else none

/-- Go `(*QiniuAdapter).Upload`: the parameters are the header entries under
`"x:" + k`; the key is first deleted, the result of that `Delete` being
dropped, and then put. -/
def QiniuAdapter.Upload {σ : Type} (h : PathHelpers) (sdk : QiniuSdk σ) (q : QiniuAdapter σ)
    (path : String) (reader : Bytes) (size : Int) (headers : List HeaderMap) (w : σ) :
    Err × σ :=
  let params := headers.foldl
    (fun ps header => header.foldl (fun ps kv => mapSet ps ("x:" ++ kv.1) kv.2) ps) []
  let w1 := (QiniuAdapter.Delete h q [h.objectRel path] w).2
  sdk.Put (sdk.UploadToken q.config.Bucket) (h.objectRel path) reader size params w1

/-! ## Backends on which a stored key is listed

What the claim on listing takes from the backend, for each client that lists
by key prefix: once a put of `key` has returned no error, the listing call
that `Lists` makes, for a prefix of `key` and in the state the put has left,
returns no error and reports `key`. -/

/-- The MinIO client lists a key that has been put. -/
def MinioSdk.ListsAfterPut {σ : Type} (sdk : MinioSdk σ) : Prop :=
  ∀ (bucket key p : String) (reader : Bytes) (size : Int) (opts : PutObjectOptions) (w : σ),
    (sdk.PutObject bucket key reader size opts w).1 = none → hasPrefix key p = true →
    ∃ object ∈ (sdk.ListObjectsV2 bucket p true
        (sdk.PutObject bucket key reader size opts w).2).1, object.Key = key

/-- The BOS client lists a key that has been put. -/
def BosSdk.ListsAfterPut {σ : Type} (sdk : BosSdk σ) : Prop :=
  ∀ (bucket key p : String) (reader : Bytes) (args : PutObjectArgs) (w : σ),
    (sdk.PutObjectFromStream bucket key reader args w).1 = none → hasPrefix key p = true →
    (sdk.ListObjects bucket p 1000
        (sdk.PutObjectFromStream bucket key reader args w).2).1.2 = none ∧
    ∃ object ∈ (sdk.ListObjects bucket p 1000
        (sdk.PutObjectFromStream bucket key reader args w).2).1.1, object.Key = key

/-- The OBS client lists a key that has been put. -/
def ObsSdk.ListsAfterPut {σ : Type} (sdk : ObsSdk σ) : Prop :=
  ∀ (input : PutObjectInput) (p : String) (w : σ),
    (sdk.PutObject input w).1 = none → hasPrefix input.Key p = true →
    (sdk.ListObjects input.Bucket p (sdk.PutObject input w).2).1.2 = none ∧
    ∃ item ∈ (sdk.ListObjects input.Bucket p (sdk.PutObject input w).2).1.1,
      item.Key = input.Key

/-- The Qiniu client lists a key that has been put with a token of the bucket. -/
def QiniuSdk.ListsAfterPut {σ : Type} (sdk : QiniuSdk σ) : Prop :=
  ∀ (bucket key p : String) (reader : Bytes) (size : Int) (params : HeaderMap) (w : σ),
    (sdk.Put (sdk.UploadToken bucket) key reader size params w).1 = none →
    hasPrefix key p = true →
    (sdk.ListFiles bucket p 1000
        (sdk.Put (sdk.UploadToken bucket) key reader size params w).2).1.2 = none ∧
    ∃ item ∈ (sdk.ListFiles bucket p 1000
        (sdk.Put (sdk.UploadToken bucket) key reader size params w).2).1.1, item.Key = key

/-- The OSS bucket client lists a key that has been put. -/
def OssSdk.ListsAfterPut {σ : Type} (sdk : OssSdk σ) : Prop :=
  ∀ (key p : String) (reader : Bytes) (opts : List OssOption) (w : σ),
    (sdk.PutObject key reader opts w).1 = none → hasPrefix key p = true →
    (sdk.ListObjects p (sdk.PutObject key reader opts w).2).1.2 = none ∧
    ∃ object ∈ (sdk.ListObjects p (sdk.PutObject key reader opts w).2).1.1, object.Key = key

/-! ## In-memory clients for the listing -/

/-- Storing `reader` under `key` in the in-memory object store. -/
def Mem.put (m : Mem) (key : String) (reader : Bytes) : Mem :=
  (key, reader) :: m.filter (fun kv => !(kv.1 == key))

/-- The entries of the in-memory object store whose key starts with `p`. -/
def Mem.under (m : Mem) (p : String) : Mem := m.filter (fun kv => hasPrefix kv.1 p)

/-- A BOS client over the in-memory object store. -/
def memBosSdk : BosSdk Mem :=
  { BasicGeneratePresignedUrl := fun bucket key exp m =>
      ("https://" ++ bucket ++ ".bos.example.com/" ++ key ++ "?expires=" ++ toString exp, m),
    PutObjectFromStream := fun _ key reader _ m => (none, m.put key reader),
    ListObjects := fun _ p _ m =>
      (((m.under p).map
        (fun kv => { Key := kv.1, Size := Int.ofNat kv.2.length, LastModified := "" }), none), m) }

/-- A BOS adapter over the in-memory object store. -/
def memBosAdapter : BosAdapter Mem :=
  { config := { AccessKey := "ak", SecretKey := "sk", Endpoint := "bos.example.com",
                Bucket := "bucket", Domain := "https://bucket.bos.example.com", Expire := 0 },
    client := { DeleteMultipleObjectsFromKeyList := fun _ keys m =>
                  ((some { Errors := [] }, none), m.filter (fun kv => !(keys.contains kv.1))),
                fmtResult := fun _ => "" } }

/-- An OBS client over the in-memory object store. -/
def memObsSdk : ObsSdk Mem :=
  { CreateSignedUrl := fun _ bucket key exp m =>
      (Except.ok ("https://" ++ bucket ++ ".obs.example.com/" ++ key ++ "?Expires=" ++
        toString exp), m),
    PutObject := fun input m => (none, m.put input.Key input.Body),
    ListObjects := fun _ p m =>
      (((m.under p).map
        (fun kv => { Key := kv.1, Size := Int.ofNat kv.2.length, LastModified := 0 }), none), m) }

/-- An OBS adapter over the in-memory object store. -/
def memObsAdapter : ObsAdapter Mem :=
  { config := { AccessKey := "ak", SecretKey := "sk", Endpoint := "obs.example.com",
                Bucket := "bucket", Domain := "https://bucket.obs.example.com", Expire := 0 },
    client := { DeleteObjects := fun _ keys m =>
      (none, m.filter (fun kv => !(keys.contains kv.1))) } }

/-- A Qiniu client over the in-memory object store. -/
def memQiniuSdk : QiniuSdk Mem :=
  { ListFiles := fun _ p _ m =>
      (((m.under p).map
        (fun kv => { Key := kv.1, Fsize := Int.ofNat kv.2.length, PutTime := 0 }), none), m),
    ParsePutTime := fun t => t,
    UploadToken := fun bucket => "token:" ++ bucket,
    Put := fun _ key reader _ _ m => (none, m.put key reader) }

/-- A Qiniu adapter over the in-memory object store: a delete operation is
the key, and the batch removes the keys it is given. -/
def memQiniuAdapter : QiniuAdapter Mem :=
  { config := { AccessKey := "ak", SecretKey := "sk", Endpoint := "qiniu.example.com",
                Bucket := "bucket", Domain := "https://cdn.example.com", Expire := 0 },
    client := { URIDelete := fun _ key => key,
                Batch := fun ops m =>
                  ((ops.map (fun _ => { Code := 200, Data := "" }), none),
                    m.filter (fun kv => !(ops.contains kv.1))) } }

/-- A COS client over the in-memory object store. -/
def memCosSdk : CosSdk Mem :=
  { GetPresignedURL := fun _ name _ _ validity m =>
      (Except.ok
        { asString := "https://bucket.cos.example.com/" ++ name ++ "?q-key-time=" ++
            toString (validity / 1000000000),
          RequestURI := "/" ++ name ++ "?q-key-time=" ++ toString (validity / 1000000000) }, m),
    Put := fun name reader _ m => (none, m.put name reader) }

/-- A COS adapter over the in-memory object store. -/
def memCosAdapter : CosAdapter Mem :=
  { config := { AccessKey := "ak", SecretKey := "sk", Region := "ap-test", AppId := "1",
                Bucket := "bucket", Domain := "https://bucket.cos.example.com", Expire := 0 },
    client := { ObjectDelete := fun name m => (none, m.filter (fun kv => !(kv.1 == name))) } }

/-- The name of the file at `path` inside the directory `dir`, given with
its closing slash, when `path` is directly in it. -/
def nameIn (dir path : String) : Option String :=
  if hasPrefix path dir && !((path.toList.drop dir.length).contains '/') &&
      decide (dir.length < path.length) then
    some (String.mk (path.toList.drop dir.length))
  else none

/-- An UpYun client over an in-memory store of files by absolute path, as a
directory service: `List(path)` sends the files that are directly in the
directory `/path` (this store sends no entry for a sub-directory) and
returns an error when there is none. -/
def memUpYunSdk : UpYunSdk Mem :=
  { Put := fun path reader _ m => (none, m.put path reader),
    List := fun path m =>
      match m.filterMap (fun kv =>
          (nameIn ("/" ++ path ++ "/") kv.1).map (fun name =>
            ({ Name := name, Size := Int.ofNat kv.2.length, IsDir := false, Time := 0,
               Meta := [] } : UpYunFileInfo))) with
      | [] => (([], some "404 Not Found"), m)
      | objs => ((objs, none), m) }

/-- An UpYun adapter over the in-memory directory store. -/
def memUpYunAdapter : UpYunAdapter Mem :=
  { config := { Bucket := "bucket", Operator := "op", Password := "pw", Secret := "s",
                Domain := "http://cdn.example.com", Expire := 0 },
    client := { Delete := fun path m => (none, m.filter (fun kv => !(kv.1 == path))) } }

/-- Go `filepath.Join` on two clean, non-empty, slash-separated elements. -/
def slashJoin (dir name : String) : String := dir ++ "/" ++ name

end Filesys

/-! ## Theorems -/

namespace Filesys

/-! ### Default store before `Init` -/

/-- C1 (counterexample): in the initial package state, where no `Init` has
run, the free function `Delete` returns no error value at all: the call ends
in the nil-dereference panic. -/
theorem uninit_Delete_panics :
    Delete (Globals.initial memBuiltins) "a.txt" ([] : Mem) = Outcome.nilDeref ∧
    ¬ ∃ (e : String) (w : Mem),
      Delete (Globals.initial memBuiltins) "a.txt" ([] : Mem) = Outcome.ok (some e, w) := by
  refine ⟨rfl, ?_⟩
  rintro ⟨e, w, h⟩
  have h2 : Delete (Globals.initial memBuiltins) "a.txt" ([] : Mem) = Outcome.nilDeref := rfl
  rw [h2] at h
  exact Outcome.noConfusion h

/-- C1 (amended): while the default store is unset, each of the nine free
functions, on every argument list and in every world, dereferences the unset
reference and ends in the nil-dereference panic; none returns an error. -/
theorem uninit_free_functions_panic {κ σ : Type} (g : Globals κ σ)
    (h : g.defaultStore = none) :
    (∀ object w, Delete g object w = Outcome.nilDeref) ∧
    (∀ objects w, Deletes g objects w = Outcome.nilDeref) ∧
    (∀ object expire w, GetSignURL g object expire w = Outcome.nilDeref) ∧
    (∀ object w, IsExist g object w = Outcome.nilDeref) ∧
    (∀ pfx w, Lists g pfx w = Outcome.nilDeref) ∧
    (∀ path reader size headers w, Upload g path reader size headers w = Outcome.nilDeref) ∧
    (∀ object w, Download g object w = Outcome.nilDeref) ∧
    (∀ object w, GetInfo g object w = Outcome.nilDeref) ∧
    (∀ w, PingTest g w = Outcome.nilDeref) := by
  refine ⟨?_, ?_, ?_, ?_, ?_, ?_, ?_, ?_, ?_⟩
  · intro object w; simp [Delete, Store.Delete, Store.held, h]
  · intro objects w; simp [Deletes, Store.Deletes, Store.held, h]
  · intro object expire w
    unfold GetSignURL
    split <;> simp [Store.GetSignURL, Store.held, h]
  · intro object w; simp [IsExist, Store.IsExist, Store.held, h]
  · intro pfx w; simp [Lists, Store.Lists, Store.held, h]
  · intro path reader size headers w
    unfold Upload
    split <;> simp [Store.Upload, Store.held, h]
  · intro object w; simp [Download, Store.Download, Store.held, h]
  · intro object w; simp [GetInfo, Store.GetInfo, Store.held, h]
  · intro w; simp [PingTest, Store.PingTest, Store.Upload, Store.held, h]

/-- C1 (witness): the initial package state has an unset default store, and
there all nine free functions panic. -/
theorem uninit_free_functions_panic_witness :
    (Globals.initial memBuiltins).defaultStore = none ∧
    ((∀ object w, Delete (Globals.initial memBuiltins) object w = Outcome.nilDeref) ∧
    (∀ objects w, Deletes (Globals.initial memBuiltins) objects w = Outcome.nilDeref) ∧
    (∀ object expire w,
      GetSignURL (Globals.initial memBuiltins) object expire w = Outcome.nilDeref) ∧
    (∀ object w, IsExist (Globals.initial memBuiltins) object w = Outcome.nilDeref) ∧
    (∀ pfx w, Lists (Globals.initial memBuiltins) pfx w = Outcome.nilDeref) ∧
    (∀ path reader size headers w,
      Upload (Globals.initial memBuiltins) path reader size headers w = Outcome.nilDeref) ∧
    (∀ object w, Download (Globals.initial memBuiltins) object w = Outcome.nilDeref) ∧
    (∀ object w, GetInfo (Globals.initial memBuiltins) object w = Outcome.nilDeref) ∧
    (∀ w, PingTest (Globals.initial memBuiltins) w = Outcome.nilDeref)) :=
  ⟨rfl, uninit_free_functions_panic (Globals.initial memBuiltins) rfl⟩

/-! ### The Store facade -/

/-- On a store holding `a`, `GetSignURL` returns the adapter's answer to the
call without expiry, made in the world left by the dropped call with expiry
when one was given. -/
theorem Store_GetSignURL_holding {σ : Type} (a : Adapter σ) (object : String)
    (expire : List Int) (w : σ) :
    Store.GetSignURL (Store.holding a) object expire w =
      Outcome.ok (a.GetSignURL object []
        (if expire = [] then w else (a.GetSignURL object expire w).2)) := by
  cases expire <;> simp [Store.GetSignURL, Store.held, Store.holding, NewWithAdapter]

/-- C2 (the code at the failing input): on the fake backend, whose signed
link shows the expiry it was given, `Store.GetSignURL` with the explicit
expiry 60 returns the link of the call without expiry, not the link the
adapter returns for expiry 60; the recorded calls show the adapter was called
with the expiry first and that result was dropped. -/
theorem Store_GetSignURL_drops_expire :
    Store.GetSignURL (Store.holding memAdapter) "a.txt" [60] [] =
      Outcome.ok (("mem://a.txt", none), []) ∧
    memAdapter.GetSignURL "a.txt" [60] [] = (("mem://a.txt?expire=60", none), []) ∧
    Store.GetSignURL (Store.holding (recording memAdapter)) "a.txt" [60] ([], []) =
      Outcome.ok (("mem://a.txt", none),
        ([], [Call.GetSignURL "a.txt" [60], Call.GetSignURL "a.txt" []])) := by
  refine ⟨?_, ?_, ?_⟩ <;> decide

/-- C3: for a store holding the adapter `a`, `Delete`, `Deletes`, `IsExist`,
`Lists`, `Download`, `GetInfo` and `Upload` (with or without headers) return
exactly what the adapter operation returns on the same arguments, `Delete`
passing the one-element list and `Deletes` the whole list in order; and with
the logging adapter each of them adds exactly one call, with those arguments,
to the log. -/
theorem Store_forwards {σ : Type} (a : Adapter σ) :
    (∀ object w, Store.Delete (Store.holding a) object w = Outcome.ok (a.Delete [object] w)) ∧
    (∀ objects w, Store.Deletes (Store.holding a) objects w = Outcome.ok (a.Delete objects w)) ∧
    (∀ object w, Store.IsExist (Store.holding a) object w = Outcome.ok (a.IsExist object w)) ∧
    (∀ pfx w, Store.Lists (Store.holding a) pfx w = Outcome.ok (a.Lists pfx w)) ∧
    (∀ object w, Store.Download (Store.holding a) object w = Outcome.ok (a.Download object w)) ∧
    (∀ object w, Store.GetInfo (Store.holding a) object w = Outcome.ok (a.GetInfo object w)) ∧
    (∀ path reader size headers w,
      Store.Upload (Store.holding a) path reader size headers w =
        Outcome.ok (a.Upload path reader size headers w)) ∧
    (∀ object w log, Store.Delete (Store.holding (recording a)) object (w, log) =
      Outcome.ok ((a.Delete [object] w).1,
        ((a.Delete [object] w).2, log ++ [Call.Delete [object]]))) ∧
    (∀ objects w log, Store.Deletes (Store.holding (recording a)) objects (w, log) =
      Outcome.ok ((a.Delete objects w).1,
        ((a.Delete objects w).2, log ++ [Call.Delete objects]))) ∧
    (∀ object w log, Store.IsExist (Store.holding (recording a)) object (w, log) =
      Outcome.ok ((a.IsExist object w).1,
        ((a.IsExist object w).2, log ++ [Call.IsExist object]))) ∧
    (∀ pfx w log, Store.Lists (Store.holding (recording a)) pfx (w, log) =
      Outcome.ok ((a.Lists pfx w).1, ((a.Lists pfx w).2, log ++ [Call.Lists pfx]))) ∧
    (∀ object w log, Store.Download (Store.holding (recording a)) object (w, log) =
      Outcome.ok ((a.Download object w).1,
        ((a.Download object w).2, log ++ [Call.Download object]))) ∧
    (∀ object w log, Store.GetInfo (Store.holding (recording a)) object (w, log) =
      Outcome.ok ((a.GetInfo object w).1,
        ((a.GetInfo object w).2, log ++ [Call.GetInfo object]))) ∧
    (∀ path reader size headers w log,
      Store.Upload (Store.holding (recording a)) path reader size headers (w, log) =
        Outcome.ok ((a.Upload path reader size headers w).1,
          ((a.Upload path reader size headers w).2,
            log ++ [Call.Upload path reader size headers]))) := by
  refine ⟨?_, ?_, ?_, ?_, ?_, ?_, ?_, ?_, ?_, ?_, ?_, ?_, ?_, ?_⟩
  · intro object w; rfl
  · intro objects w; rfl
  · intro object w; rfl
  · intro pfx w; rfl
  · intro object w; rfl
  · intro object w; rfl
  · intro path reader size headers w
    cases headers <;> simp [Store.Upload, Store.held, Store.holding, NewWithAdapter]
  · intro object w log; rfl
  · intro objects w log; rfl
  · intro object w log; rfl
  · intro pfx w log; rfl
  · intro object w log; rfl
  · intro object w log; rfl
  · intro path reader size headers w log
    cases headers <;> simp [Store.Upload, Store.held, Store.holding, NewWithAdapter, recording]

/-! ### Registry -/

/-- A registered non-nil constructor decides the result of `NewStore`: its
error and its world are handed on, and a store is built around its adapter
exactly when its error is nil. -/
theorem NewStore_registered {κ σ : Type} (g : Globals κ σ) (t : String) (cfg : κ) (w : σ)
    (c : NewAdapter κ σ) (hc : g.adapters t = some (some c)) :
    NewStore g t cfg w =
      Outcome.ok ((if (c cfg w).1.2 = none then some (NewWithAdapter (c cfg w).1.1) else none,
        (c cfg w).1.2), (c cfg w).2) := by
  unfold NewStore
  rw [hc]
  rcases hr : c cfg w with ⟨⟨a, e⟩, w1⟩
  cases e <;> simp [hr]

/-- The map after `RegistAdapter` binds the registered key to the new
constructor and every other key as before. -/
theorem RegistAdapter_adapters {κ σ : Type} (g : Globals κ σ) (t : String)
    (c : Option (NewAdapter κ σ)) (k : String) :
    (RegistAdapter g t c).adapters k = if k = t then some c else g.adapters k := rfl

/-- C4: `NewStore` on a type name that is not registered returns no store and
the unknown-adapter-type error and leaves the world as it was (no constructor
ran); on a name registered with constructor `c` it runs `c` on the
configuration once, and returns a store whose `GetAdapter` is the adapter `a`
with a nil error when `c` returned `(a, nil)`, no store and the error `e`
when `c` failed with `e`. The name "nonexistent-type" is unknown to the
initial registry, and after `RegistAdapter(t, c)` the call `NewStore(t, cfg)`
succeeds whenever `c` accepts `cfg`. -/
theorem NewStore_resolves {κ σ : Type} (g : Globals κ σ) (t : String) (cfg : κ) (w : σ) :
    (g.adapters t = none →
      NewStore g t cfg w = Outcome.ok ((none, some (unknownTypeMsg t)), w)) ∧
    (∀ c a w1, g.adapters t = some (some c) → c cfg w = ((a, none), w1) →
      NewStore g t cfg w = Outcome.ok ((some (NewWithAdapter a), none), w1) ∧
      Store.GetAdapter (some (NewWithAdapter a)) = Outcome.ok a) ∧
    (∀ c a e w1, g.adapters t = some (some c) → c cfg w = ((a, some e), w1) →
      NewStore g t cfg w = Outcome.ok ((none, some e), w1)) ∧
    (∀ b : Builtins κ σ, NewStore (Globals.initial b) "nonexistent-type" cfg w =
      Outcome.ok ((none, some "不存在[nonexistent-type]类型的适配器"), w)) ∧
    (∀ c a w1, c cfg w = ((a, none), w1) →
      NewStore (RegistAdapter g t (some c)) t cfg w =
        Outcome.ok ((some (NewWithAdapter a), none), w1)) := by
  refine ⟨?_, ?_, ?_, ?_, ?_⟩
  · intro h
    simp [NewStore, h]
  · intro c a w1 hc hr
    refine ⟨?_, rfl⟩
    rw [NewStore_registered g t cfg w c hc, hr]
    simp
  · intro c a e w1 hc hr
    rw [NewStore_registered g t cfg w c hc, hr]
    simp
  · intro b
    have h : (Globals.initial b).adapters "nonexistent-type" = none := by
      simp [Globals.initial, initialAdapters, List.lookup, TypeBos, TypeCos, TypeLocal,
        TypeMinio, TypeObs, TypeOss, TypeQiniu, TypeUpyun]
    simp [NewStore, h, unknownTypeMsg]
  · intro c a w1 hr
    have hc : (RegistAdapter g t (some c)).adapters t = some (some c) := by
      simp [RegistAdapter_adapters]
    rw [NewStore_registered _ t cfg w c hc, hr]
    simp

/-- C4 (witness): on the initial registry of the fake world, "ftp" is
unknown, "local" with an accepted configuration yields a store holding the
fake backend, and "local" with a rejected configuration yields the
constructor's error. -/
theorem NewStore_resolves_witness :
    NewStore (Globals.initial memBuiltins) "ftp" true ([] : Mem) =
      Outcome.ok ((none, some (unknownTypeMsg "ftp")), []) ∧
    (NewStore (Globals.initial memBuiltins) "local" true ([] : Mem) =
      Outcome.ok ((some (NewWithAdapter (some memAdapter)), none), []) ∧
      Store.GetAdapter (some (NewWithAdapter (some memAdapter))) = Outcome.ok (some memAdapter)) ∧
    NewStore (Globals.initial memBuiltins) "local" false ([] : Mem) =
      Outcome.ok ((none, some "bad config"), []) :=
  ⟨(NewStore_resolves (Globals.initial memBuiltins) "ftp" true []).1 rfl,
   (NewStore_resolves (Globals.initial memBuiltins) "local" true []).2.1
      memNewAdapter (some memAdapter) [] rfl rfl,
   (NewStore_resolves (Globals.initial memBuiltins) "local" false []).2.2.1
      memNewAdapter none "bad config" [] rfl rfl⟩

/-- C5: after `RegistAdapter(t, c1)` and then `RegistAdapter(t, c2)` the
name `t` resolves to `c2`, `NewStore(t, cfg)` is what it is after registering
`c2` alone and, for a non-nil `c2`, hands on the error and world of the one
run of `c2`; every other name `t2` resolves as before both calls, and the
default store is untouched. In the initial registry each of the eight
built-in names resolves to its constructor. -/
theorem RegistAdapter_last_wins {κ σ : Type} (g : Globals κ σ) (t t2 : String)
    (c1 c2 : Option (NewAdapter κ σ)) (ht : t2 ≠ t) :
    (RegistAdapter (RegistAdapter g t c1) t c2).adapters t = some c2 ∧
    (∀ cfg w, NewStore (RegistAdapter (RegistAdapter g t c1) t c2) t cfg w =
      NewStore (RegistAdapter g t c2) t cfg w) ∧
    (∀ c cfg w, c2 = some c →
      NewStore (RegistAdapter (RegistAdapter g t c1) t c2) t cfg w =
        Outcome.ok ((if (c cfg w).1.2 = none then some (NewWithAdapter (c cfg w).1.1) else none,
          (c cfg w).1.2), (c cfg w).2)) ∧
    (RegistAdapter (RegistAdapter g t c1) t c2).adapters t2 = g.adapters t2 ∧
    (RegistAdapter (RegistAdapter g t c1) t c2).defaultStore = g.defaultStore ∧
    (∀ b : Builtins κ σ,
      initialAdapters b "bos" = some (some b.NewAdapterBos) ∧
      initialAdapters b "cos" = some (some b.NewAdapterCos) ∧
      initialAdapters b "local" = some (some b.NewAdapterLocal) ∧
      initialAdapters b "minio" = some (some b.NewAdapterMinio) ∧
      initialAdapters b "obs" = some (some b.NewAdapterObs) ∧
      initialAdapters b "oss" = some (some b.NewAdapterOss) ∧
      initialAdapters b "qiniu" = some (some b.NewAdapterQiniu) ∧
      initialAdapters b "upyun" = some (some b.NewAdapterUpYun)) := by
  have hk : (RegistAdapter (RegistAdapter g t c1) t c2).adapters t = some c2 := by
    simp [RegistAdapter_adapters]
  refine ⟨hk, ?_, ?_, ?_, rfl, ?_⟩
  · intro cfg w
    have hk2 : (RegistAdapter g t c2).adapters t = some c2 := by
      simp [RegistAdapter_adapters]
    unfold NewStore
    rw [hk, hk2]
  · intro c cfg w hc
    subst hc
    exact NewStore_registered _ t cfg w c hk
  · simp [RegistAdapter_adapters, ht]
  · intro b
    refine ⟨?_, ?_, ?_, ?_, ?_, ?_, ?_, ?_⟩ <;> rfl

/-- C5 (witness): registering over the built-in "local" twice leaves the
second constructor in charge and "oss" as it was. -/
theorem RegistAdapter_last_wins_witness :
    (RegistAdapter (RegistAdapter (Globals.initial memBuiltins) "local" (some memNewAdapter))
        "local" (some strictNewAdapter)).adapters "local" = some (some strictNewAdapter) ∧
    NewStore (RegistAdapter (RegistAdapter (Globals.initial memBuiltins) "local"
        (some memNewAdapter)) "local" (some strictNewAdapter)) "local" true ([] : Mem) =
      Outcome.ok ((none, some "always rejects"), []) ∧
    (RegistAdapter (RegistAdapter (Globals.initial memBuiltins) "local" (some memNewAdapter))
        "local" (some strictNewAdapter)).adapters "oss" =
      (Globals.initial memBuiltins).adapters "oss" :=
  ⟨(RegistAdapter_last_wins (Globals.initial memBuiltins) "local" "oss"
      (some memNewAdapter) (some strictNewAdapter) (by decide)).1,
   (RegistAdapter_last_wins (Globals.initial memBuiltins) "local" "oss"
      (some memNewAdapter) (some strictNewAdapter) (by decide)).2.2.1
      strictNewAdapter true [] rfl,
   (RegistAdapter_last_wins (Globals.initial memBuiltins) "local" "oss"
      (some memNewAdapter) (some strictNewAdapter) (by decide)).2.2.2.1⟩

/-! ### Default-store lifecycle -/

/-- Past the guard, `Init` assigns whatever `NewStore` returned: when the
registered constructor fails with `e`, the default store becomes nil,
whatever it held before. -/
theorem Init_rejected {κ σ : Type} (g : Globals κ σ) (t : String) (cfg : κ) (w w1 : σ)
    (c : NewAdapter κ σ) (a : Option (Adapter σ)) (e : String)
    (hc : g.adapters t = some (some c)) (hr : c cfg w = ((a, some e), w1)) :
    Init g t cfg w = Outcome.ok (some e, { g with defaultStore := none }, w1) := by
  unfold Init
  rw [hc]
  simp only []
  rw [NewStore_registered g t cfg w c hc, hr]
  simp

/-- When the registered constructor returns `(a, nil)`, `Init` returns nil
and the default store holds `a`. -/
theorem Init_accepted {κ σ : Type} (g : Globals κ σ) (t : String) (cfg : κ) (w w1 : σ)
    (c : NewAdapter κ σ) (a : Option (Adapter σ))
    (hc : g.adapters t = some (some c)) (hr : c cfg w = ((a, none), w1)) :
    Init g t cfg w =
      Outcome.ok (none, { g with defaultStore := some (NewWithAdapter a) }, w1) := by
  unfold Init
  rw [hc]
  simp only []
  rw [NewStore_registered g t cfg w c hc, hr]
  simp

/-- On an unknown type name, or one bound to a nil constructor, `Init`
returns the not-exist error and leaves the package state as it was. -/
theorem Init_unknown {κ σ : Type} (g : Globals κ σ) (t : String) (cfg : κ) (w : σ)
    (hc : g.adapters t = none ∨ g.adapters t = some none) :
    Init g t cfg w = Outcome.ok (some (notExistMsg t), g, w) := by
  unfold Init
  rcases hc with hc | hc <;> rw [hc]

/-- The `Init` call returns nil exactly when the type name is bound to a
non-nil constructor that returns a nil error on the configuration. -/
theorem Init_nil_iff {κ σ : Type} (g : Globals κ σ) (t : String) (cfg : κ) (w : σ) :
    (∃ g1 w1, Init g t cfg w = Outcome.ok (none, g1, w1)) ↔
      ∃ c, g.adapters t = some (some c) ∧ (c cfg w).1.2 = none := by
  constructor
  · rintro ⟨g1, w1, h⟩
    rcases hc : g.adapters t with _ | _ | c
    · rw [Init_unknown g t cfg w (Or.inl hc)] at h
      simp at h
    · rw [Init_unknown g t cfg w (Or.inr hc)] at h
      simp at h
    · refine ⟨c, rfl, ?_⟩
      rcases hr : c cfg w with ⟨⟨a, e⟩, w2⟩
      cases e with
      | none => rfl
      | some m =>
        rw [Init_rejected g t cfg w w2 c a m hc hr] at h
        simp at h
  · rintro ⟨c, hc, he⟩
    rcases hr : c cfg w with ⟨⟨a, e⟩, w2⟩
    rw [hr] at he
    simp only [] at he
    subst he
    exact ⟨_, _, Init_accepted g t cfg w w2 c a hc hr⟩

/-- C6 (the code at the failing input): in the fake world `Init("local", true)`
succeeds and publishes a default store; the later `Init("local", false)`, whose
constructor rejects the configuration, returns the error and leaves the
default store nil, so that `PingTest` panics afterwards; whereas the failing
`Init("ftp", true)` on an unknown type leaves the published store in place. -/
theorem Init_failure_clears_default :
    Init (Globals.initial memBuiltins) "local" true ([] : Mem) =
      Outcome.ok (none,
        { Globals.initial memBuiltins with
          defaultStore := some (NewWithAdapter (some memAdapter)) }, []) ∧
    Init { Globals.initial memBuiltins with
        defaultStore := some (NewWithAdapter (some memAdapter)) } "local" false ([] : Mem) =
      Outcome.ok (some "bad config",
        { Globals.initial memBuiltins with defaultStore := none }, []) ∧
    PingTest { Globals.initial memBuiltins with defaultStore := none } ([] : Mem) =
      Outcome.nilDeref ∧
    Init { Globals.initial memBuiltins with
        defaultStore := some (NewWithAdapter (some memAdapter)) } "ftp" true ([] : Mem) =
      Outcome.ok (some (notExistMsg "ftp"),
        { Globals.initial memBuiltins with
          defaultStore := some (NewWithAdapter (some memAdapter)) }, []) :=
  ⟨Init_accepted (Globals.initial memBuiltins) "local" true [] [] memNewAdapter
      (some memAdapter) rfl rfl,
   Init_rejected _ "local" false [] [] memNewAdapter none "bad config" rfl rfl,
   rfl,
   Init_unknown _ "ftp" true [] (Or.inl rfl)⟩

/-! ### `PingTest` -/

/-- The probe content is the nine bytes of "test-file". -/
theorem bytesOf_text : bytesOf text = [116, 101, 115, 116, 45, 102, 105, 108, 101] := by
  decide

/-- The probe size `int64(len(text))` is 9. -/
theorem size_text : Int.ofNat text.utf8ByteSize = 9 := by
  decide

/-- `PingTest` on a store holding `a`, in terms of the three adapter calls. -/
theorem PingTest_holding {σ : Type} (a : Adapter σ) (w : σ) :
    Store.PingTest (Store.holding a) w =
      if (a.Upload saveFile (bytesOf text) 9 [] w).1 ≠ none then
        Outcome.ok (a.Upload saveFile (bytesOf text) 9 [] w)
      else if (a.IsExist saveFile (a.Upload saveFile (bytesOf text) 9 [] w).2).1 ≠ none then
        Outcome.ok (a.IsExist saveFile (a.Upload saveFile (bytesOf text) 9 [] w).2)
      else
        Outcome.ok (a.Delete [saveFile]
          (a.IsExist saveFile (a.Upload saveFile (bytesOf text) 9 [] w).2).2) := by
  unfold Store.PingTest
  simp only [Store.Upload, Store.IsExist, Store.Delete, Store.held, Store.holding,
    NewWithAdapter, size_text]
  simp only [List.length_nil, gt_iff_lt, lt_self_iff_false, if_false]
  rcases hup : a.Upload saveFile (bytesOf text) 9 [] w with ⟨e1, w1⟩
  cases e1 with
  | some m => simp
  | none =>
    simp only []
    rcases hex : a.IsExist saveFile w1 with ⟨e2, w2⟩
    cases e2 with
    | some m => simp
    | none =>
      simp only []
      rcases hde : a.Delete [saveFile] w2 with ⟨e3, w3⟩
      cases e3 <;> simp

/-- C7: `PingTest` calls `Upload("test-file.txt", the 9 bytes of "test-file", 9)`
with no headers; if that fails it returns that error and the log holds the
upload alone; otherwise it calls `IsExist("test-file.txt")` and, if that
fails, returns that error with no `Delete` in the log; otherwise it calls
`Delete("test-file.txt")` and returns its result. It returns nil exactly when
all three steps return nil. -/
theorem PingTest_first_failure {σ : Type} (a : Adapter σ) (w : σ) (log : List Call) :
    let probe : Bytes := [116, 101, 115, 116, 45, 102, 105, 108, 101]
    let up := a.Upload "test-file.txt" probe 9 [] w
    let ex := a.IsExist "test-file.txt" up.2
    let de := a.Delete ["test-file.txt"] ex.2
    let cUp := Call.Upload "test-file.txt" probe 9 []
    let cEx := Call.IsExist "test-file.txt"
    let cDe := Call.Delete ["test-file.txt"]
    (up.1 ≠ none →
      Store.PingTest (Store.holding (recording a)) (w, log) =
        Outcome.ok (up.1, (up.2, log ++ [cUp])) ∧
      Store.PingTest (Store.holding a) w = Outcome.ok up) ∧
    (up.1 = none → ex.1 ≠ none →
      Store.PingTest (Store.holding (recording a)) (w, log) =
        Outcome.ok (ex.1, (ex.2, log ++ [cUp, cEx])) ∧
      Store.PingTest (Store.holding a) w = Outcome.ok ex) ∧
    (up.1 = none → ex.1 = none →
      Store.PingTest (Store.holding (recording a)) (w, log) =
        Outcome.ok (de.1, (de.2, log ++ [cUp, cEx, cDe])) ∧
      Store.PingTest (Store.holding a) w = Outcome.ok de) ∧
    ((∃ w1, Store.PingTest (Store.holding a) w = Outcome.ok (none, w1)) ↔
      up.1 = none ∧ ex.1 = none ∧ de.1 = none) := by
  intro probe up ex de cUp cEx cDe
  have hp : bytesOf text = probe := bytesOf_text
  have hs : saveFile = "test-file.txt" := rfl
  have hA := PingTest_holding a w
  have hR := PingTest_holding (recording a) (w, log)
  rw [hp, hs] at hA hR
  have hRup : (recording a).Upload "test-file.txt" probe 9 [] (w, log) =
      (up.1, (up.2, log ++ [cUp])) := rfl
  have hRex : (recording a).IsExist "test-file.txt" (up.2, log ++ [cUp]) =
      (ex.1, (ex.2, log ++ [cUp, cEx])) := by
    simp [recording, ex, cEx]
  have hRde : (recording a).Delete ["test-file.txt"] (ex.2, log ++ [cUp, cEx]) =
      (de.1, (de.2, log ++ [cUp, cEx, cDe])) := by
    simp [recording, de, cDe]
  rw [hRup] at hR
  simp only [hRex, hRde] at hR
  refine ⟨?_, ?_, ?_, ?_⟩
  · intro h1
    exact ⟨by rw [hR, if_pos h1], by rw [hA, if_pos h1]⟩
  · intro h1 h2
    have n1 : ¬ up.1 ≠ none := fun h => h h1
    exact ⟨by rw [hR, if_neg n1, if_pos h2], by rw [hA, if_neg n1, if_pos h2]⟩
  · intro h1 h2
    have n1 : ¬ up.1 ≠ none := fun h => h h1
    have n2 : ¬ ex.1 ≠ none := fun h => h h2
    exact ⟨by rw [hR, if_neg n1, if_neg n2], by rw [hA, if_neg n1, if_neg n2]⟩
  · rw [hA]
    constructor
    · rintro ⟨w1, h⟩
      by_cases h1 : up.1 = none
      · have n1 : ¬ up.1 ≠ none := fun h => h h1
        by_cases h2 : ex.1 = none
        · have n2 : ¬ ex.1 ≠ none := fun h => h h2
          rw [if_neg n1, if_neg n2] at h
          have h3 : de = (none, w1) := Outcome.ok.inj h
          exact ⟨h1, h2, by rw [h3]⟩
        · rw [if_neg n1, if_pos h2] at h
          have h3 : ex = (none, w1) := Outcome.ok.inj h
          exact absurd (by rw [h3]) h2
      · rw [if_pos h1] at h
        have h3 : up = (none, w1) := Outcome.ok.inj h
        exact absurd (by rw [h3]) h1
    · rintro ⟨h1, h2, h3⟩
      have n1 : ¬ up.1 ≠ none := fun h => h h1
      have n2 : ¬ ex.1 ≠ none := fun h => h h2
      refine ⟨de.2, ?_⟩
      rw [if_neg n1, if_neg n2]
      exact congrArg Outcome.ok (Prod.ext h3 rfl)

/-- C7 (witness): on the fake backend all three steps run and `PingTest`
returns nil; on the backend whose existence check fails `PingTest` returns
that error after the upload and the check, and no `Delete` is issued. -/
theorem PingTest_first_failure_witness :
    Store.PingTest (Store.holding (recording memAdapter)) (([] : Mem), []) =
      Outcome.ok (none, ([],
        [Call.Upload "test-file.txt" [116, 101, 115, 116, 45, 102, 105, 108, 101] 9 [],
         Call.IsExist "test-file.txt", Call.Delete ["test-file.txt"]])) ∧
    Store.PingTest (Store.holding (recording blindAdapter)) (([] : Mem), []) =
      Outcome.ok (some "not exist file",
        ([("test-file.txt", [116, 101, 115, 116, 45, 102, 105, 108, 101])],
        [Call.Upload "test-file.txt" [116, 101, 115, 116, 45, 102, 105, 108, 101] 9 [],
         Call.IsExist "test-file.txt"])) :=
  ⟨((PingTest_first_failure memAdapter [] []).2.2.1 rfl rfl).1,
   ((PingTest_first_failure blindAdapter [] []).2.1 rfl (by decide)).1⟩

/-- C8: on a store whose adapter is a working key-value backend, from every
initial world `PingTest` returns nil, and in the world it leaves the
existence check of "test-file.txt" fails. -/
theorem PingTest_working_backend {σ : Type} (a : Adapter σ)
    (content : σ → String → Option Bytes) (hw : WorkingBackend a content) (w : σ) :
    ∃ w1, Store.PingTest (Store.holding a) w = Outcome.ok (none, w1) ∧
      ∃ e w2, Store.IsExist (Store.holding a) "test-file.txt" w1 = Outcome.ok (some e, w2) := by
  have hup := hw.upload_ok saveFile (bytesOf text) 9 [] w
  have hex := (hw.isExist_iff saveFile (a.Upload saveFile (bytesOf text) 9 [] w).2).2
    (by rw [hup.2]; rfl)
  have hde := hw.delete_ok saveFile
    (a.IsExist saveFile (a.Upload saveFile (bytesOf text) 9 [] w).2).2
  refine ⟨(a.Delete [saveFile]
    (a.IsExist saveFile (a.Upload saveFile (bytesOf text) 9 [] w).2).2).2, ?_, ?_⟩
  · rw [PingTest_holding]
    have n1 : ¬ (a.Upload saveFile (bytesOf text) 9 [] w).1 ≠ none := fun h => h hup.1
    have n2 : ¬ (a.IsExist saveFile (a.Upload saveFile (bytesOf text) 9 [] w).2).1 ≠ none :=
      fun h => h hex
    rw [if_neg n1, if_neg n2]
    exact congrArg Outcome.ok (Prod.ext hde.1 rfl)
  · have hno : ¬ (a.IsExist saveFile (a.Delete [saveFile]
        (a.IsExist saveFile (a.Upload saveFile (bytesOf text) 9 [] w).2).2).2).1 = none := by
      intro h
      have := (hw.isExist_iff saveFile _).1 h
      rw [hde.2] at this
      exact Bool.noConfusion this
    rcases hres : a.IsExist saveFile (a.Delete [saveFile]
        (a.IsExist saveFile (a.Upload saveFile (bytesOf text) 9 [] w).2).2).2 with ⟨e, w2⟩
    rw [hres] at hno
    cases e with
    | none => exact absurd rfl hno
    | some m =>
      refine ⟨m, w2, ?_⟩
      show Outcome.ok (a.IsExist saveFile _) = _
      rw [hres]

/-- Looking a key up after filtering out every entry with that key finds nothing. -/
theorem lookup_filter_out (m : Mem) (K : String) (p : String × Bytes → Bool)
    (hp : ∀ kv, kv.1 = K → p kv = false) : List.lookup K (m.filter p) = none := by
  induction m with
  | nil => rfl
  | cons kv rest ih =>
    by_cases hk : kv.1 = K
    · rw [List.filter_cons_of_neg (by simp [hp kv hk])]
      exact ih
    · by_cases hpk : p kv = true
      · rw [List.filter_cons_of_pos hpk]
        obtain ⟨k, v⟩ := kv
        have : (K == k) = false := by
          simp only [beq_eq_false_iff_ne, ne_eq]
          exact fun h => hk h.symm
        simp [List.lookup, this, ih]
      · rw [List.filter_cons_of_neg hpk]
        exact ih

/-- The fake backend is a working key-value backend. -/
theorem memAdapter_working : WorkingBackend memAdapter Mem.content where
  upload_ok K B size headers w := by
    simp [memAdapter, Mem.content, List.lookup]
  isExist_iff K w := by
    simp only [memAdapter]
    cases h : Mem.content w K <;> simp
  delete_ok K w := by
    refine ⟨rfl, ?_⟩
    simp only [memAdapter, Mem.content]
    apply lookup_filter_out
    intro kv hkv
    simp [hkv]

/-- C8 (witness): the fake backend is a working backend, and from a world
that already holds a stale probe object `PingTest` returns nil and leaves no
probe behind. -/
theorem PingTest_working_backend_witness :
    WorkingBackend memAdapter Mem.content ∧
    ∃ w1, Store.PingTest (Store.holding memAdapter) [("test-file.txt", [1, 2])] =
        Outcome.ok (none, w1) ∧
      ∃ e w2, Store.IsExist (Store.holding memAdapter) "test-file.txt" w1 =
        Outcome.ok (some e, w2) :=
  ⟨memAdapter_working,
   PingTest_working_backend memAdapter Mem.content memAdapter_working
     [("test-file.txt", [1, 2])]⟩

/-! ### Bulk delete -/

/-- C9 (the code at the failing input, with its siblings): with zero objects
the `Delete` of the local, MinIO, BOS, COS, OBS, Qiniu and UpYun adapters
returns nil and leaves the world as it was, whatever the client; the OSS
`Delete` has no such guard and hands the empty list to the client's
`DeleteObjects`, returning what that returns: on the recording client one
request with no keys is issued and its error comes back. -/
theorem Delete_empty_batch {σ : Type} (h : PathHelpers) (w : σ) :
    (∀ (gfile : Gfile σ) (c : LocalAdapter), LocalAdapter.Delete gfile c [] w = (none, w)) ∧
    (∀ m : MinIoAdapter σ, MinIoAdapter.Delete h m [] w = (none, w)) ∧
    (∀ b : BosAdapter σ, BosAdapter.Delete h b [] w = (none, w)) ∧
    (∀ c : CosAdapter σ, CosAdapter.Delete h c [] w = (none, w)) ∧
    (∀ o : ObsAdapter σ, ObsAdapter.Delete h o [] w = (none, w)) ∧
    (∀ q : QiniuAdapter σ, QiniuAdapter.Delete h q [] w = (none, w)) ∧
    (∀ u : UpYunAdapter σ, UpYunAdapter.Delete h u [] w = (none, w)) ∧
    (∀ o : OssAdapter σ, OssAdapter.Delete o [] w = o.client.DeleteObjects [] w) ∧
    OssAdapter.Delete probeOssAdapter [] [] = (some "MalformedXML", [[]]) := by
  refine ⟨?_, ?_, ?_, ?_, ?_, ?_, ?_, ?_, ?_⟩
  · intro gfile c; rfl
  · intro m; rfl
  · intro b; rfl
  · intro c; rfl
  · intro o; rfl
  · intro q; rfl
  · intro u; rfl
  · intro o; rfl
  · decide

/-- The loop collects the messages of the failed removals behind the ones it
started with, and ends in the world of the sequential run. -/
theorem deleteLoop_snd {σ : Type} (remove : String → σ → Err × σ) :
    ∀ (objects : List String) (err : Err) (errs : List String) (w : σ),
      (deleteLoop remove objects err errs w).2 =
        (errs ++ failures (attempts remove objects w).1, (attempts remove objects w).2) := by
  intro objects
  induction objects with
  | nil => intro err errs w; simp [deleteLoop, attempts, failures]
  | cons object rest ih =>
    intro err errs w
    rcases hr : remove object w with ⟨e, w1⟩
    cases e with
    | none => simp [deleteLoop, attempts, failures, hr, ih]
    | some m => simp [deleteLoop, attempts, failures, hr, ih]

/-- Loop invariant: a non-nil `err` comes with a non-empty `errs`. -/
theorem deleteLoop_inv {σ : Type} (remove : String → σ → Err × σ) :
    ∀ (objects : List String) (err : Err) (errs : List String) (w : σ),
      (err = none ∨ errs ≠ []) →
      (deleteLoop remove objects err errs w).1 = none ∨
        (deleteLoop remove objects err errs w).2.1 ≠ [] := by
  intro objects
  induction objects with
  | nil => intro err errs w h; simpa [deleteLoop] using h
  | cons object rest ih =>
    intro err errs w _
    rcases hr : remove object w with ⟨e, w1⟩
    cases e with
    | none =>
      simp only [deleteLoop, hr]
      exact ih none errs w1 (Or.inl rfl)
    | some m =>
      simp only [deleteLoop, hr]
      exact ih (some m) (errs ++ [m]) w1 (Or.inr (by simp))

/-- The bulk delete returns nil when the sequential run had no failure, and
otherwise the joined messages of the failures; its world is that of the run. -/
theorem deleteEach_eq {σ : Type} (remove : String → σ → Err × σ) (objects : List String)
    (w : σ) :
    deleteEach remove objects w =
      (if failures (attempts remove objects w).1 = [] then none
        else some (joinErrs (failures (attempts remove objects w).1)),
       (attempts remove objects w).2) := by
  have h2 := deleteLoop_snd remove objects none [] w
  have hi := deleteLoop_inv remove objects none [] w (Or.inl rfl)
  unfold deleteEach
  rcases hl : deleteLoop remove objects none [] w with ⟨err, errs, w1⟩
  rw [hl] at h2 hi
  simp only [List.nil_append, Prod.mk.injEq] at h2
  obtain ⟨he, hw⟩ := h2
  subst he hw
  simp only [] at hi
  by_cases hf : failures (attempts remove objects w).1 = []
  · rcases hi with hi | hi
    · simp [hf, hi]
    · exact absurd hf hi
  · have : (failures (attempts remove objects w).1).length > 0 :=
      List.length_pos.mpr hf
    simp [hf, this]

/-- The sequential run yields one result per object. -/
theorem attempts_length {σ : Type} (remove : String → σ → Err × σ) :
    ∀ (objects : List String) (w : σ), (attempts remove objects w).1.length = objects.length := by
  intro objects
  induction objects with
  | nil => intro w; rfl
  | cons object rest ih => intro w; simp [attempts, ih]

/-- The sequential run over the logging call: same results, same world, and
the log grows by the backend keys of the objects, in order. -/
theorem attempts_logged {σ : Type} (call : String → σ → Err × σ) (key : String → String) :
    ∀ (objects : List String) (w : σ) (log : List String),
      attempts (fun object => logged call (key object)) objects (w, log) =
        ((attempts (fun object => call (key object)) objects w).1,
          ((attempts (fun object => call (key object)) objects w).2,
            log ++ objects.map key)) := by
  intro objects
  induction objects with
  | nil => intro w log; simp [attempts]
  | cons object rest ih =>
    intro w log
    simp [attempts, logged, ih]

/-- No failure message is collected exactly when every result is nil. -/
theorem failures_eq_nil (results : List Err) :
    failures results = [] ↔ ∀ r ∈ results, r = none := by
  induction results with
  | nil => simp [failures]
  | cons r rest ih =>
    cases r with
    | none =>
      have : failures (none :: rest) = failures rest := by simp [failures]
      simp [this, ih]
    | some m => simp [failures]

/-- The loop-and-join delete meets the best-effort contract, for every
backend call and key mapping. -/
theorem deleteEach_best_effort {σ : Type} (call : String → σ → Err × σ)
    (key : String → String) :
    BestEffortDelete call key (deleteEach (fun object => call (key object)))
      (deleteEach (fun object => logged call (key object))) := by
  intro objects w log
  rw [deleteEach_eq, deleteEach_eq, attempts_logged]
  refine ⟨attempts_length _ objects w, rfl, ?_, ?_, rfl⟩
  · rw [← failures_eq_nil]
    by_cases hf : failures (attempts (fun object => call (key object)) objects w).1 = []
    · simp [hf]
    · simp [hf]
  · intro hne
    by_cases hf : failures (attempts (fun object => call (key object)) objects w).1 = []
    · simp [hf] at hne
    · simp [hf, joinErrs]

/-- C10: the `Delete` of the local adapter (removing `gfile.Join(Path, object)`),
of the COS adapter (deleting `objectRel(object)`) and of the UpYun adapter
(deleting `objectAbs(object)`) each attempt one removal per object, in input
order and also after failures, return nil exactly when no removal failed, and
otherwise return the error whose message is the failed removals' messages, in
input order, joined by "; ". -/
theorem Delete_best_effort {σ : Type} (h : PathHelpers) :
    (∀ (gfile : Gfile σ) (c : LocalAdapter),
      BestEffortDelete gfile.Remove (gfile.Join c.config.Path)
        (LocalAdapter.Delete gfile c)
        (LocalAdapter.Delete { Join := gfile.Join, Remove := logged gfile.Remove } c)) ∧
    (∀ c : CosAdapter σ,
      BestEffortDelete c.client.ObjectDelete h.objectRel
        (CosAdapter.Delete h c)
        (CosAdapter.Delete h
          { config := c.config, client := { ObjectDelete := logged c.client.ObjectDelete } })) ∧
    (∀ u : UpYunAdapter σ,
      BestEffortDelete u.client.Delete h.objectAbs
        (UpYunAdapter.Delete h u)
        (UpYunAdapter.Delete h
          { config := u.config, client := { Delete := logged u.client.Delete } })) := by
  refine ⟨?_, ?_, ?_⟩
  · intro gfile c
    exact deleteEach_best_effort gfile.Remove (gfile.Join c.config.Path)
  · intro c
    exact deleteEach_best_effort c.client.ObjectDelete h.objectRel
  · intro u
    exact deleteEach_best_effort u.client.Delete h.objectAbs

/-- C10 (witness): on the fake filesystem holding only `/data/b.txt`, deleting
`a.txt`, `b.txt`, `c.txt` fails on the first and the third; all three removals
are attempted in order, `b.txt` is removed, and the error joins the two
messages; deleting `a.txt`, `b.txt` ends with a successful removal and still
returns the error of the first. -/
theorem Delete_best_effort_witness :
    LocalAdapter.Delete { Join := listGfile.Join, Remove := logged listGfile.Remove }
        dataLocalAdapter ["a.txt", "b.txt", "c.txt"] (["/data/b.txt"], []) =
      (some "remove /data/a.txt: no such file; remove /data/c.txt: no such file",
        ([], ["/data/a.txt", "/data/b.txt", "/data/c.txt"])) ∧
    ((LocalAdapter.Delete listGfile dataLocalAdapter ["a.txt", "b.txt"] ["/data/b.txt"]).1 = none ↔
      ∀ r ∈ (attempts (fun object => listGfile.Remove
        (listGfile.Join dataLocalAdapter.config.Path object))
          ["a.txt", "b.txt"] ["/data/b.txt"]).1, r = none) ∧
    (LocalAdapter.Delete listGfile dataLocalAdapter ["a.txt", "b.txt"] ["/data/b.txt"]).1 =
      some "remove /data/a.txt: no such file" := by
  have h3 := ((@Delete_best_effort (List String) { objectRel := id, objectAbs := id }).1
    listGfile dataLocalAdapter ["a.txt", "b.txt", "c.txt"] ["/data/b.txt"] []).2.2.2.2
  have h2 := ((@Delete_best_effort (List String) { objectRel := id, objectAbs := id }).1
    listGfile dataLocalAdapter ["a.txt", "b.txt"] ["/data/b.txt"] []).2.2
  refine ⟨?_, h2.1, ?_⟩
  · rw [h3]
    decide
  · rw [h2.2.1 (by decide)]
    decide

/-! ### Key normalisation -/

/-- Dropping a leading run twice is dropping it once. -/
theorem dropWhile_dropWhile (p : Char → Bool) (l : List Char) :
    (l.dropWhile p).dropWhile p = l.dropWhile p := by
  induction l with
  | nil => rfl
  | cons c rest ih =>
    by_cases hc : p c = true
    · simp [List.dropWhile, hc, ih]
    · simp [List.dropWhile, hc]

/-- A remainder left by `dropWhile` is a suffix, so a property of all
elements of the list holds of all elements of the remainder. -/
theorem mem_of_mem_dropWhile (p : Char → Bool) (l : List Char) (c : Char)
    (h : c ∈ l.dropWhile p) : c ∈ l :=
  (List.dropWhile_suffix p).subset h

/-- Trimming on the left is idempotent. -/
theorem trimLeft_idem (s cutset : String) :
    trimLeft (trimLeft s cutset) cutset = trimLeft s cutset := by
  simp [trimLeft, dropWhile_dropWhile]

/-- Replacing backslashes leaves a string without backslashes as it is. -/
theorem toSlash_of_no_backslash (s : String) (h : ∀ c ∈ s.toList, c ≠ backslash) :
    toSlash s = s := by
  unfold toSlash
  have : s.toList.map (fun c => if c = backslash then '/' else c) = s.toList := by
    conv_rhs => rw [← List.map_id s.toList]
    apply List.map_congr_left
    intro c hc
    simp [h c hc]
  rw [this]
  rfl

/-- The relative form holds no backslash. -/
theorem objectRel_no_backslash (k : String) : ∀ c ∈ (objectRel k).toList, c ≠ backslash := by
  intro c hc
  have h1 : c ∈ (toSlash k).toList := mem_of_mem_dropWhile _ _ c hc
  simp only [toSlash, String.toList, List.mem_map] at h1
  obtain ⟨d, _, hd⟩ := h1
  by_cases hb : d = backslash
  · rw [if_pos hb] at hd
    rw [← hd]
    decide
  · rw [if_neg hb] at hd
    rw [← hd]
    exact hb

/-- The relative form of a relative form is itself. -/
theorem objectRel_idem (k : String) : objectRel (objectRel k) = objectRel k := by
  have h := toSlash_of_no_backslash (objectRel k) (objectRel_no_backslash k)
  show trimLeft (toSlash (objectRel k)) "./" = objectRel k
  rw [h]
  exact trimLeft_idem (toSlash k) "./"

/-- A leading slash does not change the relative form. -/
theorem objectRel_slash_append (s : String) : objectRel ("/" ++ s) = objectRel s := by
  have h : (toSlash ("/" ++ s)).toList = '/' :: (toSlash s).toList := by
    simp only [toSlash, String.toList, String.data_append, List.map_append]
    rfl
  unfold objectRel trimLeft
  rw [h]
  congr 1

/-- C14: the relative form, the absolute form and the inline normalisation
of `OssAdapter.Upload`, `strings.TrimLeft(path, "./")`, are idempotent:
applying each twice gives what applying it once gives. -/
theorem normalisation_idempotent (k : String) :
    objectRel (objectRel k) = objectRel k ∧
    objectAbs (objectAbs k) = objectAbs k ∧
    trimLeft (trimLeft k "./") "./" = trimLeft k "./" := by
  refine ⟨objectRel_idem k, ?_, trimLeft_idem k "./"⟩
  show "/" ++ objectRel ("/" ++ objectRel k) = "/" ++ objectRel k
  rw [objectRel_slash_append, objectRel_idem]

/-- The relative form starts with neither a dot nor a slash. -/
theorem objectRel_no_leading_separator (k : String) :
    (objectRel k).toList.head? ≠ some '/' ∧ (objectRel k).toList.head? ≠ some '.' := by
  have h : ∀ c, (objectRel k).toList.head? = some c → ("./".toList.contains c) = false := by
    intro c hc
    have := List.head?_dropWhile_not (fun c => "./".toList.contains c) (toSlash k).toList
    simp only [objectRel, trimLeft, String.toList] at hc
    simp only [String.toList] at this
    rw [hc] at this
    simpa using this
  constructor
  · intro hc
    have := h '/' hc
    revert this
    decide
  · intro hc
    have := h '.' hc
    revert this
    decide

/-- C15 (the code at the failing input): `OssAdapter.Upload` of the key
`dir\a.txt` stores the object under that very key, backslash included,
because its inline `strings.TrimLeft(path, "./")` converts no backslash;
the relative form of that key is `dir/a.txt`, and `OssAdapter.IsExist`,
which goes through `objectRel`, does not find the uploaded object. The
relative form itself is as the claim says: empty for the empty key and
`a/b` for `./a/b`. -/
theorem OssAdapter_Upload_keeps_backslash :
    OssAdapter.Upload asciiLib memOssSdk "dir\\a.txt" [1, 2] 2 [] [] =
      (none, [("dir\\a.txt", [1, 2])]) ∧
    backslash ∈ "dir\\a.txt".toList ∧
    objectRel "dir\\a.txt" = "dir/a.txt" ∧
    OssAdapter.IsExist specHelpers memOssSdk "dir\\a.txt" [("dir\\a.txt", [1, 2])] =
      (some "file is not exist", [("dir\\a.txt", [1, 2])]) ∧
    objectRel "" = "" ∧
    objectRel "./a/b" = "a/b" := by
  refine ⟨?_, ?_, ?_, ?_, ?_, ?_⟩ <;> decide

/-- C18 (the code at the failing input): `OssAdapter.Delete` hands the keys
to `DeleteObjects` as they come, while `OssAdapter.Upload` writes to
`strings.TrimLeft(K, "./")`. On the in-memory bucket, uploading `/a.txt`
stores the object `a.txt`; deleting `/a.txt` then returns nil and asks the
backend to delete the key `/a.txt`, so the object `a.txt` is still there and
`IsExist("/a.txt")` still succeeds. -/
theorem OssAdapter_Delete_key_not_normalised :
    (∀ (σ : Type) (o : OssAdapter σ) (K : String) (w : σ),
      OssAdapter.Delete o [K] w = o.client.DeleteObjects [K] w) ∧
    (∀ (σ : Type) (lib : GoLib) (sdk : OssSdk σ) (K : String) (B : Bytes) (size : Int) (w : σ),
      OssAdapter.Upload lib sdk K B size [] w = sdk.PutObject (trimLeft K "./") B [] w) ∧
    OssAdapter.Upload asciiLib memOssSdk "/a.txt" [1, 2] 2 [] [] =
      (none, [("a.txt", [1, 2])]) ∧
    OssAdapter.Delete memOssAdapter ["/a.txt"] [("a.txt", [1, 2])] =
      (none, [("a.txt", [1, 2])]) ∧
    OssAdapter.IsExist specHelpers memOssSdk "/a.txt" [("a.txt", [1, 2])] =
      (none, [("a.txt", [1, 2])]) := by
  refine ⟨?_, ?_, ?_, ?_, ?_⟩
  · intro σ o K w; rfl
  · intro σ lib sdk K B size w; rfl
  · decide
  · decide
  · decide

/-! ### Signed URLs -/

/-- An explicit expiry is the one used; without one, the configured expiry. -/
theorem expOf_cons (configured e : Int) (rest : List Int) :
    expOf configured (e :: rest) = e := rfl

/-- Without an explicit expiry the configured one is used. -/
theorem expOf_nil (configured : Int) : expOf configured [] = configured := rfl

/-- C11: for the Bos, Cos, MinIO and Obs adapters, every configuration and
client, every object `K` and every explicit expiry `e ≤ 0` (followed by any
further values), `GetSignURL` returns a nil error and the link that is the
configured `Domain` followed by `objectAbs(K)` and nothing else, and leaves
the world as it was: the client's signer is not called. -/
theorem GetSignURL_nonpositive_expire {σ : Type} (h : PathHelpers) (lib : GoLib)
    (sevenDays : Int) (K : String) (e : Int) (rest : List Int) (w : σ) (he : e ≤ 0) :
    (∀ (sdk : BosSdk σ) (b : BosAdapter σ),
      BosAdapter.GetSignURL h lib sdk b K (e :: rest) w =
        ((b.config.Domain ++ h.objectAbs K, none), w)) ∧
    (∀ (sdk : CosSdk σ) (c : CosAdapter σ),
      CosAdapter.GetSignURL h sdk c K (e :: rest) w =
        ((c.config.Domain ++ h.objectAbs K, none), w)) ∧
    (∀ (sdk : MinioSdk σ) (m : MinIoAdapter σ),
      MinIoAdapter.GetSignURL h sevenDays sdk m K (e :: rest) w =
        ((m.config.Domain ++ h.objectAbs K, none), w)) ∧
    (∀ (sdk : ObsSdk σ) (o : ObsAdapter σ),
      ObsAdapter.GetSignURL h lib sdk o K (e :: rest) w =
        ((o.config.Domain ++ h.objectAbs K, none), w)) := by
  refine ⟨?_, ?_, ?_, ?_⟩
  · intro sdk b
    simp [BosAdapter.GetSignURL, expOf_cons, he]
  · intro sdk c
    simp [CosAdapter.GetSignURL, expOf_cons, he]
  · intro sdk m
    simp [MinIoAdapter.GetSignURL, expOf_cons, he]
  · intro sdk o
    simp [ObsAdapter.GetSignURL, expOf_cons, he]

/-- C11 (witness): the MinIO adapter over the in-memory store, configured
with a default expiry of one hour, asked for `a/b.txt` with the explicit
expiry 0, returns the unsigned link under its domain. -/
theorem GetSignURL_nonpositive_expire_witness :
    (0 : Int) ≤ 0 ∧
    MinIoAdapter.GetSignURL specHelpers 604800 memMinioSdk (memMinioAdapter 3600)
        "a/b.txt" [0] [] =
      (("http://minio.local/a/b.txt", none), []) := by
  refine ⟨le_refl 0, ?_⟩
  have h := (GetSignURL_nonpositive_expire specHelpers asciiLib 604800 "a/b.txt" 0 []
    ([] : Mem) (le_refl 0)).2.2.1 memMinioSdk (memMinioAdapter 3600)
  rw [h]
  decide

/-- C12 (counterexample): the MinIO adapter configured with a default expiry
of one hour, asked for `a.txt` with no expiry argument, returns the link the
client signed, with its validity in the query, and not the plain link
`Domain` followed by `objectAbs("a.txt")`. -/
theorem GetSignURL_absent_expire_signs :
    MinIoAdapter.GetSignURL specHelpers 604800 memMinioSdk (memMinioAdapter 3600)
        "a.txt" [] [] =
      (("http://minio.local/bucket/a.txt?X-Amz-Expires=3600", none), []) ∧
    (MinIoAdapter.GetSignURL specHelpers 604800 memMinioSdk (memMinioAdapter 3600)
        "a.txt" [] []).1.1 ≠
      (memMinioAdapter 3600).config.Domain ++ specHelpers.objectAbs "a.txt" := by
  refine ⟨?_, ?_⟩ <;> decide

/-- C12 (amended): with no expiry argument each cloud adapter uses the
configured `Expire`, answering as it does to that value given explicitly.
When the configured `Expire` is not positive, the Bos, Cos, MinIO, Obs and
UpYun adapters return a nil error and `Domain` followed by `objectAbs(K)`,
the Oss adapter `Domain`, a slash and `objectRel(K)`, and no signer is
called. When it is positive, the Bos, Cos, MinIO, Obs and Oss adapters call
their signer once, on the key `objectRel(K)` with the configured `Expire` as
validity, and return the signer's error, or a nil error and the signed link
with its scheme and host replaced by `Domain` when it does not start with
`Domain`; the UpYun adapter reads the clock and returns `Domain`,
`objectAbs(K)` and the `_upt` token made of the digest and the end time.
`NewAdapterOss` stores a positive `Expire` whatever was configured, so an
Oss adapter built by it calls the signer. -/
theorem GetSignURL_absent_expire {σ : Type} (h : PathHelpers) (lib : GoLib)
    (sevenDays : Int) (K : String) (w : σ) :
    (∀ (sdk : BosSdk σ) (b : BosAdapter σ),
      BosAdapter.GetSignURL h lib sdk b K [] w =
        BosAdapter.GetSignURL h lib sdk b K [b.config.Expire] w ∧
      (b.config.Expire ≤ 0 → BosAdapter.GetSignURL h lib sdk b K [] w =
        ((b.config.Domain ++ h.objectAbs K, none), w)) ∧
      (0 < b.config.Expire → BosAdapter.GetSignURL h lib sdk b K [] w =
        ((rehost lib b.config.Domain
            (sdk.BasicGeneratePresignedUrl b.config.Bucket (h.objectRel K)
              b.config.Expire w).1, none),
          (sdk.BasicGeneratePresignedUrl b.config.Bucket (h.objectRel K)
            b.config.Expire w).2))) ∧
    (∀ (sdk : CosSdk σ) (c : CosAdapter σ),
      CosAdapter.GetSignURL h sdk c K [] w =
        CosAdapter.GetSignURL h sdk c K [c.config.Expire] w ∧
      (c.config.Expire ≤ 0 → CosAdapter.GetSignURL h sdk c K [] w =
        ((c.config.Domain ++ h.objectAbs K, none), w)) ∧
      (0 < c.config.Expire → CosAdapter.GetSignURL h sdk c K [] w =
        match sdk.GetPresignedURL "GET" (h.objectRel K) c.config.AccessKey c.config.SecretKey
            (seconds c.config.Expire) w with
        | (Except.error err, w1) => (("", some err), w1)
        | (Except.ok u, w1) => ((rehostURL c.config.Domain u, none), w1))) ∧
    (∀ (sdk : MinioSdk σ) (m : MinIoAdapter σ),
      MinIoAdapter.GetSignURL h sevenDays sdk m K [] w =
        MinIoAdapter.GetSignURL h sevenDays sdk m K [m.config.Expire] w ∧
      (m.config.Expire ≤ 0 → MinIoAdapter.GetSignURL h sevenDays sdk m K [] w =
        ((m.config.Domain ++ h.objectAbs K, none), w)) ∧
      (0 < m.config.Expire → MinIoAdapter.GetSignURL h sevenDays sdk m K [] w =
        match sdk.PresignedGetObject m.config.Bucket (h.objectRel K)
            (seconds m.config.Expire) w with
        | (Except.error err, w1) => (("", some err), w1)
        | (Except.ok u, w1) => ((rehostURL m.config.Domain u, none), w1))) ∧
    (∀ (sdk : ObsSdk σ) (o : ObsAdapter σ),
      ObsAdapter.GetSignURL h lib sdk o K [] w =
        ObsAdapter.GetSignURL h lib sdk o K [o.config.Expire] w ∧
      (o.config.Expire ≤ 0 → ObsAdapter.GetSignURL h lib sdk o K [] w =
        ((o.config.Domain ++ h.objectAbs K, none), w)) ∧
      (0 < o.config.Expire → ObsAdapter.GetSignURL h lib sdk o K [] w =
        match sdk.CreateSignedUrl "GET" o.config.Bucket (h.objectRel K) o.config.Expire w with
        | (Except.error err, w1) => (("", some err), w1)
        | (Except.ok signedUrl, w1) => ((rehost lib o.config.Domain signedUrl, none), w1))) ∧
    (∀ (sign : UpYunSign σ) (u : UpYunAdapter σ),
      UpYunAdapter.GetSignURL h sign u K [] w =
        UpYunAdapter.GetSignURL h sign u K [u.config.Expire] w ∧
      (u.config.Expire ≤ 0 → UpYunAdapter.GetSignURL h sign u K [] w =
        ((u.config.Domain ++ h.objectAbs K, none), w)) ∧
      (0 < u.config.Expire → UpYunAdapter.GetSignURL h sign u K [] w =
        ((u.config.Domain ++ h.objectAbs K ++ "?_upt=" ++
            (String.mk (((sign.MD5Crypt (u.config.Secret ++ "&" ++
                toString (wrap64 ((sign.Now w).1 + u.config.Expire)) ++ "&" ++
                h.objectAbs K)).toList.drop 12).take 8) ++
              toString (wrap64 ((sign.Now w).1 + u.config.Expire))), none),
          (sign.Now w).2))) ∧
    (∀ (sdk : OssSdk σ) (o : OssAdapter σ),
      OssAdapter.GetSignURL h lib sdk o K [] w =
        OssAdapter.GetSignURL h lib sdk o K [o.config.Expire] w ∧
      (o.config.Expire ≤ 0 → OssAdapter.GetSignURL h lib sdk o K [] w =
        ((o.config.Domain ++ "/" ++ h.objectRel K, none), w)) ∧
      (0 < o.config.Expire → OssAdapter.GetSignURL h lib sdk o K [] w =
        match sdk.SignURL (h.objectRel K) "GET" o.config.Expire w with
        | ((link, some err), w1) => ((link, some err), w1)
        | ((link, none), w1) => ((rehost lib o.config.Domain link, none), w1))) ∧
    (∀ cfg : ConfigOss, 0 < (NewAdapterOss.config cfg).Expire) ∧
    (∀ (sdk : OssSdk σ) (client : OssClient σ) (cfg : ConfigOss),
      OssAdapter.GetSignURL h lib sdk
          { config := NewAdapterOss.config cfg, client := client } K [] w =
        match sdk.SignURL (h.objectRel K) "GET" (NewAdapterOss.config cfg).Expire w with
        | ((link, some err), w1) => ((link, some err), w1)
        | ((link, none), w1) =>
          ((rehost lib (NewAdapterOss.config cfg).Domain link, none), w1)) := by
  have hoss : ∀ cfg : ConfigOss, 0 < (NewAdapterOss.config cfg).Expire := by
    intro cfg
    unfold NewAdapterOss.config
    by_cases he : cfg.Expire ≤ 0
    · simp only [he, if_true]
      split <;> simp
    · simp only [he, if_false]
      have hp : 0 < cfg.Expire := by omega
      split <;> exact hp
  have hossSign : ∀ (sdk : OssSdk σ) (o : OssAdapter σ), 0 < o.config.Expire →
      OssAdapter.GetSignURL h lib sdk o K [] w =
        match sdk.SignURL (h.objectRel K) "GET" o.config.Expire w with
        | ((link, some err), w1) => ((link, some err), w1)
        | ((link, none), w1) => ((rehost lib o.config.Domain link, none), w1) := by
    intro sdk o hp
    have hn : ¬ expOf o.config.Expire [] ≤ 0 := by rw [expOf_nil]; omega
    unfold OssAdapter.GetSignURL
    rw [if_neg hn]
    rfl
  refine ⟨?_, ?_, ?_, ?_, ?_, ?_, hoss, ?_⟩
  · intro sdk b
    refine ⟨rfl, fun he => by simp [BosAdapter.GetSignURL, expOf_nil, he], fun hp => ?_⟩
    have hn : ¬ expOf b.config.Expire [] ≤ 0 := by rw [expOf_nil]; omega
    unfold BosAdapter.GetSignURL
    rw [if_neg hn]
    rfl
  · intro sdk c
    refine ⟨rfl, fun he => by simp [CosAdapter.GetSignURL, expOf_nil, he], fun hp => ?_⟩
    have hn : ¬ expOf c.config.Expire [] ≤ 0 := by rw [expOf_nil]; omega
    unfold CosAdapter.GetSignURL
    rw [if_neg hn]
    rfl
  · intro sdk m
    refine ⟨rfl, fun he => by simp [MinIoAdapter.GetSignURL, expOf_nil, he], fun hp => ?_⟩
    have hn : ¬ expOf m.config.Expire [] ≤ 0 := by rw [expOf_nil]; omega
    unfold MinIoAdapter.GetSignURL
    rw [if_neg hn]
  · intro sdk o
    refine ⟨rfl, fun he => by simp [ObsAdapter.GetSignURL, expOf_nil, he], fun hp => ?_⟩
    have hn : ¬ expOf o.config.Expire [] ≤ 0 := by rw [expOf_nil]; omega
    unfold ObsAdapter.GetSignURL
    rw [if_neg hn]
    rfl
  · intro sign u
    refine ⟨rfl, fun he => by simp [UpYunAdapter.GetSignURL, expOf_nil, he], fun hp => ?_⟩
    have hn : ¬ expOf u.config.Expire [] ≤ 0 := by rw [expOf_nil]; omega
    unfold UpYunAdapter.GetSignURL
    rw [if_neg hn]
    rfl
  · intro sdk o
    exact ⟨rfl, fun he => by simp [OssAdapter.GetSignURL, expOf_nil, he], hossSign sdk o⟩
  · intro sdk client cfg
    exact hossSign sdk { config := NewAdapterOss.config cfg, client := client } (hoss cfg)

/-- C12 (witness): the MinIO adapter configured with `Expire = 0`, asked for
`a.txt` with no expiry argument, returns the plain link under its domain;
configured with `Expire = 3600` it sends one request to the signer, on the
key `a.txt` with a validity of 3600 seconds, and returns the signed link; and
the in-memory OSS adapter, built by `NewAdapterOss.config` from a
configuration with `Expire = 0`, holds the expiry 1800 and returns the link
signed for 1800 seconds under its domain. -/
theorem GetSignURL_absent_expire_witness :
    (memMinioAdapter 0).config.Expire ≤ 0 ∧
    MinIoAdapter.GetSignURL specHelpers 604800 memMinioSdk (memMinioAdapter 0) "a.txt" [] [] =
      (("http://minio.local/a.txt", none), []) ∧
    0 < (probeMinioAdapter 3600).config.Expire ∧
    MinIoAdapter.GetSignURL specHelpers 604800 probeMinioSdk (probeMinioAdapter 3600)
        "a.txt" [] [] =
      (("http://minio.local/bucket/a.txt?X-Amz-Signature=s", none),
        [("bucket", "a.txt", 3600 * 1000000000)]) ∧
    memOssAdapter.config.Expire = 1800 ∧
    OssAdapter.GetSignURL specHelpers asciiLib memOssSdk memOssAdapter "a.txt" [] [] =
      (("https://bucket.oss.example.com/a.txt?Expires=1800", none), []) := by
  have h0 := ((GetSignURL_absent_expire specHelpers asciiLib 604800 "a.txt"
    ([] : Mem)).2.2.1 memMinioSdk (memMinioAdapter 0)).2.1 (by decide)
  have h1 := ((GetSignURL_absent_expire specHelpers asciiLib 604800 "a.txt"
    ([] : List (String × String × Int))).2.2.1 probeMinioSdk (probeMinioAdapter 3600)).2.2
    (by decide)
  have h2 := (GetSignURL_absent_expire specHelpers asciiLib 604800 "a.txt"
    ([] : Mem)).2.2.2.2.2.2.2 memOssSdk memOssClient
    { AccessKey := "ak", SecretKey := "sk", Endpoint := "oss.example.com",
      Bucket := "bucket", Domain := "", Expire := 0 }
  refine ⟨by decide, ?_, by decide, ?_, by decide, ?_⟩
  · rw [h0]; decide
  · rw [h1]; decide
  · exact h2.trans (by decide)

/-! ### Upload header mapping -/

/-- The two nested loops over the header maps are one loop over all entries. -/
theorem foldl_headers {O : Type} (step : O → String × String → O) :
    ∀ (headers : List HeaderMap) (o : O),
      headers.foldl (fun acc header => header.foldl step acc) o =
        headers.flatten.foldl step o := by
  intro headers
  induction headers with
  | nil => intro o; rfl
  | cons hd rest ih =>
    intro o
    simp only [List.foldl_cons, List.flatten_cons, List.foldl_append]
    exact ih _

/-- Reading a key after a map assignment. -/
theorem lookup_mapSet (m : HeaderMap) (k1 v1 k : String) :
    List.lookup k (mapSet m k1 v1) = if k = k1 then some v1 else List.lookup k m := by
  induction m with
  | nil =>
    by_cases hk : k = k1
    · simp [mapSet, List.lookup, hk]
    · have : (k == k1) = false := by simpa using hk
      simp [mapSet, List.lookup, hk, this]
  | cons kv rest ih =>
    obtain ⟨k2, v2⟩ := kv
    by_cases h21 : k2 = k1
    · subst h21
      by_cases hk : k = k2
      · simp [mapSet, List.lookup, hk]
      · have : (k == k2) = false := by simpa using hk
        simp [mapSet, List.lookup, hk, this]
    · by_cases hk2 : k = k2
      · subst hk2
        have hne : ¬ k = k1 := h21
        simp [mapSet, List.lookup, h21, hne]
      · have : (k == k2) = false := by simpa using hk2
        simp [mapSet, List.lookup, h21, this, ih]

/-- A loop whose entries all leave a field alone leaves it alone. -/
theorem foldl_field_keep {O : Type} (step : O → String × String → O) (get : O → String)
    (lower : String → String) (name : String)
    (hkeep : ∀ o kv, lower kv.1 ≠ name → get (step o kv) = get o) :
    ∀ (entries : List (String × String)) (o : O),
      (∀ kv ∈ entries, lower kv.1 ≠ name) → get (entries.foldl step o) = get o := by
  intro entries
  induction entries with
  | nil => intro o _; rfl
  | cons kv rest ih =>
    intro o hall
    simp only [List.foldl_cons]
    rw [ih (step o kv) (fun kv2 h2 => hall kv2 (List.mem_cons_of_mem _ h2))]
    exact hkeep o kv (hall kv (List.mem_cons_self _ _))

/-- A field set by the entries of one lower-cased name holds, after the loop
over entries with distinct lower-cased keys, the value of the entry of that
name. -/
theorem foldl_field_set {O : Type} (step : O → String × String → O) (get : O → String)
    (lower : String → String) (name : String)
    (hset : ∀ o kv, lower kv.1 = name → get (step o kv) = kv.2)
    (hkeep : ∀ o kv, lower kv.1 ≠ name → get (step o kv) = get o) :
    ∀ (entries : List (String × String)) (o : O),
      (entries.map (fun kv => lower kv.1)).Nodup →
      ∀ k v, (k, v) ∈ entries → lower k = name → get (entries.foldl step o) = v := by
  intro entries
  induction entries with
  | nil => intro o _ k v hmem; cases hmem
  | cons kv rest ih =>
    intro o hnd k v hmem hk
    simp only [List.map_cons, List.nodup_cons] at hnd
    simp only [List.foldl_cons]
    rcases List.mem_cons.mp hmem with heq | hrest
    · subst heq
      have hothers : ∀ kv2 ∈ rest, lower kv2.1 ≠ name := by
        intro kv2 h2 h3
        apply hnd.1
        rw [hk, ← h3]
        exact List.mem_map_of_mem (fun kv => lower kv.1) h2
      rw [foldl_field_keep step get lower name hkeep rest _ hothers]
      exact hset o (k, v) hk
    · exact ih (step o kv) hnd.2 k v hrest hk

/-- The user-metadata map after the loop over entries with distinct
lower-cased keys, none of them bound at the start: it binds what it bound at
the start and the entries whose lower-cased key is not recognised. -/
theorem foldl_userMeta {O : Type} (step : O → String × String → O) (um : O → HeaderMap)
    (lower : String → String) (recognised : String → Bool)
    (hskip : ∀ o kv, recognised (lower kv.1) = true → um (step o kv) = um o)
    (hput : ∀ o kv, recognised (lower kv.1) = false →
      um (step o kv) = mapSet (um o) kv.1 kv.2) :
    ∀ (entries : List (String × String)) (o : O),
      (entries.map (fun kv => lower kv.1)).Nodup →
      (∀ kv ∈ entries, List.lookup kv.1 (um o) = none) →
      ∀ k v, List.lookup k (um (entries.foldl step o)) = some v ↔
        (List.lookup k (um o) = some v ∨
          ((k, v) ∈ entries ∧ recognised (lower k) = false)) := by
  intro entries
  induction entries with
  | nil => intro o _ _ k v; simp
  | cons kv rest ih =>
    intro o hnd hfresh k v
    simp only [List.map_cons, List.nodup_cons] at hnd
    simp only [List.foldl_cons]
    have hkv_fresh : List.lookup kv.1 (um o) = none := hfresh kv (List.mem_cons_self _ _)
    have hdistinct : ∀ kv2 ∈ rest, kv2.1 ≠ kv.1 := by
      intro kv2 h2 h3
      apply hnd.1
      rw [← h3]
      exact List.mem_map_of_mem (fun kv => lower kv.1) h2
    have hfresh2 : ∀ kv2 ∈ rest, List.lookup kv2.1 (um (step o kv)) = none := by
      intro kv2 h2
      cases hr : recognised (lower kv.1) with
      | true =>
        rw [hskip o kv hr]
        exact hfresh kv2 (List.mem_cons_of_mem _ h2)
      | false =>
        rw [hput o kv hr, lookup_mapSet, if_neg (hdistinct kv2 h2)]
        exact hfresh kv2 (List.mem_cons_of_mem _ h2)
    rw [ih (step o kv) hnd.2 hfresh2 k v]
    cases hr : recognised (lower kv.1) with
    | true =>
      rw [hskip o kv hr]
      constructor
      · rintro (h | ⟨hm, hn⟩)
        · exact Or.inl h
        · exact Or.inr ⟨List.mem_cons_of_mem _ hm, hn⟩
      · rintro (h | ⟨hm, hn⟩)
        · exact Or.inl h
        · rcases List.mem_cons.mp hm with heq | hrest
          · rw [← heq] at hr
            rw [hr] at hn
            exact Bool.noConfusion hn
          · exact Or.inr ⟨hrest, hn⟩
    | false =>
      rw [hput o kv hr, lookup_mapSet]
      constructor
      · rintro (h | ⟨hm, hn⟩)
        · by_cases hk : k = kv.1
          · rw [if_pos hk] at h
            have hv : kv.2 = v := Option.some.inj h
            refine Or.inr ⟨?_, by rw [hk]; exact hr⟩
            have : (k, v) = kv := by
              rw [hk, ← hv]
            rw [this]
            exact List.mem_cons_self _ _
          · rw [if_neg hk] at h
            exact Or.inl h
        · exact Or.inr ⟨List.mem_cons_of_mem _ hm, hn⟩
      · rintro (h | ⟨hm, hn⟩)
        · left
          have hk : k ≠ kv.1 := by
            intro hk
            rw [hk, hkv_fresh] at h
            exact Option.noConfusion h
          rw [if_neg hk]
          exact h
        · rcases List.mem_cons.mp hm with heq | hrest
          · left
            rw [← heq]
            simp
          · exact Or.inr ⟨hrest, hn⟩

/-- C13 (counterexample): the BOS adapter stores the entry
`Content-Encoding: gzip` as user metadata, and the OBS adapter stores
`Content-Disposition: inline` and `Content-Encoding: gzip` as user metadata;
neither sets a content encoding or disposition from them. -/
theorem Upload_header_not_recognised :
    BosAdapter.args asciiLib [[("Content-Encoding", "gzip")]] =
      { UserMeta := [("Content-Encoding", "gzip")], ContentDisposition := "",
        ContentType := "" } ∧
    (ObsAdapter.input specHelpers asciiLib
        ({ config := { AccessKey := "ak", SecretKey := "sk", Endpoint := "obs.example.com",
                       Bucket := "bucket", Domain := "https://bucket.obs.example.com",
                       Expire := 0 },
           client := { DeleteObjects := fun _ _ (m : Mem) => (none, m) } } : ObsAdapter Mem)
        "a.txt" [1] [[("Content-Disposition", "inline"), ("Content-Encoding", "gzip")]]).Metadata =
      [("Content-Disposition", "inline"), ("Content-Encoding", "gzip")] := by
  refine ⟨?_, ?_⟩ <;> decide

/-- C13 (amended): for header maps in which no two keys are equal once
lower-cased, the options passed to the put call are these. MinIO: the entries
named `content-type`, `content-disposition` and `content-encoding` set the
option of that name. BOS: the entries named `content-type` and
`content-disposition` do. OBS: the entry named `content-type` does. In each
adapter the user-metadata map binds exactly the other entries, each under its
original key. -/
theorem Upload_header_mapping (lib : GoLib) (headers : List HeaderMap)
    (hnd : (headers.flatten.map (fun kv => lib.ToLower kv.1)).Nodup) :
    HeaderMapping lib headers.flatten
      [("content-type", (MinIoAdapter.options lib headers).ContentType),
       ("content-disposition", (MinIoAdapter.options lib headers).ContentDisposition),
       ("content-encoding", (MinIoAdapter.options lib headers).ContentEncoding)]
      (MinIoAdapter.options lib headers).UserMetadata ∧
    HeaderMapping lib headers.flatten
      [("content-type", (BosAdapter.args lib headers).ContentType),
       ("content-disposition", (BosAdapter.args lib headers).ContentDisposition)]
      (BosAdapter.args lib headers).UserMeta ∧
    (∀ (σ : Type) (h : PathHelpers) (o : ObsAdapter σ) (path : String) (reader : Bytes),
      HeaderMapping lib headers.flatten
        [("content-type", (ObsAdapter.input h lib o path reader headers).ContentType)]
        (ObsAdapter.input h lib o path reader headers).Metadata) ∧
    (∀ (σ : Type) (h : PathHelpers) (sdk : MinioSdk σ) (m : MinIoAdapter σ) (path : String)
        (reader : Bytes) (size : Int) (w : σ),
      MinIoAdapter.Upload h lib sdk m path reader size headers w =
        sdk.PutObject m.config.Bucket (h.objectRel path) reader size
          (MinIoAdapter.options lib headers) w) ∧
    (∀ (σ : Type) (h : PathHelpers) (sdk : BosSdk σ) (b : BosAdapter σ) (path : String)
        (reader : Bytes) (size : Int) (w : σ),
      BosAdapter.Upload h lib sdk b path reader size headers w =
        sdk.PutObjectFromStream b.config.Bucket (h.objectRel path) reader
          (BosAdapter.args lib headers) w) ∧
    (∀ (σ : Type) (h : PathHelpers) (sdk : ObsSdk σ) (o : ObsAdapter σ) (path : String)
        (reader : Bytes) (size : Int) (w : σ),
      ObsAdapter.Upload h lib sdk o path reader size headers w =
        sdk.PutObject (ObsAdapter.input h lib o path reader headers) w) := by
  refine ⟨?_, ?_, ?_, fun _ _ _ _ _ _ _ _ => rfl, fun _ _ _ _ _ _ _ _ => rfl,
    fun _ _ _ _ _ _ _ _ => rfl⟩
  · -- MinIO
    unfold MinIoAdapter.options
    rw [foldl_headers]
    constructor
    · intro name value hmem k v hkv hk
      simp only [List.mem_cons, Prod.mk.injEq, List.mem_singleton, List.not_mem_nil,
        or_false] at hmem
      rcases hmem with ⟨hn, hv⟩ | ⟨hn, hv⟩ | ⟨hn, hv⟩
      · rw [hv]
        refine foldl_field_set (MinIoAdapter.header lib) (fun o => o.ContentType) lib.ToLower
          "content-type" ?_ ?_ _ _ hnd k v hkv (hk.trans hn)
        · intro o kv h; simp [MinIoAdapter.header, h]
        · intro o kv h; simp only [MinIoAdapter.header]; split_ifs <;> simp_all
      · rw [hv]
        refine foldl_field_set (MinIoAdapter.header lib) (fun o => o.ContentDisposition)
          lib.ToLower "content-disposition" ?_ ?_ _ _ hnd k v hkv (hk.trans hn)
        · intro o kv h; simp [MinIoAdapter.header, h]
        · intro o kv h; simp only [MinIoAdapter.header]; split_ifs <;> simp_all
      · rw [hv]
        refine foldl_field_set (MinIoAdapter.header lib) (fun o => o.ContentEncoding)
          lib.ToLower "content-encoding" ?_ ?_ _ _ hnd k v hkv (hk.trans hn)
        · intro o kv h; simp [MinIoAdapter.header, h]
        · intro o kv h; simp only [MinIoAdapter.header]; split_ifs <;> simp_all
    · intro k v
      have hm := foldl_userMeta (MinIoAdapter.header lib) (fun o => o.UserMetadata) lib.ToLower
        (fun s => decide (s = "content-disposition" ∨ s = "content-encoding" ∨
          s = "content-type"))
        (by intro o kv h; simp only [MinIoAdapter.header]; split_ifs <;> simp_all)
        (by intro o kv h; simp only [MinIoAdapter.header]; split_ifs <;> simp_all)
        headers.flatten
        { UserMetadata := [], ContentType := "", ContentEncoding := "",
          ContentDisposition := "" }
        hnd (by intro kv _; rfl) k v
      rw [hm]
      simp only [List.lookup, false_or, decide_eq_false_iff_not, not_or, List.mem_cons,
        Prod.mk.injEq, List.not_mem_nil, or_false]
      constructor
      · rintro (h0 | ⟨hmem, h1, h2, h3⟩)
        · exact absurd h0 (by simp [List.lookup])
        · refine ⟨hmem, ?_⟩
          rintro name value (⟨hn, _⟩ | ⟨hn, _⟩ | ⟨hn, _⟩) <;> rw [hn] <;> assumption
      · rintro ⟨hmem, hall⟩
        exact Or.inr ⟨hmem, hall _ _ (Or.inr (Or.inl ⟨rfl, rfl⟩)),
          hall _ _ (Or.inr (Or.inr ⟨rfl, rfl⟩)), hall _ _ (Or.inl ⟨rfl, rfl⟩)⟩
  · -- BOS
    unfold BosAdapter.args
    rw [foldl_headers]
    constructor
    · intro name value hmem k v hkv hk
      simp only [List.mem_cons, Prod.mk.injEq, List.mem_singleton, List.not_mem_nil,
        or_false] at hmem
      rcases hmem with ⟨hn, hv⟩ | ⟨hn, hv⟩
      · rw [hv]
        refine foldl_field_set (BosAdapter.header lib) (fun o => o.ContentType) lib.ToLower
          "content-type" ?_ ?_ _ _ hnd k v hkv (hk.trans hn)
        · intro o kv h; simp [BosAdapter.header, h]
        · intro o kv h; simp only [BosAdapter.header]; split_ifs <;> simp_all
      · rw [hv]
        refine foldl_field_set (BosAdapter.header lib) (fun o => o.ContentDisposition)
          lib.ToLower "content-disposition" ?_ ?_ _ _ hnd k v hkv (hk.trans hn)
        · intro o kv h; simp [BosAdapter.header, h]
        · intro o kv h; simp only [BosAdapter.header]; split_ifs <;> simp_all
    · intro k v
      have hm := foldl_userMeta (BosAdapter.header lib) (fun o => o.UserMeta) lib.ToLower
        (fun s => decide (s = "content-disposition" ∨ s = "content-type"))
        (by intro o kv h; simp only [BosAdapter.header]; split_ifs <;> simp_all)
        (by intro o kv h; simp only [BosAdapter.header]; split_ifs <;> simp_all)
        headers.flatten
        { UserMeta := [], ContentDisposition := "", ContentType := "" }
        hnd (by intro kv _; rfl) k v
      rw [hm]
      simp only [List.lookup, false_or, decide_eq_false_iff_not, not_or, List.mem_cons,
        Prod.mk.injEq, List.not_mem_nil, or_false]
      constructor
      · rintro (h0 | ⟨hmem, h1, h2⟩)
        · exact absurd h0 (by simp [List.lookup])
        · refine ⟨hmem, ?_⟩
          rintro name value (⟨hn, _⟩ | ⟨hn, _⟩) <;> rw [hn] <;> assumption
      · rintro ⟨hmem, hall⟩
        exact Or.inr ⟨hmem, hall _ _ (Or.inr ⟨rfl, rfl⟩), hall _ _ (Or.inl ⟨rfl, rfl⟩)⟩
  · -- OBS
    intro σ h o path reader
    unfold ObsAdapter.input
    rw [foldl_headers]
    constructor
    · intro name value hmem k v hkv hk
      simp only [List.mem_cons, Prod.mk.injEq, List.mem_singleton, List.not_mem_nil,
        or_false] at hmem
      obtain ⟨hn, hv⟩ := hmem
      rw [hv]
      refine foldl_field_set (ObsAdapter.header lib) (fun o => o.ContentType) lib.ToLower
        "content-type" ?_ ?_ _ _ hnd k v hkv (hk.trans hn)
      · intro o kv h; simp [ObsAdapter.header, h]
      · intro o kv h; simp only [ObsAdapter.header]; split_ifs <;> simp_all
    · intro k v
      have hm := foldl_userMeta (ObsAdapter.header lib) (fun o => o.Metadata) lib.ToLower
        (fun s => decide (s = "content-type"))
        (by intro o kv h; simp only [ObsAdapter.header]; split_ifs <;> simp_all)
        (by intro o kv h; simp only [ObsAdapter.header]; split_ifs <;> simp_all)
        headers.flatten
        { Bucket := o.config.Bucket, Key := h.objectRel path, Metadata := [], Body := reader,
          ContentType := "" }
        hnd (by intro kv _; rfl) k v
      rw [hm]
      simp only [List.lookup, false_or, decide_eq_false_iff_not, List.mem_cons,
        Prod.mk.injEq, List.not_mem_nil, or_false]
      constructor
      · rintro (h0 | ⟨hmem, h1⟩)
        · exact absurd h0 (by simp [List.lookup])
        · refine ⟨hmem, ?_⟩
          rintro name value ⟨hn, _⟩
          rw [hn]
          exact h1
      · rintro ⟨hmem, hall⟩
        exact Or.inr ⟨hmem, hall _ _ ⟨rfl, rfl⟩⟩

/-- C13 (witness): for a content type and one custom header, given to the
MinIO adapter, the content type is set and the custom entry alone is stored
as user metadata. -/
theorem Upload_header_mapping_witness :
    (sampleHeaders.flatten.map (fun kv => asciiLib.ToLower kv.1)).Nodup ∧
    HeaderMapping asciiLib sampleHeaders.flatten
      [("content-type", (MinIoAdapter.options asciiLib sampleHeaders).ContentType),
       ("content-disposition", (MinIoAdapter.options asciiLib sampleHeaders).ContentDisposition),
       ("content-encoding", (MinIoAdapter.options asciiLib sampleHeaders).ContentEncoding)]
      (MinIoAdapter.options asciiLib sampleHeaders).UserMetadata ∧
    MinIoAdapter.options asciiLib sampleHeaders =
      { UserMetadata := [("X-Owner", "kim")], ContentType := "text/plain",
        ContentEncoding := "", ContentDisposition := "" } :=
  ⟨by decide, (Upload_header_mapping asciiLib sampleHeaders (by decide)).1, by decide⟩

/-! ### The local adapter -/

/-- On the modelled filesystem an upload that returns nil leaves the content
of the reader under the joined path. -/
theorem memFs_Upload_content (join : String → String → String) (refuses : String → Bool)
    (c : LocalAdapter) (K : String) (B : Bytes) (size : Int)
    (headers : List HeaderMap) (m : Mem)
    (h : (LocalAdapter.Upload (memFsWith join refuses) c K B size headers m).1 = none) :
    Mem.content (LocalAdapter.Upload (memFsWith join refuses) c K B size headers m).2
      (join c.config.Path K) = some B := by
  have hC : (memFsWith join refuses).Create ((memFsWith join refuses).Join c.config.Path K) m =
      if refuses (join c.config.Path K) = true then
        (Except.error ("open " ++ join c.config.Path K ++ ": is a directory"), m)
      else (Except.ok (join c.config.Path K),
        (join c.config.Path K, []) ::
          m.filter (fun kv => !(kv.1 == join c.config.Path K))) := rfl
  unfold LocalAdapter.Upload at h ⊢
  by_cases hd : refuses (join c.config.Path K) = true
  · rw [hC, if_pos hd] at h
    exact Option.noConfusion h
  · rw [hC, if_neg hd]
    show List.lookup (join c.config.Path K)
      (List.map (fun kv => if kv.1 = join c.config.Path K then (kv.1, kv.2 ++ B) else kv)
        ((join c.config.Path K, []) ::
          m.filter (fun kv => !(kv.1 == join c.config.Path K)))) = some B
    rw [List.map_cons, if_pos rfl]
    simp [List.lookup]

/-- On the modelled filesystem a download yields the content stored under
the joined path. -/
theorem memFs_Download_content (join : String → String → String) (refuses : String → Bool)
    (c : LocalAdapter) (K : String) (B : Bytes) (m : Mem)
    (h : Mem.content m (join c.config.Path K) = some B) :
    LocalAdapter.Download (memFsWith join refuses) c K m = ((FileBody.file B, none), m) := by
  have hO : (memFsWith join refuses).Open ((memFsWith join refuses).Join c.config.Path K) m =
      match Mem.content m (join c.config.Path K) with
      | some b => (Except.ok b, m)
      | none => (Except.error
          ("open " ++ join c.config.Path K ++ ": no such file or directory"), m) := rfl
  unfold LocalAdapter.Download
  rw [hO, h]

/-- On the modelled filesystem whose writes cannot fail, whatever its path
join and the paths it refuses to create, for every local adapter, key and
content, an upload that returns nil is followed by a download that returns a
nil error and exactly the uploaded content; after two successful uploads to
one key the download yields the second content. -/
theorem Local_round_trip (join : String → String → String) (refuses : String → Bool)
    (c : LocalAdapter) (K : String) (B1 B2 : Bytes) (size1 size2 : Int)
    (headers1 headers2 : List HeaderMap) (m : Mem)
    (h1 : (LocalAdapter.Upload (memFsWith join refuses) c K B1 size1 headers1 m).1 = none)
    (h2 : (LocalAdapter.Upload (memFsWith join refuses) c K B2 size2 headers2
      (LocalAdapter.Upload (memFsWith join refuses) c K B1 size1 headers1 m).2).1 = none) :
    LocalAdapter.Download (memFsWith join refuses) c K
        (LocalAdapter.Upload (memFsWith join refuses) c K B1 size1 headers1 m).2 =
      ((FileBody.file B1, none),
        (LocalAdapter.Upload (memFsWith join refuses) c K B1 size1 headers1 m).2) ∧
    LocalAdapter.Download (memFsWith join refuses) c K
        (LocalAdapter.Upload (memFsWith join refuses) c K B2 size2 headers2
          (LocalAdapter.Upload (memFsWith join refuses) c K B1 size1 headers1 m).2).2 =
      ((FileBody.file B2, none),
        (LocalAdapter.Upload (memFsWith join refuses) c K B2 size2 headers2
          (LocalAdapter.Upload (memFsWith join refuses) c K B1 size1 headers1 m).2).2) :=
  ⟨memFs_Download_content join refuses c K B1 _
      (memFs_Upload_content join refuses c K B1 size1 headers1 m h1),
    memFs_Download_content join refuses c K B2 _
      (memFs_Upload_content join refuses c K B2 size2 headers2 _ h2)⟩

/-- On the modelled filesystem whose writes cannot fail, under `/data`,
uploading three bytes and then two bytes to `a.txt` succeeds both times, and
the downloads yield the three bytes and then the two bytes. -/
theorem Local_round_trip_witness :
    (LocalAdapter.Upload memFs dataLocalAdapter "a.txt" [1, 2, 3] 3 [] []).1 = none ∧
    LocalAdapter.Download memFs dataLocalAdapter "a.txt"
        (LocalAdapter.Upload memFs dataLocalAdapter "a.txt" [1, 2, 3] 3 [] []).2 =
      ((FileBody.file [1, 2, 3], none), [("/data/a.txt", [1, 2, 3])]) ∧
    LocalAdapter.Download memFs dataLocalAdapter "a.txt"
        (LocalAdapter.Upload memFs dataLocalAdapter "a.txt" [7, 8] 2 []
          (LocalAdapter.Upload memFs dataLocalAdapter "a.txt" [1, 2, 3] 3 [] []).2).2 =
      ((FileBody.file [7, 8], none), [("/data/a.txt", [7, 8])]) := by
  have h := Local_round_trip (fun dir name => dir ++ "/" ++ name)
    (fun path => decide (path.toList.getLast? = some '/'))
    dataLocalAdapter "a.txt" [1, 2, 3] [7, 8] 3 2 [] [] [] (by decide) (by decide)
  refine ⟨by decide, ?_, ?_⟩
  · exact h.1.trans (by decide)
  · exact h.2.trans (by decide)

/-- Once `gfile.Create` has succeeded `Upload` returns nil, whatever the
copy, the flush and the close return. -/
theorem Local_Upload_nil_of_created {σ φ : Type} (fs : LocalFs σ φ) (c : LocalAdapter)
    (path : String) (reader : Bytes) (size : Int) (headers : List HeaderMap) (w w1 : σ)
    (file : φ) (hc : fs.Create (fs.Join c.config.Path path) w = (Except.ok file, w1)) :
    (LocalAdapter.Upload fs c path reader size headers w).1 = none := by
  unfold LocalAdapter.Upload
  rw [hc]

/-- C20 (the code at the failing input): on the full disk, where the copy
into the created file fails with "no space left on device" and so does the
flush, `Upload` of three bytes returns nil; the file exists and is empty, and
the download that follows yields no byte. -/
theorem Local_Upload_swallows_write_error :
    fullDiskFs.ReadFrom "/data/a.txt" [1, 2, 3] [("/data/a.txt", [])] =
      ((0, some "write: no space left on device"), [("/data/a.txt", [])]) ∧
    LocalAdapter.Upload fullDiskFs dataLocalAdapter "a.txt" [1, 2, 3] 3 [] [] =
      (none, [("/data/a.txt", [])]) ∧
    LocalAdapter.Download fullDiskFs dataLocalAdapter "a.txt" [("/data/a.txt", [])] =
      ((FileBody.file [], none), [("/data/a.txt", [])]) := by
  refine ⟨?_, ?_, ?_⟩ <;> decide

/-- C16 (the code at the failing input): on the full disk `Upload` of the
three bytes 1, 2, 3 to `a.txt` returns nil, and the `Download` of `a.txt`
that follows returns a nil error and an open file that yields no byte, not
the three uploaded bytes: the round trip is broken although `Upload`
returned nil. -/
theorem Local_round_trip_breaks_on_write_error :
    (LocalAdapter.Upload fullDiskFs dataLocalAdapter "a.txt" [1, 2, 3] 3 [] []).1 = none ∧
    LocalAdapter.Download fullDiskFs dataLocalAdapter "a.txt"
        (LocalAdapter.Upload fullDiskFs dataLocalAdapter "a.txt" [1, 2, 3] 3 [] []).2 =
      ((FileBody.file [], none), [("/data/a.txt", [])]) ∧
    (LocalAdapter.Download fullDiskFs dataLocalAdapter "a.txt"
        (LocalAdapter.Upload fullDiskFs dataLocalAdapter "a.txt" [1, 2, 3] 3 [] []).2).1 ≠
      (FileBody.file [1, 2, 3], none) := by
  refine ⟨?_, ?_, ?_⟩ <;> decide

/-! ### Bulk delete on BOS -/

/-- Whatever error the BOS bulk-delete call returns, `Delete` returns nil
when the call returns no result value. -/
theorem Bos_Delete_drops_error {σ : Type} (h : PathHelpers) (b : BosAdapter σ)
    (objects : List String) (w w1 : σ) (e : Err) (hne : objects ≠ [])
    (hcall : b.client.DeleteMultipleObjectsFromKeyList b.config.Bucket
      (objects.map h.objectRel) w = ((none, e), w1)) :
    BosAdapter.Delete h b objects w = (none, w1) := by
  unfold BosAdapter.Delete
  have h0 : ¬ objects.length = 0 := fun h0 => hne (List.length_eq_zero.mp h0)
  rw [if_neg h0, hcall]

/-- C19 (the code at the failing input): over a BOS client whose bulk delete
fails with "connection refused", `Delete` of one object returns nil. -/
theorem Bos_Delete_swallows_backend_error :
    unreachableBosClient.DeleteMultipleObjectsFromKeyList "bucket" ["a.txt"] [] =
      ((none, some "dial tcp: connection refused"), []) ∧
    BosAdapter.Delete specHelpers unreachableBosAdapter ["a.txt"] [] = (none, []) := by
  refine ⟨rfl, ?_⟩
  decide

/-! ### Listing -/

/-- The first character of a relative form is not in the cutset `./`. -/
theorem objectRel_head_not_trimmed (k : String) (c : Char)
    (hc : (objectRel k).toList.head? = some c) : ("./".toList.contains c) = false := by
  have := List.head?_dropWhile_not (fun c => "./".toList.contains c) (toSlash k).toList
  simp only [objectRel, trimLeft, String.toList] at hc
  simp only [String.toList] at this
  rw [hc] at this
  simpa using this

/-- A prefix of a relative form is its own relative form. -/
theorem objectRel_of_initial (K p : String) (hp : hasPrefix (objectRel K) p = true) :
    objectRel p = p := by
  have hpre : p.toList <+: (objectRel K).toList := List.isPrefixOf_iff_prefix.mp hp
  have hs : toSlash p = p :=
    toSlash_of_no_backslash p (fun c hc => objectRel_no_backslash K c (hpre.subset hc))
  unfold objectRel
  rw [hs]
  unfold trimLeft
  have hd : p.toList.dropWhile (fun c => "./".toList.contains c) = p.toList := by
    obtain ⟨t, ht⟩ := hpre
    cases hq : p.toList with
    | nil => rfl
    | cons c rest =>
      rw [hq] at ht
      have hhead : (objectRel K).toList.head? = some c := by rw [← ht]; rfl
      have := objectRel_head_not_trimmed K c hhead
      simp only [List.dropWhile, this]
  rw [hd]
  rfl

/-- On the modelled filesystem the upload of `a.txt` by the local adapter
succeeds, and its listing of the prefix `a` that follows returns a nil error
and an empty list. -/
theorem Local_Lists_empty_after_upload :
    (LocalAdapter.Upload memFs dataLocalAdapter "a.txt" [1, 2, 3] 3 [] []).1 = none ∧
    hasPrefix (objectRel "a.txt") "a" = true ∧
    LocalAdapter.Lists dataLocalAdapter "a"
        (LocalAdapter.Upload memFs dataLocalAdapter "a.txt" [1, 2, 3] 3 [] []).2 =
      (([], none), [("/data/a.txt", [1, 2, 3])]) ∧
    ¬ ∃ f ∈ (LocalAdapter.Lists dataLocalAdapter "a"
        (LocalAdapter.Upload memFs dataLocalAdapter "a.txt" [1, 2, 3] 3 [] []).2).1.1,
      f.Name = objectRel "a.txt" := by
  refine ⟨by decide, by decide, by decide, ?_⟩
  rintro ⟨f, hf, _⟩
  exact absurd hf (List.not_mem_nil f)

/-- In the in-memory object store a key that has just been put is among the
entries under each of its prefixes. -/
theorem Mem_put_under (m : Mem) (key p : String) (reader : Bytes)
    (hp : hasPrefix key p = true) : (key, reader) ∈ (m.put key reader).under p := by
  unfold Mem.under Mem.put
  exact List.mem_filter.mpr ⟨List.mem_cons_self _ _, hp⟩

/-- The in-memory MinIO client lists a key that has been put. -/
theorem memMinioSdk_ListsAfterPut : memMinioSdk.ListsAfterPut := by
  intro bucket key p reader size opts w _ hp
  refine ⟨{ Key := key, Size := Int.ofNat reader.length, LastModified := 0 }, ?_, rfl⟩
  exact List.mem_map.mpr ⟨(key, reader), Mem_put_under w key p reader hp, rfl⟩

/-- The in-memory BOS client lists a key that has been put. -/
theorem memBosSdk_ListsAfterPut : memBosSdk.ListsAfterPut := by
  intro bucket key p reader args w _ hp
  refine ⟨rfl, { Key := key, Size := Int.ofNat reader.length, LastModified := "" }, ?_, rfl⟩
  exact List.mem_map.mpr ⟨(key, reader), Mem_put_under w key p reader hp, rfl⟩

/-- The in-memory OBS client lists a key that has been put. -/
theorem memObsSdk_ListsAfterPut : memObsSdk.ListsAfterPut := by
  intro input p w _ hp
  refine ⟨rfl, { Key := input.Key, Size := Int.ofNat input.Body.length, LastModified := 0 },
    ?_, rfl⟩
  exact List.mem_map.mpr ⟨(input.Key, input.Body), Mem_put_under w input.Key p input.Body hp, rfl⟩

/-- The in-memory Qiniu client lists a key that has been put. -/
theorem memQiniuSdk_ListsAfterPut : memQiniuSdk.ListsAfterPut := by
  intro bucket key p reader size params w _ hp
  refine ⟨rfl, { Key := key, Fsize := Int.ofNat reader.length, PutTime := 0 }, ?_, rfl⟩
  exact List.mem_map.mpr ⟨(key, reader), Mem_put_under w key p reader hp, rfl⟩

/-- The in-memory OSS client lists a key that has been put. -/
theorem memOssSdk_ListsAfterPut : memOssSdk.ListsAfterPut := by
  intro key p reader opts w _ hp
  refine ⟨rfl, { Key := key, Size := Int.ofNat reader.length, LastModified := 0 }, ?_, rfl⟩
  exact List.mem_map.mpr ⟨(key, reader), Mem_put_under w key p reader hp, rfl⟩

/-- The MinIO listing returns a nil error and a file named `objectRel(k)`
for every key `k` which the client's listing reports. -/
theorem MinIo_Lists_reports {σ : Type} (h : PathHelpers) (k p : String)
    (sdk : MinioSdk σ) (m : MinIoAdapter σ) (w : σ) :
    (MinIoAdapter.Lists h sdk m p w).1.2 = none ∧
    ((∃ object ∈ (sdk.ListObjectsV2 m.config.Bucket (h.objectRel p) true w).1,
        object.Key = k) →
      ∃ f ∈ (MinIoAdapter.Lists h sdk m p w).1.1, f.Name = h.objectRel k) := by
  refine ⟨rfl, ?_⟩
  rintro ⟨object, hmem, hkey⟩
  refine ⟨_, List.mem_map_of_mem _ hmem, ?_⟩
  show h.objectRel object.Key = h.objectRel k
  rw [hkey]

/-- The BOS listing returns a nil error when the client's listing does, and
then a file named `objectRel(k)` for every key `k` which it reports. -/
theorem Bos_Lists_reports {σ : Type} (h : PathHelpers) (lib : GoLib) (k p : String)
    (sdk : BosSdk σ) (b : BosAdapter σ) (w : σ)
    (herr : (sdk.ListObjects b.config.Bucket (h.objectRel p) 1000 w).1.2 = none)
    (hrep : ∃ object ∈ (sdk.ListObjects b.config.Bucket (h.objectRel p) 1000 w).1.1,
      object.Key = k) :
    (BosAdapter.Lists h lib sdk b p w).1.2 = none ∧
    ∃ f ∈ (BosAdapter.Lists h lib sdk b p w).1.1, f.Name = h.objectRel k := by
  unfold BosAdapter.Lists
  rcases hr : sdk.ListObjects b.config.Bucket (h.objectRel p) 1000 w with ⟨⟨contents, e⟩, w1⟩
  rw [hr] at herr hrep
  simp only [] at herr
  subst herr
  obtain ⟨object, hmem, hkey⟩ := hrep
  refine ⟨rfl, _, List.mem_map_of_mem _ hmem, ?_⟩
  show h.objectRel object.Key = h.objectRel k
  rw [hkey]

/-- The OBS listing returns a nil error when the client's listing does, and
then a file named `objectRel(k)` for every key `k` which it reports. -/
theorem Obs_Lists_reports {σ : Type} (h : PathHelpers) (k p : String)
    (sdk : ObsSdk σ) (o : ObsAdapter σ) (w : σ)
    (herr : (sdk.ListObjects o.config.Bucket (h.objectRel p) w).1.2 = none)
    (hrep : ∃ item ∈ (sdk.ListObjects o.config.Bucket (h.objectRel p) w).1.1, item.Key = k) :
    (ObsAdapter.Lists h sdk o p w).1.2 = none ∧
    ∃ f ∈ (ObsAdapter.Lists h sdk o p w).1.1, f.Name = h.objectRel k := by
  unfold ObsAdapter.Lists
  rcases hr : sdk.ListObjects o.config.Bucket (h.objectRel p) w with ⟨⟨contents, e⟩, w1⟩
  rw [hr] at herr hrep
  simp only [] at herr
  subst herr
  obtain ⟨item, hmem, hkey⟩ := hrep
  refine ⟨rfl, _, List.mem_map_of_mem _ hmem, ?_⟩
  show h.objectRel item.Key = h.objectRel k
  rw [hkey]

/-- The Qiniu listing returns a nil error when the client's listing does,
and then a file named `objectRel(k)` for every key `k` which it reports. -/
theorem Qiniu_Lists_reports {σ : Type} (h : PathHelpers) (k p : String)
    (sdk : QiniuSdk σ) (q : QiniuAdapter σ) (w : σ)
    (herr : (sdk.ListFiles q.config.Bucket (h.objectRel p) 1000 w).1.2 = none)
    (hrep : ∃ item ∈ (sdk.ListFiles q.config.Bucket (h.objectRel p) 1000 w).1.1,
      item.Key = k) :
    (QiniuAdapter.Lists h sdk q p w).1.2 = none ∧
    ∃ f ∈ (QiniuAdapter.Lists h sdk q p w).1.1, f.Name = h.objectRel k := by
  unfold QiniuAdapter.Lists
  rcases hr : sdk.ListFiles q.config.Bucket (h.objectRel p) 1000 w with ⟨⟨items, e⟩, w1⟩
  rw [hr] at herr hrep
  simp only [] at herr
  subst herr
  obtain ⟨item, hmem, hkey⟩ := hrep
  refine ⟨rfl, _, List.mem_map_of_mem _ hmem, ?_⟩
  show h.objectRel item.Key = h.objectRel k
  rw [hkey]

/-- The OSS listing returns a nil error when the client's listing does, and
then a file named `k` for every key `k` which it reports. -/
theorem Oss_Lists_reports {σ : Type} (h : PathHelpers) (k p : String)
    (sdk : OssSdk σ) (w : σ)
    (herr : (sdk.ListObjects (h.objectRel p) w).1.2 = none)
    (hrep : ∃ object ∈ (sdk.ListObjects (h.objectRel p) w).1.1, object.Key = k) :
    (OssAdapter.Lists h sdk p w).1.2 = none ∧
    ∃ f ∈ (OssAdapter.Lists h sdk p w).1.1, f.Name = k := by
  unfold OssAdapter.Lists
  rcases hr : sdk.ListObjects (h.objectRel p) w with ⟨⟨objects, e⟩, w1⟩
  rw [hr] at herr hrep
  simp only [] at herr
  subst herr
  obtain ⟨object, hmem, hkey⟩ := hrep
  refine ⟨rfl, _, List.mem_map_of_mem _ hmem, ?_⟩
  show object.Key = k
  exact hkey

/-- A property kept by the body of the two nested header loops holds after
them. -/
theorem foldl_headers_inv {O : Type} (step : O → String × String → O) (P : O → Prop)
    (hstep : ∀ o kv, P o → P (step o kv)) :
    ∀ (headers : List HeaderMap) (o : O), P o →
      P (headers.foldl (fun acc header => header.foldl step acc) o) := by
  have hinner : ∀ (header : HeaderMap) (o : O), P o → P (header.foldl step o) := by
    intro header
    induction header with
    | nil => intro o ho; exact ho
    | cons kv rest ih => intro o ho; exact ih _ (hstep o kv ho)
  intro headers
  induction headers with
  | nil => intro o ho; exact ho
  | cons hd rest ih => intro o ho; exact ih _ (hinner hd o ho)

/-- The UpYun listing, when the client has at most 1000 entries to send:
it returns a nil error, whatever `client.List` returns, and the files are
those named `filepath.Join(objectRel(p), objectRel(name))` for the names of
the entries sent. -/
theorem UpYun_Lists_reports {σ : Type} (h : PathHelpers) (join : String → String → String)
    (p : String) (sdk : UpYunSdk σ) (u : UpYunAdapter σ) (w : σ)
    (hlen : (sdk.List (h.objectRel p) w).1.1.length ≤ 1000) :
    ∃ files, UpYunAdapter.Lists h join sdk u p w =
        some ((files, none), (sdk.List (h.objectRel p) w).2) ∧
      ∀ name, (∃ f ∈ files, f.Name = name) ↔
        ∃ obj ∈ (sdk.List (h.objectRel p) w).1.1,
          join (h.objectRel p) (h.objectRel obj.Name) = name := by
  unfold UpYunAdapter.Lists
  rcases hr : sdk.List (h.objectRel p) w with ⟨⟨objs, e⟩, w1⟩
  rw [hr] at hlen
  simp only [] at hlen
  refine ⟨objs.map (fun (obj : UpYunFileInfo) =>
    ({ ModTime := obj.Time, Size := obj.Size, IsDir := obj.IsDir, Header := obj.Meta,
       Name := join (h.objectRel p) (h.objectRel obj.Name) } : File)), ?_, ?_⟩
  · show (if objs.length ≤ 1000 then _ else none) = _
    rw [if_pos hlen]
  intro name
  constructor
  · rintro ⟨f, hf, hname⟩
    obtain ⟨obj, hobj, rfl⟩ := List.mem_map.mp hf
    exact ⟨obj, hobj, hname⟩
  · rintro ⟨obj, hobj, hname⟩
    exact ⟨_, List.mem_map_of_mem _ hobj, hname⟩

/-- C17 (counterexample): on the in-memory COS backend the upload of `a.txt`
succeeds and the object is stored, and the listing of the prefix `a` that
follows returns a nil error and an empty list: no file named `a.txt` is in
it. On the in-memory UpYun directory store the upload of `docs/a.txt`
succeeds, and the listing of the prefix `do`, which is no directory, returns
a nil error and an empty list. -/
theorem Lists_empty_after_upload :
    (CosAdapter.Upload specHelpers asciiLib memCosSdk memCosAdapter "a.txt" [1, 2, 3] 3 []
      []).1 = none ∧
    hasPrefix (objectRel "a.txt") "a" = true ∧
    CosAdapter.Lists memCosAdapter "a"
        (CosAdapter.Upload specHelpers asciiLib memCosSdk memCosAdapter "a.txt" [1, 2, 3] 3 []
          []).2 =
      (([], none), [("a.txt", [1, 2, 3])]) ∧
    (¬ ∃ f ∈ (CosAdapter.Lists memCosAdapter "a"
        (CosAdapter.Upload specHelpers asciiLib memCosSdk memCosAdapter "a.txt" [1, 2, 3] 3 []
          []).2).1.1,
      f.Name = objectRel "a.txt") ∧
    (UpYunAdapter.Upload specHelpers memUpYunSdk memUpYunAdapter "docs/a.txt" [1, 2, 3] 3 []
      []).1 = none ∧
    hasPrefix (objectRel "docs/a.txt") "do" = true ∧
    UpYunAdapter.Lists specHelpers slashJoin memUpYunSdk memUpYunAdapter "do"
        (UpYunAdapter.Upload specHelpers memUpYunSdk memUpYunAdapter "docs/a.txt" [1, 2, 3] 3 []
          []).2 =
      some (([], none), [("/docs/a.txt", [1, 2, 3])]) := by
  refine ⟨by decide, by decide, by decide, ?_, by decide, by decide, by decide⟩
  rintro ⟨f, hf, _⟩
  exact absurd hf (List.not_mem_nil f)

/-- C17 (amended): with a relative form that is idempotent and that leaves
every prefix of a relative form unchanged, for every key `K` and every prefix
`p` of `objectRel(K)`: for the MinIO, Bos, Obs, Qiniu and Oss adapters over a
client that lists a key that has been put, after an `Upload` of `K` that
returned nil `Lists(p)` returns a nil error and a list that contains a file
named `objectRel(K)`, for Oss when the key it puts, `strings.TrimLeft(K, "./")`,
is `objectRel(K)`. `UpYunAdapter.Lists(p)` lists the directory `objectRel(p)`:
when the client sends at most 1000 entries it returns a nil error, and a file
named `N` exactly when an entry was sent whose name, made relative and joined
to `objectRel(p)`, is `N`. `CosAdapter.Lists(p)` after an `Upload` of `K`
returns a nil error and the empty list. -/
theorem Lists_after_Upload (h : PathHelpers) (lib : GoLib) (K p : String) (B : Bytes)
    (size : Int) (headers : List HeaderMap)
    (hidem : ∀ k, h.objectRel (h.objectRel k) = h.objectRel k)
    (hpre : ∀ k q, hasPrefix (h.objectRel k) q = true → h.objectRel q = q)
    (hp : hasPrefix (h.objectRel K) p = true) :
    (∀ (σ : Type) (sdk : MinioSdk σ) (m : MinIoAdapter σ) (w : σ), sdk.ListsAfterPut →
      (MinIoAdapter.Upload h lib sdk m K B size headers w).1 = none →
      (MinIoAdapter.Lists h sdk m p
        (MinIoAdapter.Upload h lib sdk m K B size headers w).2).1.2 = none ∧
      ∃ f ∈ (MinIoAdapter.Lists h sdk m p
        (MinIoAdapter.Upload h lib sdk m K B size headers w).2).1.1,
        f.Name = h.objectRel K) ∧
    (∀ (σ : Type) (sdk : BosSdk σ) (b : BosAdapter σ) (w : σ), sdk.ListsAfterPut →
      (BosAdapter.Upload h lib sdk b K B size headers w).1 = none →
      (BosAdapter.Lists h lib sdk b p
        (BosAdapter.Upload h lib sdk b K B size headers w).2).1.2 = none ∧
      ∃ f ∈ (BosAdapter.Lists h lib sdk b p
        (BosAdapter.Upload h lib sdk b K B size headers w).2).1.1,
        f.Name = h.objectRel K) ∧
    (∀ (σ : Type) (sdk : ObsSdk σ) (o : ObsAdapter σ) (w : σ), sdk.ListsAfterPut →
      (ObsAdapter.Upload h lib sdk o K B size headers w).1 = none →
      (ObsAdapter.Lists h sdk o p
        (ObsAdapter.Upload h lib sdk o K B size headers w).2).1.2 = none ∧
      ∃ f ∈ (ObsAdapter.Lists h sdk o p
        (ObsAdapter.Upload h lib sdk o K B size headers w).2).1.1,
        f.Name = h.objectRel K) ∧
    (∀ (σ : Type) (sdk : QiniuSdk σ) (q : QiniuAdapter σ) (w : σ), sdk.ListsAfterPut →
      (QiniuAdapter.Upload h sdk q K B size headers w).1 = none →
      (QiniuAdapter.Lists h sdk q p
        (QiniuAdapter.Upload h sdk q K B size headers w).2).1.2 = none ∧
      ∃ f ∈ (QiniuAdapter.Lists h sdk q p
        (QiniuAdapter.Upload h sdk q K B size headers w).2).1.1,
        f.Name = h.objectRel K) ∧
    (∀ (σ : Type) (sdk : OssSdk σ) (w : σ), sdk.ListsAfterPut →
      trimLeft K "./" = h.objectRel K →
      (OssAdapter.Upload lib sdk K B size headers w).1 = none →
      (OssAdapter.Lists h sdk p (OssAdapter.Upload lib sdk K B size headers w).2).1.2 = none ∧
      ∃ f ∈ (OssAdapter.Lists h sdk p (OssAdapter.Upload lib sdk K B size headers w).2).1.1,
        f.Name = h.objectRel K) ∧
    (∀ (σ : Type) (join : String → String → String) (sdk : UpYunSdk σ) (u : UpYunAdapter σ)
        (w : σ),
      (sdk.List (h.objectRel p) w).1.1.length ≤ 1000 →
      ∃ files, UpYunAdapter.Lists h join sdk u p w =
          some ((files, none), (sdk.List (h.objectRel p) w).2) ∧
        ∀ name, (∃ f ∈ files, f.Name = name) ↔
          ∃ obj ∈ (sdk.List (h.objectRel p) w).1.1,
            join (h.objectRel p) (h.objectRel obj.Name) = name) ∧
    (∀ (σ : Type) (sdk : CosSdk σ) (c : CosAdapter σ) (w : σ),
      CosAdapter.Lists c p (CosAdapter.Upload h lib sdk c K B size headers w).2 =
        (([], none), (CosAdapter.Upload h lib sdk c K B size headers w).2)) := by
  have hq : hasPrefix (h.objectRel K) (h.objectRel p) = true := by
    rw [hpre K p hp]; exact hp
  refine ⟨?_, ?_, ?_, ?_, ?_, ?_, fun _ _ _ _ => rfl⟩
  · intro σ sdk m w hc hu
    have hrep := hc m.config.Bucket (h.objectRel K) (h.objectRel p) B size
      (MinIoAdapter.options lib headers) w hu hq
    have := MinIo_Lists_reports h (h.objectRel K) p sdk m
      (MinIoAdapter.Upload h lib sdk m K B size headers w).2
    rw [hidem] at this
    exact ⟨this.1, this.2 hrep⟩
  · intro σ sdk b w hc hu
    obtain ⟨herr, hrep⟩ := hc b.config.Bucket (h.objectRel K) (h.objectRel p) B
      (BosAdapter.args lib headers) w hu hq
    have := Bos_Lists_reports h lib (h.objectRel K) p sdk b
      (BosAdapter.Upload h lib sdk b K B size headers w).2 herr hrep
    rw [hidem] at this
    exact this
  · intro σ sdk o w hc hu
    have hkey : (ObsAdapter.input h lib o K B headers).Key = h.objectRel K ∧
        (ObsAdapter.input h lib o K B headers).Bucket = o.config.Bucket := by
      unfold ObsAdapter.input
      refine foldl_headers_inv (ObsAdapter.header lib)
        (fun input => input.Key = h.objectRel K ∧ input.Bucket = o.config.Bucket) ?_
        headers _ ⟨rfl, rfl⟩
      intro input kv hin
      unfold ObsAdapter.header
      split <;> exact hin
    have hq2 : hasPrefix (ObsAdapter.input h lib o K B headers).Key (h.objectRel p) = true := by
      rw [hkey.1]; exact hq
    obtain ⟨herr, hrep⟩ := hc (ObsAdapter.input h lib o K B headers) (h.objectRel p) w hu hq2
    rw [hkey.1, hkey.2] at hrep
    rw [hkey.2] at herr
    have := Obs_Lists_reports h (h.objectRel K) p sdk o
      (ObsAdapter.Upload h lib sdk o K B size headers w).2 herr hrep
    rw [hidem] at this
    exact this
  · intro σ sdk q w hc hu
    obtain ⟨herr, hrep⟩ := hc q.config.Bucket (h.objectRel K) (h.objectRel p) B size _ _ hu hq
    have := Qiniu_Lists_reports h (h.objectRel K) p sdk q
      (QiniuAdapter.Upload h sdk q K B size headers w).2 herr hrep
    rw [hidem] at this
    exact this
  · intro σ sdk w hc hk hu
    have hq3 : hasPrefix (trimLeft K "./") (h.objectRel p) = true := by rw [hk]; exact hq
    obtain ⟨herr, hrep⟩ := hc (trimLeft K "./") (h.objectRel p) B _ w hu hq3
    have := Oss_Lists_reports h (trimLeft K "./") p sdk
      (OssAdapter.Upload lib sdk K B size headers w).2 herr hrep
    rw [hk] at this
    exact this
  · intro σ join sdk u w hlen
    exact UpYun_Lists_reports h join p sdk u w hlen

/-- C17 (witness): the modelled relative form is idempotent and leaves the
prefixes of a relative form unchanged, and `docs` is a prefix of the relative
form `docs/a.txt` of `./docs/a.txt`. On the in-memory MinIO, BOS, OBS, Qiniu
and OSS backends, each of which lists a key that has been put, the upload of
`./docs/a.txt` returns nil and the listing of `docs` that follows returns a
nil error and a file named `docs/a.txt`. On the in-memory UpYun directory
store the listing of `docs` after that upload returns a nil error and the one
file `docs/a.txt`. -/
theorem Lists_after_Upload_witness :
    (∀ k, specHelpers.objectRel (specHelpers.objectRel k) = specHelpers.objectRel k) ∧
    (∀ k q, hasPrefix (specHelpers.objectRel k) q = true → specHelpers.objectRel q = q) ∧
    hasPrefix (specHelpers.objectRel "./docs/a.txt") "docs" = true ∧
    specHelpers.objectRel "./docs/a.txt" = "docs/a.txt" ∧
    ((MinIoAdapter.Lists specHelpers memMinioSdk (memMinioAdapter 0) "docs"
        (MinIoAdapter.Upload specHelpers asciiLib memMinioSdk (memMinioAdapter 0)
          "./docs/a.txt" [1, 2] 2 [] []).2).1.2 = none ∧
      ∃ f ∈ (MinIoAdapter.Lists specHelpers memMinioSdk (memMinioAdapter 0) "docs"
        (MinIoAdapter.Upload specHelpers asciiLib memMinioSdk (memMinioAdapter 0)
          "./docs/a.txt" [1, 2] 2 [] []).2).1.1,
        f.Name = specHelpers.objectRel "./docs/a.txt") ∧
    ((BosAdapter.Lists specHelpers asciiLib memBosSdk memBosAdapter "docs"
        (BosAdapter.Upload specHelpers asciiLib memBosSdk memBosAdapter
          "./docs/a.txt" [1, 2] 2 [] []).2).1.2 = none ∧
      ∃ f ∈ (BosAdapter.Lists specHelpers asciiLib memBosSdk memBosAdapter "docs"
        (BosAdapter.Upload specHelpers asciiLib memBosSdk memBosAdapter
          "./docs/a.txt" [1, 2] 2 [] []).2).1.1,
        f.Name = specHelpers.objectRel "./docs/a.txt") ∧
    ((ObsAdapter.Lists specHelpers memObsSdk memObsAdapter "docs"
        (ObsAdapter.Upload specHelpers asciiLib memObsSdk memObsAdapter
          "./docs/a.txt" [1, 2] 2 [] []).2).1.2 = none ∧
      ∃ f ∈ (ObsAdapter.Lists specHelpers memObsSdk memObsAdapter "docs"
        (ObsAdapter.Upload specHelpers asciiLib memObsSdk memObsAdapter
          "./docs/a.txt" [1, 2] 2 [] []).2).1.1,
        f.Name = specHelpers.objectRel "./docs/a.txt") ∧
    ((QiniuAdapter.Lists specHelpers memQiniuSdk memQiniuAdapter "docs"
        (QiniuAdapter.Upload specHelpers memQiniuSdk memQiniuAdapter
          "./docs/a.txt" [1, 2] 2 [] []).2).1.2 = none ∧
      ∃ f ∈ (QiniuAdapter.Lists specHelpers memQiniuSdk memQiniuAdapter "docs"
        (QiniuAdapter.Upload specHelpers memQiniuSdk memQiniuAdapter
          "./docs/a.txt" [1, 2] 2 [] []).2).1.1,
        f.Name = specHelpers.objectRel "./docs/a.txt") ∧
    ((OssAdapter.Lists specHelpers memOssSdk "docs"
        (OssAdapter.Upload asciiLib memOssSdk "./docs/a.txt" [1, 2] 2 [] []).2).1.2 = none ∧
      ∃ f ∈ (OssAdapter.Lists specHelpers memOssSdk "docs"
        (OssAdapter.Upload asciiLib memOssSdk "./docs/a.txt" [1, 2] 2 [] []).2).1.1,
        f.Name = specHelpers.objectRel "./docs/a.txt") ∧
    UpYunAdapter.Lists specHelpers slashJoin memUpYunSdk memUpYunAdapter "docs"
        (UpYunAdapter.Upload specHelpers memUpYunSdk memUpYunAdapter "./docs/a.txt" [1, 2] 2 []
          []).2 =
      some (([{ ModTime := 0, Name := "docs/a.txt", Size := 2, IsDir := false, Header := [] }],
        none), [("/docs/a.txt", [1, 2])]) := by
  have T := Lists_after_Upload specHelpers asciiLib "./docs/a.txt" "docs" [1, 2] 2 []
    objectRel_idem objectRel_of_initial (by decide)
  refine ⟨objectRel_idem, objectRel_of_initial, by decide, by decide, ?_, ?_, ?_, ?_, ?_,
    by decide⟩
  · exact T.1 Mem memMinioSdk (memMinioAdapter 0) [] memMinioSdk_ListsAfterPut rfl
  · exact T.2.1 Mem memBosSdk memBosAdapter [] memBosSdk_ListsAfterPut rfl
  · exact T.2.2.1 Mem memObsSdk memObsAdapter [] memObsSdk_ListsAfterPut rfl
  · exact T.2.2.2.1 Mem memQiniuSdk memQiniuAdapter [] memQiniuSdk_ListsAfterPut rfl
  · exact T.2.2.2.2.1 Mem memOssSdk [] memOssSdk_ListsAfterPut (by decide) rfl

/-! ### Validity of the MinIO signed URL -/

/-- With a positive expiry in force, `MinIoAdapter.GetSignURL` asks the
client for a presigned URL on the key `objectRel(K)` with the validity
`time.Duration(m.config.Expire) * time.Second`, whatever the expiry argument
and whatever `sevenDays`. -/
theorem MinIo_GetSignURL_validity {σ : Type} (h : PathHelpers) (sevenDays : Int)
    (sdk : MinioSdk σ) (m : MinIoAdapter σ) (K : String) (expire : List Int) (w : σ)
    (hpos : 0 < expOf m.config.Expire expire) :
    MinIoAdapter.GetSignURL h sevenDays sdk m K expire w =
      match sdk.PresignedGetObject m.config.Bucket (h.objectRel K)
          (seconds m.config.Expire) w with
      | (Except.error err, w1) => (("", some err), w1)
      | (Except.ok u, w1) => ((rehostURL m.config.Domain u, none), w1) := by
  have hn : ¬ expOf m.config.Expire expire ≤ 0 := by omega
  unfold MinIoAdapter.GetSignURL
  rw [if_neg hn]

/-- C21 (the code at the failing input): with `sevenDays` = 604800, the MinIO
adapter configured with a default expiry of one hour and asked for `/a.txt`
with the explicit expiry 60 requests a validity of 3600 seconds on the key
`a.txt`, not of 60 seconds; configured with the default 0 and asked with the
explicit expiry 60 it requests a validity of 0 seconds; configured with the
default 700000 and asked with no expiry it requests 700000 seconds, not the
604800 of the cap. -/
theorem MinIo_GetSignURL_ignores_expire :
    MinIoAdapter.GetSignURL specHelpers 604800 probeMinioSdk (probeMinioAdapter 3600)
        "/a.txt" [60] [] =
      (("http://minio.local/bucket/a.txt?X-Amz-Signature=s", none),
        [("bucket", "a.txt", 3600 * 1000000000)]) ∧
    seconds (min 60 604800) = 60 * 1000000000 ∧
    (MinIoAdapter.GetSignURL specHelpers 604800 probeMinioSdk (probeMinioAdapter 0)
        "/a.txt" [60] []).2 = [("bucket", "a.txt", 0)] ∧
    (MinIoAdapter.GetSignURL specHelpers 604800 probeMinioSdk (probeMinioAdapter 700000)
        "/a.txt" [] []).2 = [("bucket", "a.txt", 700000 * 1000000000)] ∧
    seconds (min 700000 604800) = 604800 * 1000000000 := by
  refine ⟨?_, ?_, ?_, ?_, ?_⟩ <;> decide

end Filesys
